import Mathlib

/-!
# Mount feeding: the satisfaction state machine

A shallow embedding of `src/MountFeeding.cpp`.  A definition that mirrors a
declaration of the C++ source keeps its name; the four blocks of
`OnPlayerUpdate` and the two halves of `CanItemUse` are definitions of their
own, named after what the block does.

Conventions of the embedding:

* `int32` values are `Int`, `uint8`/`uint32` values are `Nat`; arithmetic that
  can leave the range is wrapped explicitly (`wrapInt32`, `% 4294967296`).
  Signed overflow is undefined in C++; the embedding wraps it in two's
  complement, and the theorems that depend on a sum say when it stays in range.
* `float` values are finite IEEE-754 binary32 numbers `mant * 2 ^ expo`, with
  round-to-nearest-even conversions and products (`F32`).
* The host (player, auras, chat, item stacks, database, clock) is state passed
  in and out of each handler.
-/

namespace MountFeeding

/-! ## Machine integers -/

/-- Two's-complement wrap of an integer into the `int32` range. -/
def wrapInt32 (x : Int) : Int :=
  (x + 2147483648) % 4294967296 - 2147483648

/-- The `uint32` difference `a - b`, taken modulo `2 ^ 32`. -/
def subUInt32 (a b : Nat) : Nat :=
  (a % 4294967296 + (4294967296 - b % 4294967296)) % 4294967296

/-! ## Binary32 arithmetic -/

/-- A finite binary32 value, denoting `mant * 2 ^ expo`. -/
structure F32 where
  mant : Int
  expo : Int
deriving DecidableEq, Repr

/-- Number of binary digits of `n`, by halving at most `fuel` times. -/
def bitLenAux : Nat → Nat → Nat
  | 0, _ => 0
  | fuel + 1, n => if n = 0 then 0 else bitLenAux fuel (n / 2) + 1

/-- Number of binary digits of `n` (`0` for `0`). -/
def bitLen (n : Nat) : Nat :=
  bitLenAux n n

/-- The integer nearest to `n / 2 ^ s`, ties going to the even one. -/
def roundShiftEven (n : Int) (s : Nat) : Int :=
  let d : Int := 2 ^ s
  let q := n / d
  let r := n % d
  if 2 * r < d then q
  else if d < 2 * r then q + 1
  else if q % 2 = 0 then q
  else q + 1

/-- Rounding of the exact value `m * 2 ^ e` to binary32: at most 24 significant
bits and no exponent below `-149`.  Values above the largest binary32 number
are kept finite; they are far outside the `int32` range, where the only
consumer (`F32.toInt32`) is undefined anyway. -/
def F32.round (m e : Int) : F32 :=
  let s := max (bitLen m.natAbs - 24) (-149 - e).toNat
  ⟨roundShiftEven m s, e + s⟩

/-- Conversion `int32 → float`. -/
def F32.ofInt (a : Int) : F32 :=
  F32.round a 0

/-- Product `float * float`. -/
def F32.mul (x y : F32) : F32 :=
  F32.round (x.mant * y.mant) (x.expo + y.expo)

/-- Smallest `int32`. -/
def INT32_MIN : Int := -2147483648

/-- Conversion `static_cast<int32>(float)`: truncation toward zero.  A value
outside the `int32` range is undefined behaviour in C++; the embedding
returns `INT32_MIN` there, as the x86-64 conversion instruction does. -/
def F32.toInt32 (x : F32) : Int :=
  let t := if 0 ≤ x.expo then x.mant * 2 ^ x.expo.toNat
           else Int.tdiv x.mant (2 ^ (-x.expo).toNat)
  if -2147483648 ≤ t ∧ t ≤ 2147483647 then t else INT32_MIN

/-- The expression `static_cast<int32>(a * m)` for `int32 a`, `float m`. -/
def mulToInt32 (a : Int) (m : F32) : Int :=
  (F32.mul (F32.ofInt a) m).toInt32

/-- The literal `1.0f`. -/
def F32.one : F32 := ⟨1, 0⟩

/-! ## Constants and configuration -/

def HAPPINESS_LEVEL_SIZE : Int := 333000

def SATISFACTION_MAX : Int := 999000

def THRESHOLD_HAPPY : Int := 2 * HAPPINESS_LEVEL_SIZE

def THRESHOLD_CONTENT : Int := HAPPINESS_LEVEL_SIZE

def DISMOUNT_GRACE_MS : Nat := 1000

def STATE_UNHAPPY : Nat := 0

def STATE_CONTENT : Nat := 1

def STATE_HAPPY : Nat := 2

/-- The static configuration variables set by `OnAfterConfigLoad`. -/
structure Config where
  sEnabled : Bool
  sContentSpeedMultiplier : F32
  sUnhappySpeedMultiplier : F32
  sDecayAmount : Int
  sDecayInterval : Int
  sDecayOnlyWhileMounted : Bool
  sDecayMultStationary : F32
  sDecayMultMoving : F32
  sDecayMultFlying : F32
  sDefaultSatisfaction : Int
  sUnhappyNoFly : Bool
  sSaveInterval : Int
deriving DecidableEq, Repr

/-- The initial values of the configuration variables (also the defaults of
`OnAfterConfigLoad`): multipliers `0.75`, `0.5`, `0.5`, `1.0`, `1.5`. -/
def defaultConfig : Config where
  sEnabled := true
  sContentSpeedMultiplier := ⟨3, -2⟩
  sUnhappySpeedMultiplier := ⟨1, -1⟩
  sDecayAmount := 670
  sDecayInterval := 7500
  sDecayOnlyWhileMounted := true
  sDecayMultStationary := ⟨1, -1⟩
  sDecayMultMoving := ⟨1, 0⟩
  sDecayMultFlying := ⟨3, -1⟩
  sDefaultSatisfaction := SATISFACTION_MAX
  sUnhappyNoFly := true
  sSaveInterval := 300000

/-- Per-player data (`struct MountFeedingData`). -/
structure MountFeedingData where
  satisfaction : Int
  pendingSpeedUpdate : Bool
  decayTimer : Int
  saveTimer : Int
  lastState : Nat
  baseGroundSpeed : Int
  baseFlyingSpeed : Int
  lastMountSpellId : Nat
  dismountTimeMs : Nat
  flyingDisabled : Bool
deriving DecidableEq, Repr

/-! ## Satisfaction model -/

def GetSatisfactionState (satisfaction : Int) : Nat :=
  if satisfaction ≥ THRESHOLD_HAPPY then STATE_HAPPY
  else if satisfaction ≥ THRESHOLD_CONTENT then STATE_CONTENT
  else STATE_UNHAPPY

def GetSpeedMultiplier (cfg : Config) (state : Nat) : F32 :=
  if state = STATE_HAPPY then F32.one
  else if state = STATE_CONTENT then cfg.sContentSpeedMultiplier
  else if state = STATE_UNHAPPY then cfg.sUnhappySpeedMultiplier
  else F32.one

/-- Food benefit from the player level (`uint8`) and the item level
(`uint32`).  The comparison runs in `uint32`, so each sum wraps at `2 ^ 32`. -/
def GetFoodBenefit (playerLevel : Nat) (itemLevel : Nat) : Int :=
  if playerLevel ≤ (itemLevel + 5) % 4294967296 then 350000
  else if playerLevel ≤ (itemLevel + 10) % 4294967296 then 175000
  else if playerLevel ≤ (itemLevel + 14) % 4294967296 then 80000
  else 0

/-! ## Host state -/

/-- Player identity.  `ObjectGuid::GetCounter` is the identity on player guids. -/
abbrev ObjectGuid := Nat

/-- The aura types the module distinguishes (`SpellAuraDefines.h`). -/
inductive AuraType
  | SPELL_AURA_MOUNTED
  | SPELL_AURA_MOD_INCREASE_MOUNTED_SPEED
  | SPELL_AURA_MOD_INCREASE_MOUNTED_FLIGHT_SPEED
  | other (id : Nat)
deriving DecidableEq, Repr

/-- An effect slot of an aura, as far as the aura hooks read it. -/
structure AuraEffect where
  auraType : AuraType
deriving DecidableEq, Repr

/-- An aura: its spell id and its `MAX_SPELL_EFFECTS = 3` effect slots. -/
structure Aura where
  id : Nat
  effect0 : Option AuraEffect
  effect1 : Option AuraEffect
  effect2 : Option AuraEffect
deriving DecidableEq, Repr

def MAX_SPELL_EFFECTS : Nat := 3

def Aura.GetEffect (aura : Aura) (i : Nat) : Option AuraEffect :=
  match i with
  | 0 => aura.effect0
  | 1 => aura.effect1
  | 2 => aura.effect2
  | _ => none

/-- An aura application; `GetBase` may be null. -/
structure AuraApplication where
  base : Option Aura
deriving DecidableEq, Repr

/-- The texts the module sends to the player's chat.  The speed percentage of a
state message is carried as the multiplier it is formatted from. -/
inductive ChatMsg
  | alreadySatisfied
  | tooLowLevel
  | eats (name : String)
  | happy
  | content (multiplier : F32)
  | unhappyNoFly (multiplier : F32)
  | unhappy (multiplier : F32)
deriving DecidableEq, Repr

/-- The Slow Fall aura (spell 130) on a player. -/
structure TimedAura where
  duration : Int
  maxDuration : Int
deriving DecidableEq, Repr

/-- The part of the host's `Player` the module reads and writes.  The two
effect lists hold the amounts of the player's active effects of type
`SPELL_AURA_MOD_INCREASE_MOUNTED_SPEED` and
`SPELL_AURA_MOD_INCREASE_MOUNTED_FLIGHT_SPEED`, in `GetAuraEffectsByType`
order; `canFly` is the capability last set through `SetCanFly`; `chat` is the
text sent to the session so far. -/
structure Player where
  guid : ObjectGuid
  level : Nat
  mounted : Bool
  falling : Bool
  flying : Bool
  moving : Bool
  groundSpeedEffects : List Int
  flightSpeedEffects : List Int
  canFly : Bool
  slowFall : Option TimedAura
  chat : List ChatMsg
deriving DecidableEq, Repr

/-- A unit of the world; `ToPlayer` is null for anything but a player. -/
inductive Unit
  | player (p : Player)
  | creature
deriving DecidableEq, Repr

def Unit.ToPlayer : Unit → Option Player
  | .player p => some p
  | .creature => none

structure ItemTemplate where
  FoodType : Nat
  ItemLevel : Nat
  Name1 : String
deriving DecidableEq, Repr

/-- An item stack: its template (may be null) and the units it holds. -/
structure Item where
  proto : Option ItemTemplate
  count : Nat
deriving DecidableEq, Repr

/-- The module's global store and the `mount_feeding` table
(`guid ↦ satisfaction`) of the character database. -/
structure World where
  sMountFeedingStore : ObjectGuid → Option MountFeedingData
  mount_feeding : ObjectGuid → Option Int

/-- Assignment `sMountFeedingStore[guid] = data`. -/
def World.setData (w : World) (guid : ObjectGuid) (data : MountFeedingData) : World :=
  { w with sMountFeedingStore := fun g => if g = guid then some data else w.sMountFeedingStore g }

/-- Removal `sMountFeedingStore.erase(it)`. -/
def World.erase (w : World) (guid : ObjectGuid) : World :=
  { w with sMountFeedingStore := fun g => if g = guid then none else w.sMountFeedingStore g }

/-- Host call `PSendSysMessage`. -/
def Player.PSendSysMessage (player : Player) (msg : ChatMsg) : Player :=
  { player with chat := player.chat ++ [msg] }

/-- Host call `SetCanFly`, modelled by the capability it sets. -/
def Player.SetCanFly (player : Player) (enable : Bool) : Player :=
  { player with canFly := enable }

/-- Host call `DestroyItemCount(item, count, true)` with `count = 1`: one unit
leaves the stack. -/
def DestroyItemCount (item : Item) (count : Nat) : Item :=
  { item with count := item.count - count }

/-! ## Shared effects -/

/-- Sets every mounted ground-speed and flight-speed effect to the penalised
base speed, when that is positive (`AuraEffect::ChangeAmount`). -/
def ApplySpeedPenalty (cfg : Config) (player : Player) (data : MountFeedingData) : Player :=
  let state := GetSatisfactionState data.satisfaction
  let multiplier := GetSpeedMultiplier cfg state
  let newGround := mulToInt32 data.baseGroundSpeed multiplier
  let newFlying := mulToInt32 data.baseFlyingSpeed multiplier
  { player with
    groundSpeedEffects :=
      player.groundSpeedEffects.map (fun amount => if newGround > 0 then newGround else amount)
    flightSpeedEffects :=
      player.flightSpeedEffects.map (fun amount => if newFlying > 0 then newFlying else amount) }

def UpdateFlyingState (cfg : Config) (player : Player) (data : MountFeedingData) :
    Player × MountFeedingData :=
  if !cfg.sUnhappyNoFly || !player.mounted then (player, data)
  else
    let state := GetSatisfactionState data.satisfaction
    let hasFlightAura := !player.flightSpeedEffects.isEmpty
    if !hasFlightAura then (player, data)
    else if state = STATE_UNHAPPY ∧ data.flyingDisabled = false then
      (player.SetCanFly false, { data with flyingDisabled := true })
    else if state ≠ STATE_UNHAPPY ∧ data.flyingDisabled = true then
      (player.SetCanFly true, { data with flyingDisabled := false })
    else (player, data)

def SendStateMessage (cfg : Config) (player : Player) (state : Nat) : Player :=
  if state = STATE_HAPPY then player.PSendSysMessage .happy
  else if state = STATE_CONTENT then
    player.PSendSysMessage (.content cfg.sContentSpeedMultiplier)
  else if state = STATE_UNHAPPY then
    if cfg.sUnhappyNoFly then player.PSendSysMessage (.unhappyNoFly cfg.sUnhappySpeedMultiplier)
    else player.PSendSysMessage (.unhappy cfg.sUnhappySpeedMultiplier)
  else player

/-- The upsert `REPLACE INTO mount_feeding (guid, satisfaction)`. -/
def SaveSatisfaction (w : World) (guid : ObjectGuid) (satisfaction : Int) : World :=
  { w with mount_feeding := fun g => if g = guid then some satisfaction else w.mount_feeding g }

/-- The block `if (newState != oldState) { ... }` that `CanItemUse`
(lines 257-266) and `OnPlayerUpdate` (lines 503-512) share verbatim. -/
def applyTransition (cfg : Config) (player : Player) (data : MountFeedingData)
    (oldState newState : Nat) : Player × MountFeedingData :=
  if newState ≠ oldState then
    let player1 := SendStateMessage cfg player newState
    if player1.mounted then
      let player2 :=
        if data.baseGroundSpeed > 0 then ApplySpeedPenalty cfg player1 data else player1
      UpdateFlyingState cfg player2 data
    else (player1, data)
  else (player, data)

/-! ## Item script: food interception -/

/-- What `CanItemUse` returns and leaves behind. -/
structure ItemUseResult where
  handled : Bool
  world : World
  player : Option Player
  item : Option Item

/-- Lines 217-226 of `CanItemUse`: whether the player, not mounted now, was
dismounted less than `DISMOUNT_GRACE_MS` ago; `gameTimeMs` is the value of
`GameTime::GetGameTimeMS().count()` at the call. -/
def wasMountedRecently (gameTimeMs : Nat) (isMounted : Bool) (data : MountFeedingData) : Bool :=
  if !isMounted && data.lastMountSpellId != 0 then
    let now := gameTimeMs % 4294967296
    let elapsed := subUInt32 now data.dismountTimeMs
    decide (elapsed < DISMOUNT_GRACE_MS)
  else false

/-- Lines 231-268 of `CanItemUse`: the interception, once the player is known
to be mounted or just dismounted. -/
def interceptFood (cfg : Config) (w : World) (p : Player) (it : Item) (proto : ItemTemplate)
    (data : MountFeedingData) : ItemUseResult :=
  if data.satisfaction ≥ SATISFACTION_MAX then
    ⟨true, w, some (p.PSendSysMessage .alreadySatisfied), some it⟩
  else
    let benefit := GetFoodBenefit p.level proto.ItemLevel
    if benefit = 0 then
      ⟨true, w, some (p.PSendSysMessage .tooLowLevel), some it⟩
    else
      let it1 := DestroyItemCount it 1
      let oldState := GetSatisfactionState data.satisfaction
      let data1 := { data with
        satisfaction := min (wrapInt32 (data.satisfaction + benefit)) SATISFACTION_MAX }
      let newState := GetSatisfactionState data1.satisfaction
      let data2 := { data1 with lastState := newState }
      let p1 := p.PSendSysMessage (.eats proto.Name1)
      let r := applyTransition cfg p1 data2 oldState newState
      ⟨true, w.setData p.guid r.2, some r.1, some it1⟩

/-- `MountFeedingItemScript::CanItemUse`. -/
def CanItemUse (cfg : Config) (gameTimeMs : Nat) (w : World)
    (player : Option Player) (item : Option Item) : ItemUseResult :=
  match player, item with
  | some p, some it =>
    if !cfg.sEnabled then ⟨false, w, player, item⟩
    else
      match it.proto with
      | none => ⟨false, w, player, item⟩
      | some proto =>
        if proto.FoodType = 0 then ⟨false, w, player, item⟩
        else
          match w.sMountFeedingStore p.guid with
          | none => ⟨false, w, player, item⟩
          | some data =>
            let isMounted := p.mounted
            if !isMounted && !wasMountedRecently gameTimeMs isMounted data then
              ⟨false, w, player, item⟩
            else interceptFood cfg w p it proto data
  | _, _ => ⟨false, w, player, item⟩

/-! ## Unit script: aura apply / remove -/

/-- The loop of `OnAuraApply` over the effect slots: whether a slot grants
mounted ground or flight speed, and whether a slot is the mount marker. -/
def auraApplyScan (aura : Aura) : Bool × Bool :=
  (List.range MAX_SPELL_EFFECTS).foldl
    (fun acc i =>
      match aura.GetEffect i with
      | none => acc
      | some effect =>
        let hasMountSpeed :=
          if effect.auraType = AuraType.SPELL_AURA_MOD_INCREASE_MOUNTED_SPEED ∨
              effect.auraType = AuraType.SPELL_AURA_MOD_INCREASE_MOUNTED_FLIGHT_SPEED
          then true else acc.1
        let isMountAura :=
          if effect.auraType = AuraType.SPELL_AURA_MOUNTED then true else acc.2
        (hasMountSpeed, isMountAura))
    (false, false)

def OnAuraApply (cfg : Config) (w : World) (unit : Unit) (aura : Aura) : World :=
  if !cfg.sEnabled then w
  else
    match unit.ToPlayer with
    | none => w
    | some player =>
      let scan := auraApplyScan aura
      let hasMountSpeed := scan.1
      let isMountAura := scan.2
      if !hasMountSpeed && !isMountAura then w
      else
        match w.sMountFeedingStore player.guid with
        | none => w
        | some data =>
          let data1 := if hasMountSpeed then { data with pendingSpeedUpdate := true } else data
          let data2 :=
            if isMountAura then
              { data1 with lastMountSpellId := aura.id, flyingDisabled := false }
            else data1
          w.setData player.guid data2

/-- The loop of `OnAuraRemove`: whether some effect slot is the mount marker. -/
def auraRemoveScan (aura : Aura) : Bool :=
  (List.range MAX_SPELL_EFFECTS).any
    (fun i =>
      match aura.GetEffect i with
      | none => false
      | some effect => decide (effect.auraType = AuraType.SPELL_AURA_MOUNTED))

def OnAuraRemove (cfg : Config) (gameTimeMs : Nat) (w : World) (unit : Unit)
    (aurApp : AuraApplication) : World :=
  if !cfg.sEnabled then w
  else
    match unit.ToPlayer with
    | none => w
    | some player =>
      match aurApp.base with
      | none => w
      | some aura =>
        let isMountAura := auraRemoveScan aura
        if !isMountAura then w
        else
          match w.sMountFeedingStore player.guid with
          | none => w
          | some data =>
            w.setData player.guid
              { data with
                dismountTimeMs := gameTimeMs % 4294967296
                baseGroundSpeed := 0
                baseFlyingSpeed := 0
                pendingSpeedUpdate := false
                flyingDisabled := false }

/-! ## Player script: login / logout / update / level -/

/-- The `std::clamp(v, lo, hi)` of the standard library. -/
def clamp (v lo hi : Int) : Int :=
  if v < lo then lo else if hi < v then hi else v

def OnPlayerLogin (cfg : Config) (w : World) (player : Option Player) : World :=
  match player with
  | none => w
  | some p =>
    if !cfg.sEnabled then w
    else
      let guid := p.guid
      let satisfaction :=
        match w.mount_feeding guid with
        | some row => row
        | none => cfg.sDefaultSatisfaction
      let sat := clamp satisfaction 0 SATISFACTION_MAX
      w.setData guid
        { satisfaction := sat
          pendingSpeedUpdate := false
          decayTimer := cfg.sDecayInterval
          saveTimer := cfg.sSaveInterval
          lastState := GetSatisfactionState sat
          baseGroundSpeed := 0
          baseFlyingSpeed := 0
          lastMountSpellId := 0
          dismountTimeMs := 0
          flyingDisabled := false }

def OnPlayerLogout (w : World) (player : Option Player) : World :=
  match player with
  | none => w
  | some p =>
    match w.sMountFeedingStore p.guid with
    | none => w
    | some data => (SaveSatisfaction w p.guid data.satisfaction).erase p.guid

/-- Host call `CastSpell(player, 130, true)`: Slow Fall at its full duration
(30 s in the host's spell data). -/
def Player.CastSlowFall (player : Player) : Player :=
  { player with slowFall := some ⟨30000, 30000⟩ }

/-- First block of `OnPlayerUpdate` (lines 432-457): the deferred speed capture. -/
def updatePendingSpeed (cfg : Config) (player : Player) (data : MountFeedingData) :
    Player × MountFeedingData :=
  if data.pendingSpeedUpdate && player.mounted then
    let data1 := { data with
      pendingSpeedUpdate := false
      baseGroundSpeed := player.groundSpeedEffects.headD 0
      baseFlyingSpeed := player.flightSpeedEffects.headD 0 }
    let state := GetSatisfactionState data1.satisfaction
    let player1 := if state ≠ STATE_HAPPY then ApplySpeedPenalty cfg player data1 else player
    let r := UpdateFlyingState cfg player1 data1
    (SendStateMessage cfg r.1 state, r.2)
  else (player, data)

/-- Second block of `OnPlayerUpdate` (lines 459-475): Slow Fall management. -/
def updateSlowFall (player : Player) (data : MountFeedingData) : Player :=
  if data.flyingDisabled && player.mounted then
    if player.falling then
      match player.slowFall with
      | some aura => { player with slowFall := some { aura with duration := aura.maxDuration } }
      | none => player.CastSlowFall
    else if player.slowFall.isSome then { player with slowFall := none }
    else player
  else player

/-- The decay multiplier chosen at lines 487-494. -/
def decayMultiplier (cfg : Config) (player : Player) : F32 :=
  if player.mounted then
    if player.flying then cfg.sDecayMultFlying
    else if player.moving then cfg.sDecayMultMoving
    else cfg.sDecayMultStationary
  else cfg.sDecayMultStationary

/-- Third block of `OnPlayerUpdate` (lines 477-514): the decay timer. -/
def updateDecay (cfg : Config) (player : Player) (data : MountFeedingData) (diff : Nat) :
    Player × MountFeedingData :=
  let shouldDecay := if cfg.sDecayOnlyWhileMounted then player.mounted else true
  if shouldDecay then
    let timer := wrapInt32 (data.decayTimer - wrapInt32 diff)
    if timer ≤ 0 then
      let decayAmount := mulToInt32 cfg.sDecayAmount (decayMultiplier cfg player)
      let oldState := GetSatisfactionState data.satisfaction
      let data1 := { data with
        decayTimer := cfg.sDecayInterval
        satisfaction := max 0 (wrapInt32 (data.satisfaction - decayAmount)) }
      let newState := GetSatisfactionState data1.satisfaction
      let data2 := { data1 with lastState := newState }
      applyTransition cfg player data2 oldState newState
    else (player, { data with decayTimer := timer })
  else (player, data)

/-- Fourth block of `OnPlayerUpdate` (lines 516-522): the periodic save. -/
def updateSave (cfg : Config) (w : World) (guid : ObjectGuid) (data : MountFeedingData)
    (diff : Nat) : World :=
  let timer := wrapInt32 (data.saveTimer - wrapInt32 diff)
  if timer ≤ 0 then
    SaveSatisfaction (w.setData guid { data with saveTimer := cfg.sSaveInterval })
      guid data.satisfaction
  else w.setData guid { data with saveTimer := timer }

def OnPlayerUpdate (cfg : Config) (w : World) (player : Option Player) (diff : Nat) :
    World × Option Player :=
  match player with
  | none => (w, none)
  | some p =>
    if !cfg.sEnabled then (w, player)
    else
      match w.sMountFeedingStore p.guid with
      | none => (w, player)
      | some data =>
        let r1 := updatePendingSpeed cfg p data
        let p2 := updateSlowFall r1.1 r1.2
        let r3 := updateDecay cfg p2 r1.2 diff
        (updateSave cfg w p.guid r3.2 diff, some r3.1)

def OnPlayerLevelChanged (cfg : Config) (w : World) (player : Option Player)
    (_oldLevel : Nat) : World :=
  match player with
  | none => w
  | some p =>
    if !cfg.sEnabled || !p.mounted then w
    else
      match w.sMountFeedingStore p.guid with
      | none => w
      | some data => w.setData p.guid { data with pendingSpeedUpdate := true }

/-! ## Event sequences -/

/-- One call of the host into the module, with the host state it passes. -/
inductive Event
  | login (player : Option Player)
  | logout (player : Option Player)
  | itemUse (gameTimeMs : Nat) (player : Option Player) (item : Option Item)
  | auraApply (unit : Unit) (aura : Aura)
  | auraRemove (gameTimeMs : Nat) (unit : Unit) (aurApp : AuraApplication)
  | levelChanged (player : Option Player) (oldLevel : Nat)
  | update (player : Option Player) (diff : Nat)

/-- The effect of one event on the module's store and table. -/
def step (cfg : Config) (w : World) : Event → World
  | .login player => OnPlayerLogin cfg w player
  | .logout player => OnPlayerLogout w player
  | .itemUse now player item => (CanItemUse cfg now w player item).world
  | .auraApply unit aura => OnAuraApply cfg w unit aura
  | .auraRemove now unit aurApp => OnAuraRemove cfg now w unit aurApp
  | .levelChanged player oldLevel => OnPlayerLevelChanged cfg w player oldLevel
  | .update player diff => (OnPlayerUpdate cfg w player diff).1

/-- The world after a sequence of events. -/
def run (cfg : Config) (w : World) (events : List Event) : World :=
  events.foldl (step cfg) w

/-- The world at server start: nobody is online; the table holds `rows`. -/
def initialWorld (rows : ObjectGuid → Option Int) : World :=
  ⟨fun _ => none, rows⟩

/-! ## Guards of the feeding handler -/

/-- Guards 1-3 of the feeding handler for a present player `p` and item `it`:
the feature is enabled, the item has the food-type template `proto`, the
player has the session record `data`, and the player is mounted or was
dismounted less than `DISMOUNT_GRACE_MS` ago (in `uint32` clock arithmetic)
after some mount. -/
def PassesGuards (cfg : Config) (gameTimeMs : Nat) (w : World) (p : Player) (it : Item)
    (proto : ItemTemplate) (data : MountFeedingData) : Prop :=
  cfg.sEnabled = true ∧ it.proto = some proto ∧ proto.FoodType ≠ 0 ∧
  w.sMountFeedingStore p.guid = some data ∧
  (p.mounted = true ∨
    (data.lastMountSpellId ≠ 0 ∧
      subUInt32 (gameTimeMs % 4294967296) data.dismountTimeMs < DISMOUNT_GRACE_MS))

/-- The record an accepted, effective feed writes before the transition block
runs. -/
def fedData (data : MountFeedingData) (benefit : Int) : MountFeedingData :=
  { data with
    satisfaction := min (data.satisfaction + benefit) SATISFACTION_MAX
    lastState := GetSatisfactionState (min (data.satisfaction + benefit) SATISFACTION_MAX) }

instance (cfg : Config) (gameTimeMs : Nat) (w : World) (p : Player) (it : Item)
    (proto : ItemTemplate) (data : MountFeedingData) :
    Decidable (PassesGuards cfg gameTimeMs w p it proto data) := by
  unfold PassesGuards
  infer_instance

/-! ## Concrete scenarios -/

/-- A world whose only online player (guid 1) last rode mount spell 458 and
dismounted at clock value 5000. -/
def graceWorld : World :=
  ⟨fun g => if g = 1 then
      some ⟨500000, false, 7500, 300000, 1, 0, 0, 458, 5000, false⟩ else none,
    fun _ => none⟩

/-- Player 1, level 80, on foot. -/
def gracePlayer : Player :=
  ⟨1, 80, false, false, false, false, [], [], true, none, []⟩

/-- A stack of 20 food items of level 75. -/
def graceItem : Item :=
  ⟨some ⟨1, 75, "Bread"⟩, 20⟩

/-- A world whose only online player (guid 1) is fully satisfied. -/
def fullWorld : World :=
  ⟨fun g => if g = 1 then
      some ⟨999000, false, 7500, 300000, 2, 100, 0, 458, 0, false⟩ else none,
    fun _ => none⟩

/-- Player 1, level 80, mounted on a ground mount of speed 100. -/
def fullPlayer : Player :=
  ⟨1, 80, true, false, false, false, [100], [], true, none, []⟩

/-- A stack of 20 food items of level 1. -/
def lowItem : Item :=
  ⟨some ⟨1, 1, "Bread"⟩, 20⟩

/-- The record of an Unhappy player at satisfaction 330000 whose flying mount
(base speeds 100 and 280) has had its flight suspended. -/
def hungryData : MountFeedingData :=
  ⟨330000, false, 7500, 300000, 0, 100, 280, 458, 0, true⟩

/-- A world whose only online player (guid 1) has the record `hungryData`. -/
def hungryWorld : World :=
  ⟨fun g => if g = 1 then some hungryData else none, fun _ => none⟩

/-- Player 1, level 80, mounted on a flying mount whose effects carry the
Unhappy penalty (50 and 140) and whose flight is suspended. -/
def hungryPlayer : Player :=
  ⟨1, 80, true, false, false, false, [50], [140], false, none, []⟩

/-- A stack of 20 food items of level 75. -/
def goodItem : Item :=
  ⟨some ⟨1, 75, "Bread"⟩, 20⟩

/-! ## The satisfaction invariant -/

/-- Every session record of the store holds a satisfaction in
`[0, SATISFACTION_MAX]`. -/
def SatisfactionInRange (w : World) : Prop :=
  ∀ g d, w.sMountFeedingStore g = some d →
    0 ≤ d.satisfaction ∧ d.satisfaction ≤ SATISFACTION_MAX

/-- The decay step `static_cast<int32>(sDecayAmount * decayMult)` is
nonnegative for each of the three multipliers (which, `F32.toInt32` returning
`INT32_MIN` outside the `int32` range, also says that the conversion is
defined). -/
def DecayNonneg (cfg : Config) : Prop :=
  0 ≤ mulToInt32 cfg.sDecayAmount cfg.sDecayMultStationary ∧
  0 ≤ mulToInt32 cfg.sDecayAmount cfg.sDecayMultMoving ∧
  0 ≤ mulToInt32 cfg.sDecayAmount cfg.sDecayMultFlying

instance (cfg : Config) : Decidable (DecayNonneg cfg) := by
  unfold DecayNonneg
  infer_instance

/-- The default configuration with a negative decay amount. -/
def negativeDecayConfig : Config :=
  { defaultConfig with sDecayAmount := -670 }

/-- Player 1, level 80, riding a ground mount of speed 100 and moving. -/
def ridingPlayer : Player :=
  ⟨1, 80, true, false, false, true, [100], [], true, none, []⟩

/-- Player 1 logs in with no row in the table, then one tick of 7500 ms runs
while the player rides. -/
def loginThenTick : List Event :=
  [Event.login (some ridingPlayer), Event.update (some ridingPlayer) 7500]

/-! ## Notions used by the claims on the aura and tick handlers -/

/-- Some effect slot of the aura is the "is mounted" marker effect. -/
def Aura.hasMountMarker (aura : Aura) : Prop :=
  aura.effect0 = some ⟨AuraType.SPELL_AURA_MOUNTED⟩ ∨
  aura.effect1 = some ⟨AuraType.SPELL_AURA_MOUNTED⟩ ∨
  aura.effect2 = some ⟨AuraType.SPELL_AURA_MOUNTED⟩

instance (aura : Aura) : Decidable aura.hasMountMarker := by
  unfold Aura.hasMountMarker
  infer_instance

/-- The `int32` value the statement `timer -= static_cast<int32>(diff)` leaves
in a timer. -/
def timerAfter (timer : Int) (diff : Nat) : Int :=
  wrapInt32 (timer - wrapInt32 diff)

/-- The decay multiplier in the words of the specification: the flying one
for a mounted, flying player, else the moving one for a mounted, moving
player, else the stationary one. -/
def contextMultiplier (cfg : Config) (p : Player) : F32 :=
  if p.mounted = true ∧ p.flying = true then cfg.sDecayMultFlying
  else if p.mounted = true ∧ p.moving = true then cfg.sDecayMultMoving
  else cfg.sDecayMultStationary

/-- A flying-mount aura (spell 458): the mount marker, a flight-speed effect
and a ground-speed effect. -/
def mountAura : Aura :=
  ⟨458, some ⟨AuraType.SPELL_AURA_MOUNTED⟩,
    some ⟨AuraType.SPELL_AURA_MOD_INCREASE_MOUNTED_FLIGHT_SPEED⟩,
    some ⟨AuraType.SPELL_AURA_MOD_INCREASE_MOUNTED_SPEED⟩⟩

/-- Player 1, level 80, mounted and standing still on a ground mount whose
effect carries the Content penalty (75). -/
def contentPlayer : Player :=
  ⟨1, 80, true, false, false, false, [75], [], true, none, []⟩

/-- The record of a Content player at satisfaction 333100 who has just
mounted: the capture is pending and no base speed is held yet. -/
def captureData : MountFeedingData :=
  ⟨333100, true, 7500, 300000, 1, 0, 0, 458, 0, false⟩

/-- A world whose only online player (guid 1) has the record `captureData`. -/
def captureWorld : World :=
  ⟨fun g => if g = 1 then some captureData else none, fun _ => none⟩

/-- The record of a Content player at satisfaction 500000 on a flying mount
whose base speeds 100 and 280 have been captured. -/
def cruiseData : MountFeedingData :=
  ⟨500000, false, 7500, 300000, 1, 100, 280, 458, 0, false⟩

/-- A world whose only online player (guid 1) has the record `cruiseData`. -/
def cruiseWorld : World :=
  ⟨fun g => if g = 1 then some cruiseData else none, fun _ => none⟩

/-- Player 1, level 80, mounted and moving on a flying mount whose effects
carry the Content penalty: 75 of 100 and 210 of 280. -/
def cruisePlayer : Player :=
  ⟨1, 80, true, false, false, true, [75], [210], true, none, []⟩

/-- Whether the event is a login of the player `guid`. -/
def Event.isLoginOf (guid : ObjectGuid) : Event → Bool
  | .login (some player) => decide (player.guid = guid)
  | _ => false

/-- Player 2, level 70, riding a ground mount. -/
def otherPlayer : Player :=
  ⟨2, 70, true, false, false, true, [60], [], true, none, []⟩

/-- The conditions under which `UpdateFlyingState` acts: the no-fly policy is
enabled and the player is mounted with a flight-speed effect active. -/
def FlightManaged (cfg : Config) (p : Player) : Prop :=
  cfg.sUnhappyNoFly = true ∧ p.mounted = true ∧ p.flightSpeedEffects ≠ []

instance (cfg : Config) (p : Player) : Decidable (FlightManaged cfg p) := by
  unfold FlightManaged
  infer_instance

/-- The default configuration with the no-fly policy switched off. -/
def noPolicyConfig : Config :=
  { defaultConfig with sUnhappyNoFly := false }

/-- The record of a Happy player at satisfaction 680000 whose flight is still
suspended and whose speed capture is pending. -/
def stuckData : MountFeedingData :=
  ⟨680000, true, 7500, 300000, 2, 100, 280, 458, 0, true⟩

/-- A world whose only online player (guid 1) has the record `stuckData`. -/
def stuckWorld : World :=
  ⟨fun g => if g = 1 then some stuckData else none, fun _ => none⟩


/-! ## The cached state -/

/-- The session record of `guid`, if there is one, caches the state of its own
satisfaction: `lastState = GetSatisfactionState(satisfaction)`. -/
def CachedAt (w : World) (guid : ObjectGuid) : Prop :=
  ∀ d, w.sMountFeedingStore guid = some d →
    d.lastState = GetSatisfactionState d.satisfaction

/-- Every session record of the store caches the state of its own
satisfaction. -/
def StateCached (w : World) : Prop :=
  ∀ g, CachedAt w g

/-- How a handler may leave the record of one player: untouched, or replaced
by a record whose cached state is fresh, or replaced by a record with the
satisfaction and the cached state of the one before. -/
def RecordKept (before after : Option MountFeedingData) : Prop :=
  after = before ∨
  ∃ d1, after = some d1 ∧
    (d1.lastState = GetSatisfactionState d1.satisfaction ∨
      ∃ d, before = some d ∧ d1.satisfaction = d.satisfaction ∧ d1.lastState = d.lastState)

/-- Whether the event is a logout of the player `guid`. -/
def Event.isLogoutOf (guid : ObjectGuid) : Event → Bool
  | .logout (some player) => decide (player.guid = guid)
  | _ => false

/-- A world whose record of player 1 is stale (satisfaction 100000 cached as
Happy) and whose table holds satisfaction 333100 for player 1. -/
def staleWorld : World :=
  ⟨fun g => if g = 1 then some ⟨100000, false, 7500, 300000, 2, 0, 0, 0, 0, false⟩ else none,
    fun g => if g = 1 then some 333100 else none⟩

/-- What player 1 does after logging in: mounts (aura 458), stands mounted
through one tick of 7500 ms, then eats a food item of level 75. -/
def sessionEvents : List Event :=
  [Event.auraApply (Unit.player contentPlayer) mountAura,
    Event.update (some contentPlayer) 7500,
    Event.itemUse 0 (some contentPlayer) (some goodItem)]

/-! ## Notions used by the claims on the bounds and on the flight flag -/

/-- Every session record of the store holds a satisfaction `≥ 0`. -/
def SatisfactionNonneg (w : World) : Prop :=
  ∀ g d, w.sMountFeedingStore g = some d → 0 ≤ d.satisfaction

/-- The record of a Happy player at satisfaction 666100 whose flight is still
suspended; no speed capture is pending. -/
def driftData : MountFeedingData :=
  ⟨666100, false, 7500, 300000, 2, 100, 280, 458, 0, true⟩

/-- A world whose only online player (guid 1) has the record `driftData`. -/
def driftWorld : World :=
  ⟨fun g => if g = 1 then some driftData else none, fun _ => none⟩

/-- Player 1, level 80, mounted and moving on the ground on a flying mount
(effects 100 and 280) whose flight is suspended. -/
def driftPlayer : Player :=
  ⟨1, 80, true, false, false, true, [100], [280], false, none, []⟩

/-! ## Lemmas on the feeding handler -/

theorem interceptFood_handled (cfg : Config) (w : World) (p : Player) (it : Item)
    (proto : ItemTemplate) (data : MountFeedingData) :
    (interceptFood cfg w p it proto data).handled = true := by
  unfold interceptFood
  split
  · rfl
  · dsimp only
    split <;> rfl

theorem wasMountedRecently_eq_true (gameTimeMs : Nat) (data : MountFeedingData) :
    wasMountedRecently gameTimeMs false data = true ↔
      (data.lastMountSpellId ≠ 0 ∧
        subUInt32 (gameTimeMs % 4294967296) data.dismountTimeMs < DISMOUNT_GRACE_MS) := by
  simp [wasMountedRecently]

theorem CanItemUse_of_guards (cfg : Config) (gameTimeMs : Nat) (w : World) (p : Player)
    (it : Item) (proto : ItemTemplate) (data : MountFeedingData)
    (hG : PassesGuards cfg gameTimeMs w p it proto data) :
    CanItemUse cfg gameTimeMs w (some p) (some it) = interceptFood cfg w p it proto data := by
  obtain ⟨hEnabled, hProto, hFood, hData, hMount⟩ := hG
  simp only [CanItemUse, hEnabled, hProto, hData]
  rw [if_neg (by simp), if_neg hFood]
  rcases hMount with hM | hR
  · simp [hM]
  · cases hm : p.mounted
    · rw [if_neg]
      simp [(wasMountedRecently_eq_true gameTimeMs data).2 hR]
    · simp

theorem CanItemUse_cases (cfg : Config) (gameTimeMs : Nat) (w : World)
    (player : Option Player) (item : Option Item) :
    CanItemUse cfg gameTimeMs w player item = ⟨false, w, player, item⟩ ∨
    ∃ p it proto data, player = some p ∧ item = some it ∧
      PassesGuards cfg gameTimeMs w p it proto data ∧
      CanItemUse cfg gameTimeMs w player item = interceptFood cfg w p it proto data := by
  cases player with
  | none => left; simp [CanItemUse]
  | some p =>
    cases item with
    | none => left; simp [CanItemUse]
    | some it =>
      by_cases hEnabled : cfg.sEnabled = true
      swap
      · left; simp [CanItemUse, hEnabled]
      cases hProto : it.proto with
      | none => left; simp [CanItemUse, hProto]
      | some proto =>
        by_cases hFood : proto.FoodType = 0
        · left; simp [CanItemUse, hProto, hFood]
        cases hData : w.sMountFeedingStore p.guid with
        | none => left; simp [CanItemUse, hProto, hFood, hData]
        | some data =>
          by_cases hMount : p.mounted = true ∨ (data.lastMountSpellId ≠ 0 ∧
              subUInt32 (gameTimeMs % 4294967296) data.dismountTimeMs < DISMOUNT_GRACE_MS)
          · right
            have hG : PassesGuards cfg gameTimeMs w p it proto data :=
              ⟨hEnabled, hProto, hFood, hData, hMount⟩
            exact ⟨p, it, proto, data, rfl, rfl, hG, CanItemUse_of_guards _ _ _ _ _ _ _ hG⟩
          · left
            have hm : p.mounted = false := by
              cases h : p.mounted
              · rfl
              · exact absurd (Or.inl h) hMount
            have hr : wasMountedRecently gameTimeMs false data = false := by
              cases h : wasMountedRecently gameTimeMs false data
              · rfl
              · exact absurd (Or.inr ((wasMountedRecently_eq_true _ _).1 h)) hMount
            simp [CanItemUse, hEnabled, hProto, hFood, hData, hm, hr]

/-! ## Claims on the satisfaction model -/

/-- C2: `GetSatisfactionState` is the threshold definition on every integer
(hence on every `int32`): Happy from 666000, Content from 333000 up to 665999,
Unhappy below 333000, negative values included. -/
theorem GetSatisfactionState_thresholds (v : Int) :
    (666000 ≤ v → GetSatisfactionState v = STATE_HAPPY) ∧
    (333000 ≤ v ∧ v < 666000 → GetSatisfactionState v = STATE_CONTENT) ∧
    (v < 333000 → GetSatisfactionState v = STATE_UNHAPPY) := by
  unfold GetSatisfactionState THRESHOLD_HAPPY THRESHOLD_CONTENT HAPPINESS_LEVEL_SIZE
  refine ⟨fun h => ?_, fun h => ?_, fun h => ?_⟩
  · rw [if_pos (by omega)]
  · rw [if_neg (by omega), if_pos (by omega)]
  · rw [if_neg (by omega), if_neg (by omega)]

/-- C3: `GetSatisfactionState` is total and monotone: the three states are
`0 < 1 < 2`, every value maps to one of them, and a larger value never maps
to a smaller state. -/
theorem GetSatisfactionState_total_monotone :
    (STATE_UNHAPPY = 0 ∧ STATE_CONTENT = 1 ∧ STATE_HAPPY = 2) ∧
    (∀ v : Int, GetSatisfactionState v = STATE_UNHAPPY ∨
      GetSatisfactionState v = STATE_CONTENT ∨ GetSatisfactionState v = STATE_HAPPY) ∧
    (∀ v1 v2 : Int, v1 ≤ v2 → GetSatisfactionState v1 ≤ GetSatisfactionState v2) := by
  refine ⟨⟨rfl, rfl, rfl⟩, fun v => ?_, fun v1 v2 h => ?_⟩
  · unfold GetSatisfactionState
    split
    · exact Or.inr (Or.inr rfl)
    · split
      · exact Or.inr (Or.inl rfl)
      · exact Or.inl rfl
  · unfold GetSatisfactionState THRESHOLD_HAPPY THRESHOLD_CONTENT HAPPINESS_LEVEL_SIZE
      STATE_HAPPY STATE_CONTENT STATE_UNHAPPY
    split <;> split <;> (try split) <;> (try split) <;> omega

/-- The bracket table of `GetFoodBenefit` holds, with the sums as mathematical
integers, whenever `itemLevel + 14` fits in `uint32`. -/
theorem GetFoodBenefit_brackets_in_range (playerLevel itemLevel : Nat)
    (hItem : itemLevel + 14 < 4294967296) :
    (playerLevel ≤ itemLevel + 5 → GetFoodBenefit playerLevel itemLevel = 350000) ∧
    (itemLevel + 5 < playerLevel ∧ playerLevel ≤ itemLevel + 10 →
      GetFoodBenefit playerLevel itemLevel = 175000) ∧
    (itemLevel + 10 < playerLevel ∧ playerLevel ≤ itemLevel + 14 →
      GetFoodBenefit playerLevel itemLevel = 80000) ∧
    (itemLevel + 14 < playerLevel → GetFoodBenefit playerLevel itemLevel = 0) := by
  unfold GetFoodBenefit
  rw [Nat.mod_eq_of_lt (by omega), Nat.mod_eq_of_lt (by omega), Nat.mod_eq_of_lt hItem]
  refine ⟨fun h => ?_, fun h => ?_, fun h => ?_, fun h => ?_⟩
  · rw [if_pos h]
  · rw [if_neg (by omega), if_pos h.2]
  · rw [if_neg (by omega), if_neg (by omega), if_pos h.2]
  · rw [if_neg (by omega), if_neg (by omega), if_neg (by omega)]

/-- Where `itemLevel + 5` does not wrap and the item level is at least 250, a
`uint8` player level is in the first bracket and the code returns 350000, as
the table does: the wrap can show only at the five item levels from
4294967291 up. -/
theorem GetFoodBenefit_high_item (playerLevel itemLevel : Nat) (hPlayer : playerLevel < 256)
    (hItem : 250 ≤ itemLevel) (hSum : itemLevel + 5 < 4294967296) :
    GetFoodBenefit playerLevel itemLevel = 350000 := by
  unfold GetFoodBenefit
  rw [Nat.mod_eq_of_lt hSum, if_pos (by omega)]

/-- C4: at player level 80 and item level 4294967295 (both within their
types) the mathematical bracket is the first one, `80 ≤ 4294967295 + 5`, yet
`GetFoodBenefit` returns 0, because `itemLevel + 5`, `+ 10` and `+ 14` wrap to
4, 9 and 13. -/
theorem GetFoodBenefit_wraps_at_top :
    (80 : Nat) < 256 ∧ (4294967295 : Nat) < 4294967296 ∧ (80 : Nat) ≤ 4294967295 + 5 ∧
    GetFoodBenefit 80 4294967295 = 0 := by
  decide

/-! ## Claims on the feeding handler -/

/-- C5: grace-window boundary.  With the feature enabled, a food-type item and
a player who has a session record, is not mounted and has
`lastMountSpellId ≠ 0`, a feed attempt when the clock reads
`dismountTimeMs + 999` is handled and one at `dismountTimeMs + 1001` is not,
for every `dismountTimeMs` (the clock is reduced modulo `2 ^ 32`). -/
theorem CanItemUse_grace_boundary (cfg : Config) (w : World) (p : Player) (it : Item)
    (proto : ItemTemplate) (data : MountFeedingData)
    (hEnabled : cfg.sEnabled = true) (hProto : it.proto = some proto)
    (hFood : proto.FoodType ≠ 0) (hData : w.sMountFeedingStore p.guid = some data)
    (hNotMounted : p.mounted = false) (hSpell : data.lastMountSpellId ≠ 0) :
    (CanItemUse cfg (data.dismountTimeMs + 999) w (some p) (some it)).handled = true ∧
    (CanItemUse cfg (data.dismountTimeMs + 1001) w (some p) (some it)).handled = false := by
  have e1 : subUInt32 ((data.dismountTimeMs + 999) % 4294967296) data.dismountTimeMs = 999 := by
    unfold subUInt32; omega
  have e2 : subUInt32 ((data.dismountTimeMs + 1001) % 4294967296) data.dismountTimeMs = 1001 := by
    unfold subUInt32; omega
  constructor
  · rw [CanItemUse_of_guards cfg _ w p it proto data
      ⟨hEnabled, hProto, hFood, hData, Or.inr ⟨hSpell, by rw [e1]; decide⟩⟩]
    exact interceptFood_handled _ _ _ _ _ _
  · have hr : wasMountedRecently (data.dismountTimeMs + 1001) false data = false := by
      cases h : wasMountedRecently (data.dismountTimeMs + 1001) false data
      · rfl
      · have := ((wasMountedRecently_eq_true _ _).1 h).2
        rw [e2] at this
        exact absurd this (by decide)
    simp [CanItemUse, hEnabled, hProto, hFood, hData, hNotMounted, hr]

theorem CanItemUse_grace_boundary_witness :
    (CanItemUse defaultConfig (5000 + 999) graceWorld (some gracePlayer)
      (some graceItem)).handled = true ∧
    (CanItemUse defaultConfig (5000 + 1001) graceWorld (some gracePlayer)
      (some graceItem)).handled = false :=
  CanItemUse_grace_boundary defaultConfig graceWorld gracePlayer graceItem ⟨1, 75, "Bread"⟩
    ⟨500000, false, 7500, 300000, 1, 0, 0, 458, 5000, false⟩ rfl rfl (by decide) rfl rfl
    (by decide)

/-- C6: `CanItemUse` returns handled exactly when guards 1-3 pass (feature
enabled, player and item present, food type nonzero, session record present,
mounted or within the grace window after a mount), and a call that returns
not handled leaves the world (store and table), the player and the item stack
as they were. -/
theorem CanItemUse_handled_iff_guards (cfg : Config) (gameTimeMs : Nat) (w : World)
    (player : Option Player) (item : Option Item) :
    ((CanItemUse cfg gameTimeMs w player item).handled = true ↔
      ∃ p it proto data, player = some p ∧ item = some it ∧
        PassesGuards cfg gameTimeMs w p it proto data) ∧
    ((CanItemUse cfg gameTimeMs w player item).handled = false →
      CanItemUse cfg gameTimeMs w player item = ⟨false, w, player, item⟩) := by
  constructor
  · constructor
    · intro h
      rcases CanItemUse_cases cfg gameTimeMs w player item with hc | ⟨p, it, proto, data, hp, hi, hG, _⟩
      · rw [hc] at h
        exact absurd h (by simp)
      · exact ⟨p, it, proto, data, hp, hi, hG⟩
    · rintro ⟨p, it, proto, data, rfl, rfl, hG⟩
      rw [CanItemUse_of_guards _ _ _ _ _ _ _ hG]
      exact interceptFood_handled _ _ _ _ _ _
  · intro h
    rcases CanItemUse_cases cfg gameTimeMs w player item with hc | ⟨p, it, proto, data, _, _, _, hc⟩
    · exact hc
    · rw [hc, interceptFood_handled] at h
      exact absurd h (by simp)

/-! ## Effect of an accepted feed -/

theorem GetFoodBenefit_values (playerLevel itemLevel : Nat) :
    GetFoodBenefit playerLevel itemLevel = 350000 ∨ GetFoodBenefit playerLevel itemLevel = 175000 ∨
    GetFoodBenefit playerLevel itemLevel = 80000 ∨ GetFoodBenefit playerLevel itemLevel = 0 := by
  unfold GetFoodBenefit
  split
  · exact Or.inl rfl
  · split
    · exact Or.inr (Or.inl rfl)
    · split
      · exact Or.inr (Or.inr (Or.inl rfl))
      · exact Or.inr (Or.inr (Or.inr rfl))

theorem wrapInt32_of_range (x : Int) (hLow : -2147483648 ≤ x) (hHigh : x ≤ 2147483647) :
    wrapInt32 x = x := by
  unfold wrapInt32
  omega

theorem UpdateFlyingState_data (cfg : Config) (p : Player) (d : MountFeedingData) :
    ∃ b, (UpdateFlyingState cfg p d).2 = { d with flyingDisabled := b } := by
  unfold UpdateFlyingState
  split
  · exact ⟨d.flyingDisabled, rfl⟩
  · dsimp only
    split
    · exact ⟨d.flyingDisabled, rfl⟩
    · split
      · exact ⟨true, rfl⟩
      · split
        · exact ⟨false, rfl⟩
        · exact ⟨d.flyingDisabled, rfl⟩

theorem applyTransition_data (cfg : Config) (p : Player) (d : MountFeedingData)
    (oldState newState : Nat) :
    ∃ b, (applyTransition cfg p d oldState newState).2 = { d with flyingDisabled := b } := by
  unfold applyTransition
  split
  · dsimp only
    split
    · exact UpdateFlyingState_data _ _ _
    · exact ⟨d.flyingDisabled, rfl⟩
  · exact ⟨d.flyingDisabled, rfl⟩

theorem interceptFood_full (cfg : Config) (w : World) (p : Player) (it : Item)
    (proto : ItemTemplate) (data : MountFeedingData)
    (hFull : SATISFACTION_MAX ≤ data.satisfaction) :
    interceptFood cfg w p it proto data =
      ⟨true, w, some (p.PSendSysMessage .alreadySatisfied), some it⟩ := by
  unfold interceptFood
  rw [if_pos hFull]

theorem interceptFood_too_low (cfg : Config) (w : World) (p : Player) (it : Item)
    (proto : ItemTemplate) (data : MountFeedingData)
    (hBelow : data.satisfaction < SATISFACTION_MAX)
    (hZero : GetFoodBenefit p.level proto.ItemLevel = 0) :
    interceptFood cfg w p it proto data =
      ⟨true, w, some (p.PSendSysMessage .tooLowLevel), some it⟩ := by
  unfold interceptFood
  rw [if_neg (by omega)]
  dsimp only
  rw [if_pos hZero]

theorem interceptFood_fed (cfg : Config) (w : World) (p : Player) (it : Item)
    (proto : ItemTemplate) (data : MountFeedingData)
    (hInt : -2147483648 ≤ data.satisfaction)
    (hBelow : data.satisfaction < SATISFACTION_MAX)
    (hBenefit : GetFoodBenefit p.level proto.ItemLevel ≠ 0) :
    interceptFood cfg w p it proto data =
      ⟨true,
        w.setData p.guid
          (applyTransition cfg (p.PSendSysMessage (.eats proto.Name1))
            (fedData data (GetFoodBenefit p.level proto.ItemLevel))
            (GetSatisfactionState data.satisfaction)
            (GetSatisfactionState
              (min (data.satisfaction + GetFoodBenefit p.level proto.ItemLevel)
                SATISFACTION_MAX))).2,
        some (applyTransition cfg (p.PSendSysMessage (.eats proto.Name1))
            (fedData data (GetFoodBenefit p.level proto.ItemLevel))
            (GetSatisfactionState data.satisfaction)
            (GetSatisfactionState
              (min (data.satisfaction + GetFoodBenefit p.level proto.ItemLevel)
                SATISFACTION_MAX))).1,
        some (DestroyItemCount it 1)⟩ := by
  have hw : wrapInt32 (data.satisfaction + GetFoodBenefit p.level proto.ItemLevel) =
      data.satisfaction + GetFoodBenefit p.level proto.ItemLevel := by
    apply wrapInt32_of_range
    · rcases GetFoodBenefit_values p.level proto.ItemLevel with h | h | h | h <;> omega
    · unfold SATISFACTION_MAX at hBelow
      rcases GetFoodBenefit_values p.level proto.ItemLevel with h | h | h | h <;> omega
  unfold interceptFood
  rw [if_neg (by omega)]
  dsimp only
  rw [if_neg hBenefit, hw]
  rfl

/-- C7: a feed attempt that passes guards 1-3 and finds satisfaction at (or
above) MAX shows "already fully satisfied"; one that finds it below MAX with a
food benefit of 0 shows "too low level".  Both return handled and leave the
world (every session record and table row) and the item stack unchanged; the
only change is the one message appended to the chat of the player. -/
theorem CanItemUse_without_effect (cfg : Config) (gameTimeMs : Nat) (w : World) (p : Player)
    (it : Item) (proto : ItemTemplate) (data : MountFeedingData)
    (hG : PassesGuards cfg gameTimeMs w p it proto data) :
    (SATISFACTION_MAX ≤ data.satisfaction →
      CanItemUse cfg gameTimeMs w (some p) (some it) =
        ⟨true, w, some { p with chat := p.chat ++ [ChatMsg.alreadySatisfied] }, some it⟩) ∧
    (data.satisfaction < SATISFACTION_MAX → GetFoodBenefit p.level proto.ItemLevel = 0 →
      CanItemUse cfg gameTimeMs w (some p) (some it) =
        ⟨true, w, some { p with chat := p.chat ++ [ChatMsg.tooLowLevel] }, some it⟩) := by
  rw [CanItemUse_of_guards _ _ _ _ _ _ _ hG]
  exact ⟨fun h => interceptFood_full _ _ _ _ _ _ h,
    fun h hz => interceptFood_too_low _ _ _ _ _ _ h hz⟩

theorem CanItemUse_without_effect_witness :
    (SATISFACTION_MAX ≤ (999000 : Int) →
      CanItemUse defaultConfig 0 fullWorld (some fullPlayer) (some lowItem) =
        ⟨true, fullWorld,
          some { fullPlayer with chat := fullPlayer.chat ++ [ChatMsg.alreadySatisfied] },
          some lowItem⟩) ∧
    ((999000 : Int) < SATISFACTION_MAX → GetFoodBenefit fullPlayer.level 1 = 0 →
      CanItemUse defaultConfig 0 fullWorld (some fullPlayer) (some lowItem) =
        ⟨true, fullWorld,
          some { fullPlayer with chat := fullPlayer.chat ++ [ChatMsg.tooLowLevel] },
          some lowItem⟩) :=
  CanItemUse_without_effect defaultConfig 0 fullWorld fullPlayer lowItem ⟨1, 1, "Bread"⟩
    ⟨999000, false, 7500, 300000, 2, 100, 0, 458, 0, false⟩
    (by decide)

/-- C8 as stated fails: with the default configuration, a mounted player at
satisfaction 999000 (Happy) who feeds a food of zero benefit (player level 80,
item level 1) is shown "already fully satisfied", not "too low level". -/
theorem scenario_full_zero_benefit_shows_satisfied :
    GetSatisfactionState 999000 = STATE_HAPPY ∧ GetFoodBenefit fullPlayer.level 1 = 0 ∧
    (CanItemUse defaultConfig 0 fullWorld (some fullPlayer) (some lowItem)).player =
      some { fullPlayer with chat := [ChatMsg.alreadySatisfied] } ∧
    ¬ (CanItemUse defaultConfig 0 fullWorld (some fullPlayer) (some lowItem)).player =
      some { fullPlayer with chat := [ChatMsg.tooLowLevel] } := by
  decide

/-- C8, amended: a mounted (or just dismounted) player whose satisfaction is
999000 (Happy) who feeds a food, of zero benefit or not, keeps satisfaction
999000 (the world is unchanged), is shown "already fully satisfied", and keeps
the item. -/
theorem scenario_full_zero_benefit (cfg : Config) (gameTimeMs : Nat) (w : World) (p : Player)
    (it : Item) (proto : ItemTemplate) (data : MountFeedingData)
    (hG : PassesGuards cfg gameTimeMs w p it proto data)
    (hFull : data.satisfaction = 999000) :
    GetSatisfactionState data.satisfaction = STATE_HAPPY ∧
    CanItemUse cfg gameTimeMs w (some p) (some it) =
      ⟨true, w, some { p with chat := p.chat ++ [ChatMsg.alreadySatisfied] }, some it⟩ ∧
    (CanItemUse cfg gameTimeMs w (some p) (some it)).world.sMountFeedingStore p.guid =
      some data := by
  have hr : CanItemUse cfg gameTimeMs w (some p) (some it) =
      ⟨true, w, some { p with chat := p.chat ++ [ChatMsg.alreadySatisfied] }, some it⟩ := by
    rw [CanItemUse_of_guards _ _ _ _ _ _ _ hG]
    exact interceptFood_full _ _ _ _ _ _ (by rw [hFull]; decide)
  refine ⟨by rw [hFull]; decide, hr, ?_⟩
  rw [hr]
  exact hG.2.2.2.1

theorem scenario_full_zero_benefit_witness :
    GetSatisfactionState (999000 : Int) = STATE_HAPPY ∧
    CanItemUse defaultConfig 0 fullWorld (some fullPlayer) (some lowItem) =
      ⟨true, fullWorld,
        some { fullPlayer with chat := fullPlayer.chat ++ [ChatMsg.alreadySatisfied] },
        some lowItem⟩ ∧
    (CanItemUse defaultConfig 0 fullWorld (some fullPlayer)
      (some lowItem)).world.sMountFeedingStore fullPlayer.guid =
      some ⟨999000, false, 7500, 300000, 2, 100, 0, 458, 0, false⟩ :=
  scenario_full_zero_benefit defaultConfig 0 fullWorld fullPlayer lowItem ⟨1, 1, "Bread"⟩
    ⟨999000, false, 7500, 300000, 2, 100, 0, 458, 0, false⟩
    (by decide) rfl

/-- C9: a feed attempt that passes guards 1-3 with satisfaction `s < 999000`
(an `int32`) and benefit `b > 0` returns handled, takes exactly one unit off
the item stack, and replaces the record of the player by the old record with
satisfaction `min (s + b) 999000` (the sum stays within `int32`), `lastState`
the state of that value and some value of `flyingDisabled`: both timers, both
base speeds, `pendingSpeedUpdate`, `lastMountSpellId` and `dismountTimeMs`
are unchanged, as are all other records and the table. -/
theorem CanItemUse_feed_effect (cfg : Config) (gameTimeMs : Nat) (w : World) (p : Player)
    (it : Item) (proto : ItemTemplate) (data : MountFeedingData)
    (hG : PassesGuards cfg gameTimeMs w p it proto data)
    (hInt : -2147483648 ≤ data.satisfaction)
    (hBelow : data.satisfaction < SATISFACTION_MAX)
    (hBenefit : 0 < GetFoodBenefit p.level proto.ItemLevel)
    (hCount : 0 < it.count) :
    ∃ p1 it1 flying,
      CanItemUse cfg gameTimeMs w (some p) (some it) =
        ⟨true,
          w.setData p.guid
            { data with
              satisfaction :=
                min (data.satisfaction + GetFoodBenefit p.level proto.ItemLevel) 999000
              lastState :=
                GetSatisfactionState
                  (min (data.satisfaction + GetFoodBenefit p.level proto.ItemLevel) 999000)
              flyingDisabled := flying },
          some p1, some it1⟩ ∧
      it1.proto = it.proto ∧ it1.count + 1 = it.count ∧
      data.satisfaction + GetFoodBenefit p.level proto.ItemLevel ≤ 2147483647 := by
  rw [CanItemUse_of_guards _ _ _ _ _ _ _ hG,
    interceptFood_fed cfg w p it proto data hInt hBelow (by omega)]
  obtain ⟨b, hb⟩ := applyTransition_data cfg (p.PSendSysMessage (.eats proto.Name1))
    (fedData data (GetFoodBenefit p.level proto.ItemLevel))
    (GetSatisfactionState data.satisfaction)
    (GetSatisfactionState
      (min (data.satisfaction + GetFoodBenefit p.level proto.ItemLevel) SATISFACTION_MAX))
  generalize applyTransition cfg (p.PSendSysMessage (.eats proto.Name1))
    (fedData data (GetFoodBenefit p.level proto.ItemLevel))
    (GetSatisfactionState data.satisfaction)
    (GetSatisfactionState
      (min (data.satisfaction + GetFoodBenefit p.level proto.ItemLevel) SATISFACTION_MAX)) = r
    at hb ⊢
  refine ⟨r.1, DestroyItemCount it 1, b, ?_, rfl, ?_, ?_⟩
  · rw [hb]
    rfl
  · show it.count - 1 + 1 = it.count
    omega
  · unfold SATISFACTION_MAX at hBelow
    rcases GetFoodBenefit_values p.level proto.ItemLevel with h | h | h | h <;> omega

theorem CanItemUse_feed_effect_witness :
    ∃ p1 it1 flying,
      CanItemUse defaultConfig 0 hungryWorld (some hungryPlayer) (some goodItem) =
        ⟨true,
          hungryWorld.setData hungryPlayer.guid
            { hungryData with
              satisfaction :=
                min (hungryData.satisfaction + GetFoodBenefit hungryPlayer.level 75) 999000
              lastState :=
                GetSatisfactionState
                  (min (hungryData.satisfaction + GetFoodBenefit hungryPlayer.level 75) 999000)
              flyingDisabled := flying },
          some p1, some it1⟩ ∧
      it1.proto = goodItem.proto ∧ it1.count + 1 = goodItem.count ∧
      hungryData.satisfaction + GetFoodBenefit hungryPlayer.level 75 ≤ 2147483647 :=
  CanItemUse_feed_effect defaultConfig 0 hungryWorld hungryPlayer goodItem ⟨1, 75, "Bread"⟩
    hungryData (by decide) (by decide) (by decide) (by decide)
    (by decide)

/-! ## Multiplication by `1.0f` -/

theorem bitLenAux_le (fuel : Nat) : ∀ (k n : Nat), n < 2 ^ k → bitLenAux fuel n ≤ k := by
  induction fuel with
  | zero => intro k n _; simp [bitLenAux]
  | succ fuel ih =>
    intro k n h
    unfold bitLenAux
    split
    · exact Nat.zero_le _
    · rename_i hn
      cases k with
      | zero => simp at h; exact absurd h hn
      | succ k =>
        have : n / 2 < 2 ^ k := by
          rw [Nat.pow_succ] at h
          omega
        exact Nat.succ_le_succ (ih k (n / 2) this)

theorem roundShiftEven_zero (n : Int) : roundShiftEven n 0 = n := by
  simp [roundShiftEven]

theorem F32_round_exact (m : Int) (h1 : -16777216 < m) (h2 : m < 16777216) :
    F32.round m 0 = ⟨m, 0⟩ := by
  have hb : bitLen m.natAbs ≤ 24 := bitLenAux_le _ 24 _ (by omega)
  have hs : max (bitLen m.natAbs - 24) (-149 - (0 : Int)).toNat = 0 := by
    have : bitLen m.natAbs - 24 = 0 := by omega
    rw [this]
    decide
  unfold F32.round
  simp only [hs, roundShiftEven_zero]
  rfl

theorem mulToInt32_one (b : Int) (h1 : -16777216 < b) (h2 : b < 16777216) :
    mulToInt32 b F32.one = b := by
  unfold mulToInt32 F32.ofInt F32.mul
  rw [F32_round_exact b h1 h2]
  simp only [F32.one, mul_one, add_zero]
  rw [F32_round_exact b h1 h2]
  unfold F32.toInt32
  simp only [le_refl, if_true, Int.toNat_zero, pow_zero, mul_one]
  rw [if_pos (by omega)]

theorem UpdateFlyingState_not_unhappy (cfg : Config) (q : Player) (d : MountFeedingData)
    (hMounted : q.mounted = true)
    (hState : GetSatisfactionState d.satisfaction ≠ STATE_UNHAPPY) :
    UpdateFlyingState cfg q d =
      ({ q with
          canFly :=
            if cfg.sUnhappyNoFly = true ∧ q.flightSpeedEffects ≠ [] ∧ d.flyingDisabled = true
            then true else q.canFly },
        { d with
          flyingDisabled :=
            if cfg.sUnhappyNoFly = true ∧ q.flightSpeedEffects ≠ [] then false
            else d.flyingDisabled }) := by
  unfold UpdateFlyingState
  obtain ⟨guid, level, mounted, falling, flying, moving, ground, flight, canFly, slowFall,
    chat⟩ := q
  obtain ⟨sat, pending, decayTimer, saveTimer, lastState, baseGround, baseFly, spell, dismount,
    disabled⟩ := d
  simp only at hMounted hState
  cases hP : cfg.sUnhappyNoFly
  · simp
  · cases flight with
    | nil => simp [hMounted]
    | cons a l =>
      cases disabled
      · simp [hMounted, hState, Player.SetCanFly]
      · simp [hMounted, hState, Player.SetCanFly]

/-- C10 as stated fails.  With the default configuration, a mounted player at
satisfaction 330000 (Unhappy) fed a food of benefit 350000 ends at
satisfaction 680000, not at MAX (999000).  Moreover (second part) flight
stays suspended when the no-fly policy is switched off, (third part) with no
ground base speed captured the flight effect keeps its penalised magnitude
140 instead of the base 280, and (fourth part) a base speed of 16777217 is
reapplied as 16777216, the nearest binary32 value. -/
theorem scenario_unhappy_fed_not_clamped :
    (GetSatisfactionState 330000 = STATE_UNHAPPY ∧
      GetFoodBenefit hungryPlayer.level 75 = 350000 ∧
      ((CanItemUse defaultConfig 0 hungryWorld (some hungryPlayer)
        (some goodItem)).world.sMountFeedingStore 1).map (fun d => d.satisfaction) =
        some 680000 ∧
      (680000 : Int) ≠ SATISFACTION_MAX) ∧
    ((CanItemUse { defaultConfig with sUnhappyNoFly := false } 0 hungryWorld
        (some hungryPlayer) (some goodItem)).world.sMountFeedingStore 1).map
        (fun d => d.flyingDisabled) = some true ∧
    ((CanItemUse defaultConfig 0
        ⟨fun g => if g = 1 then some { hungryData with baseGroundSpeed := 0 } else none,
          fun _ => none⟩
        (some { hungryPlayer with groundSpeedEffects := [] })
        (some goodItem)).player).map (fun q => q.flightSpeedEffects) = some [140] ∧
    ((CanItemUse defaultConfig 0
        ⟨fun g => if g = 1 then some { hungryData with baseGroundSpeed := 16777217 } else none,
          fun _ => none⟩
        (some { hungryPlayer with groundSpeedEffects := [8388608] })
        (some goodItem)).player).map (fun q => q.groundSpeedEffects) = some [16777216] := by
  decide

/-- C10, amended: a mounted player with satisfaction 330000 (Unhappy) fed a
food of benefit 350000 ends with satisfaction 680000 (below MAX, so nothing is
clamped) and `lastState` Happy, loses one unit of the item, and is shown the
"eats" text followed by the Happy notification.  If the captured ground base
speed is positive, every ground-speed effect is set to it, and every
flight-speed effect to the flying base speed when that is positive too
(multiplier 1.0; base speeds below `2 ^ 24`, which binary32 holds exactly);
otherwise the effects keep their magnitudes.  If the no-fly policy is enabled
and a flight-speed effect is active, `flyingDisabled` ends false, with
`SetCanFly(true)` called when it was true; otherwise flight is left as it
was. -/
theorem scenario_unhappy_fed_high (cfg : Config) (gameTimeMs : Nat) (w : World) (p : Player)
    (it : Item) (proto : ItemTemplate) (data : MountFeedingData)
    (hG : PassesGuards cfg gameTimeMs w p it proto data) (hMounted : p.mounted = true)
    (hSat : data.satisfaction = 330000)
    (hBenefit : GetFoodBenefit p.level proto.ItemLevel = 350000)
    (hGround : data.baseGroundSpeed < 16777216)
    (hFlyLow : -16777216 < data.baseFlyingSpeed) (hFlyHigh : data.baseFlyingSpeed < 16777216) :
    GetSatisfactionState data.satisfaction = STATE_UNHAPPY ∧
    CanItemUse cfg gameTimeMs w (some p) (some it) =
      ⟨true,
        w.setData p.guid
          { data with
            satisfaction := 680000
            lastState := STATE_HAPPY
            flyingDisabled :=
              if cfg.sUnhappyNoFly = true ∧ p.flightSpeedEffects ≠ [] then false
              else data.flyingDisabled },
        some { p with
          chat := p.chat ++ [ChatMsg.eats proto.Name1, ChatMsg.happy]
          groundSpeedEffects :=
            if 0 < data.baseGroundSpeed then
              p.groundSpeedEffects.map (fun _ => data.baseGroundSpeed)
            else p.groundSpeedEffects
          flightSpeedEffects :=
            if 0 < data.baseGroundSpeed ∧ 0 < data.baseFlyingSpeed then
              p.flightSpeedEffects.map (fun _ => data.baseFlyingSpeed)
            else p.flightSpeedEffects
          canFly :=
            if cfg.sUnhappyNoFly = true ∧ p.flightSpeedEffects ≠ [] ∧
                data.flyingDisabled = true then true
            else p.canFly },
        some { it with count := it.count - 1 }⟩ := by
  have hOld : GetSatisfactionState data.satisfaction = STATE_UNHAPPY := by
    rw [hSat]; decide
  have hNew : GetSatisfactionState
      (min (data.satisfaction + GetFoodBenefit p.level proto.ItemLevel) SATISFACTION_MAX) =
      STATE_HAPPY := by
    rw [hSat, hBenefit]; decide
  have hMin : min (data.satisfaction + GetFoodBenefit p.level proto.ItemLevel)
      SATISFACTION_MAX = 680000 := by
    rw [hSat, hBenefit]; decide
  refine ⟨hOld, ?_⟩
  rw [CanItemUse_of_guards _ _ _ _ _ _ _ hG,
    interceptFood_fed cfg w p it proto data (by omega) (by rw [hSat]; decide)
      (by rw [hBenefit]; decide)]
  have hT : applyTransition cfg (p.PSendSysMessage (.eats proto.Name1))
      (fedData data (GetFoodBenefit p.level proto.ItemLevel))
      (GetSatisfactionState data.satisfaction)
      (GetSatisfactionState
        (min (data.satisfaction + GetFoodBenefit p.level proto.ItemLevel) SATISFACTION_MAX)) =
      ({ p with
          chat := p.chat ++ [ChatMsg.eats proto.Name1, ChatMsg.happy]
          groundSpeedEffects :=
            if 0 < data.baseGroundSpeed then
              p.groundSpeedEffects.map (fun _ => data.baseGroundSpeed)
            else p.groundSpeedEffects
          flightSpeedEffects :=
            if 0 < data.baseGroundSpeed ∧ 0 < data.baseFlyingSpeed then
              p.flightSpeedEffects.map (fun _ => data.baseFlyingSpeed)
            else p.flightSpeedEffects
          canFly :=
            if cfg.sUnhappyNoFly = true ∧ p.flightSpeedEffects ≠ [] ∧
                data.flyingDisabled = true then true
            else p.canFly },
        { data with
            satisfaction := 680000
            lastState := STATE_HAPPY
            flyingDisabled :=
              if cfg.sUnhappyNoFly = true ∧ p.flightSpeedEffects ≠ [] then false
              else data.flyingDisabled }) := by
    rw [hOld, hNew]
    have hState : GetSatisfactionState (fedData data
        (GetFoodBenefit p.level proto.ItemLevel)).satisfaction = STATE_HAPPY := hNew
    have hFed : fedData data (GetFoodBenefit p.level proto.ItemLevel) =
        { data with satisfaction := 680000, lastState := STATE_HAPPY } := by
      unfold fedData
      rw [hMin, ← hMin, hNew]
    rw [hFed] at hState ⊢
    have hGroundMul : 0 < data.baseGroundSpeed →
        mulToInt32 data.baseGroundSpeed F32.one = data.baseGroundSpeed :=
      fun h => mulToInt32_one _ (by omega) hGround
    have hFlyMul : mulToInt32 data.baseFlyingSpeed F32.one = data.baseFlyingSpeed :=
      mulToInt32_one _ hFlyLow hFlyHigh
    have hne : STATE_HAPPY ≠ STATE_UNHAPPY := by decide
    unfold applyTransition
    rw [if_pos hne]
    have hSend : SendStateMessage cfg (p.PSendSysMessage (.eats proto.Name1)) STATE_HAPPY =
        { p with chat := p.chat ++ [ChatMsg.eats proto.Name1, ChatMsg.happy] } := by
      simp [SendStateMessage, Player.PSendSysMessage]
    simp only [hSend, hMounted, if_true]
    have hS2 : GetSatisfactionState
        ({ data with satisfaction := 680000, lastState := STATE_HAPPY } :
          MountFeedingData).satisfaction ≠ STATE_UNHAPPY := by
      rw [hState]; decide
    by_cases hg : 0 < data.baseGroundSpeed
    · have hgm := hGroundMul hg
      by_cases hf : 0 < data.baseFlyingSpeed
      · simp only [ApplySpeedPenalty, hState, GetSpeedMultiplier, if_true, hgm, hFlyMul, hg, hf,
          gt_iff_lt, and_self]
        rw [UpdateFlyingState_not_unhappy _ _ _ rfl hS2]
        cases hF : p.flightSpeedEffects <;> simp
      · simp only [ApplySpeedPenalty, hState, GetSpeedMultiplier, if_true, hgm, hFlyMul, hg, hf,
          gt_iff_lt, and_false, if_false, List.map_id']
        rw [UpdateFlyingState_not_unhappy _ _ _ rfl hS2]
    · simp only [hg, gt_iff_lt, if_false, false_and]
      rw [UpdateFlyingState_not_unhappy _ _ _ rfl hS2]
  rw [hT]
  rfl

theorem scenario_unhappy_fed_high_witness :
    GetSatisfactionState hungryData.satisfaction = STATE_UNHAPPY ∧
    CanItemUse defaultConfig 0 hungryWorld (some hungryPlayer) (some goodItem) =
      ⟨true,
        hungryWorld.setData 1 ⟨680000, false, 7500, 300000, 2, 100, 280, 458, 0, false⟩,
        some ⟨1, 80, true, false, false, false, [100], [280], true, none,
          [ChatMsg.eats "Bread", ChatMsg.happy]⟩,
        some ⟨some ⟨1, 75, "Bread"⟩, 19⟩⟩ :=
  scenario_unhappy_fed_high defaultConfig 0 hungryWorld hungryPlayer goodItem
    ⟨1, 75, "Bread"⟩ hungryData (by decide) rfl rfl (by decide)
    (by decide) (by decide) (by decide)

/-! ## The satisfaction invariant along event sequences -/

theorem mulToInt32_le (a : Int) (m : F32) : mulToInt32 a m ≤ 2147483647 := by
  unfold mulToInt32 F32.toInt32
  dsimp only
  generalize (if 0 ≤ ((F32.ofInt a).mul m).expo then
      ((F32.ofInt a).mul m).mant * 2 ^ ((F32.ofInt a).mul m).expo.toNat
    else Int.tdiv ((F32.ofInt a).mul m).mant (2 ^ (-((F32.ofInt a).mul m).expo).toNat)) = t
  split
  · rename_i h
    exact h.2
  · decide

theorem setData_inRange (w : World) (guid : ObjectGuid) (data : MountFeedingData)
    (hw : SatisfactionInRange w)
    (hd : 0 ≤ data.satisfaction ∧ data.satisfaction ≤ SATISFACTION_MAX) :
    SatisfactionInRange (w.setData guid data) := by
  intro g d h
  unfold World.setData at h
  dsimp only at h
  split at h
  · cases h
    exact hd
  · exact hw g d h

theorem SaveSatisfaction_inRange (w : World) (guid : ObjectGuid) (satisfaction : Int)
    (hw : SatisfactionInRange w) : SatisfactionInRange (SaveSatisfaction w guid satisfaction) :=
  fun g d h => hw g d h

theorem erase_inRange (w : World) (guid : ObjectGuid) (hw : SatisfactionInRange w) :
    SatisfactionInRange (w.erase guid) := by
  intro g d h
  unfold World.erase at h
  dsimp only at h
  split at h
  · cases h
  · exact hw g d h

theorem clamp_range (v : Int) : 0 ≤ clamp v 0 SATISFACTION_MAX ∧
    clamp v 0 SATISFACTION_MAX ≤ SATISFACTION_MAX := by
  unfold clamp SATISFACTION_MAX
  split
  · omega
  · split <;> omega

theorem OnPlayerLogin_inRange (cfg : Config) (w : World) (player : Option Player)
    (hw : SatisfactionInRange w) : SatisfactionInRange (OnPlayerLogin cfg w player) := by
  unfold OnPlayerLogin
  split
  · exact hw
  · split
    · exact hw
    · exact setData_inRange _ _ _ hw (clamp_range _)

theorem OnPlayerLogout_inRange (w : World) (player : Option Player)
    (hw : SatisfactionInRange w) : SatisfactionInRange (OnPlayerLogout w player) := by
  unfold OnPlayerLogout
  split
  · exact hw
  · split
    · exact hw
    · exact erase_inRange _ _ (SaveSatisfaction_inRange _ _ _ hw)

theorem interceptFood_inRange (cfg : Config) (w : World) (p : Player) (it : Item)
    (proto : ItemTemplate) (data : MountFeedingData) (hw : SatisfactionInRange w)
    (hd : 0 ≤ data.satisfaction ∧ data.satisfaction ≤ SATISFACTION_MAX) :
    SatisfactionInRange (interceptFood cfg w p it proto data).world := by
  by_cases hFull : SATISFACTION_MAX ≤ data.satisfaction
  · rw [interceptFood_full _ _ _ _ _ _ hFull]
    exact hw
  · by_cases hZero : GetFoodBenefit p.level proto.ItemLevel = 0
    · rw [interceptFood_too_low _ _ _ _ _ _ (by omega) hZero]
      exact hw
    · rw [interceptFood_fed _ _ _ _ _ _ (by omega) (by omega) hZero]
      apply setData_inRange _ _ _ hw
      obtain ⟨b, hb⟩ := applyTransition_data cfg (p.PSendSysMessage (.eats proto.Name1))
        (fedData data (GetFoodBenefit p.level proto.ItemLevel))
        (GetSatisfactionState data.satisfaction)
        (GetSatisfactionState
          (min (data.satisfaction + GetFoodBenefit p.level proto.ItemLevel) SATISFACTION_MAX))
      rw [hb]
      show 0 ≤ min (data.satisfaction + GetFoodBenefit p.level proto.ItemLevel)
          SATISFACTION_MAX ∧
        min (data.satisfaction + GetFoodBenefit p.level proto.ItemLevel) SATISFACTION_MAX ≤
          SATISFACTION_MAX
      unfold SATISFACTION_MAX at *
      rcases GetFoodBenefit_values p.level proto.ItemLevel with h | h | h | h <;> omega

theorem CanItemUse_inRange (cfg : Config) (gameTimeMs : Nat) (w : World)
    (player : Option Player) (item : Option Item) (hw : SatisfactionInRange w) :
    SatisfactionInRange (CanItemUse cfg gameTimeMs w player item).world := by
  rcases CanItemUse_cases cfg gameTimeMs w player item with hc | ⟨p, it, proto, data, _, _, hG, hc⟩
  · rw [hc]
    exact hw
  · rw [hc]
    exact interceptFood_inRange _ _ _ _ _ _ hw (hw _ _ hG.2.2.2.1)

theorem OnAuraApply_inRange (cfg : Config) (w : World) (unit : Unit) (aura : Aura)
    (hw : SatisfactionInRange w) : SatisfactionInRange (OnAuraApply cfg w unit aura) := by
  unfold OnAuraApply
  split
  · exact hw
  · split
    · exact hw
    · dsimp only
      split
      · exact hw
      · split
        · exact hw
        · rename_i data hData
          apply setData_inRange _ _ _ hw
          have := hw _ data hData
          split <;> split <;> exact this

theorem OnAuraRemove_inRange (cfg : Config) (gameTimeMs : Nat) (w : World) (unit : Unit)
    (aurApp : AuraApplication) (hw : SatisfactionInRange w) :
    SatisfactionInRange (OnAuraRemove cfg gameTimeMs w unit aurApp) := by
  unfold OnAuraRemove
  split
  · exact hw
  · split
    · exact hw
    · split
      · exact hw
      · dsimp only
        split
        · exact hw
        · split
          · exact hw
          · rename_i data hData
            exact setData_inRange _ _ _ hw (hw _ data hData)

theorem OnPlayerLevelChanged_inRange (cfg : Config) (w : World) (player : Option Player)
    (oldLevel : Nat) (hw : SatisfactionInRange w) :
    SatisfactionInRange (OnPlayerLevelChanged cfg w player oldLevel) := by
  unfold OnPlayerLevelChanged
  split
  · exact hw
  · split
    · exact hw
    · split
      · exact hw
      · rename_i data hData
        exact setData_inRange _ _ _ hw (hw _ data hData)

theorem updatePendingSpeed_satisfaction (cfg : Config) (p : Player) (d : MountFeedingData) :
    (updatePendingSpeed cfg p d).2.satisfaction = d.satisfaction := by
  unfold updatePendingSpeed
  split
  · dsimp only
    obtain ⟨b, hb⟩ := UpdateFlyingState_data cfg
      (if GetSatisfactionState d.satisfaction ≠ STATE_HAPPY then
        ApplySpeedPenalty cfg p
          { d with
            pendingSpeedUpdate := false
            baseGroundSpeed := p.groundSpeedEffects.headD 0
            baseFlyingSpeed := p.flightSpeedEffects.headD 0 }
      else p)
      { d with
        pendingSpeedUpdate := false
        baseGroundSpeed := p.groundSpeedEffects.headD 0
        baseFlyingSpeed := p.flightSpeedEffects.headD 0 }
    rw [hb]
  · rfl

theorem decayMultiplier_nonneg (cfg : Config) (p : Player) (hc : DecayNonneg cfg) :
    0 ≤ mulToInt32 cfg.sDecayAmount (decayMultiplier cfg p) := by
  unfold decayMultiplier
  split
  · split
    · exact hc.2.2
    · split
      · exact hc.2.1
      · exact hc.1
  · exact hc.1

theorem updateDecay_inRange (cfg : Config) (p : Player) (d : MountFeedingData) (diff : Nat)
    (hc : DecayNonneg cfg) (hd : 0 ≤ d.satisfaction ∧ d.satisfaction ≤ SATISFACTION_MAX) :
    0 ≤ (updateDecay cfg p d diff).2.satisfaction ∧
      (updateDecay cfg p d diff).2.satisfaction ≤ SATISFACTION_MAX := by
  have h0 := decayMultiplier_nonneg cfg p hc
  have h1 := mulToInt32_le cfg.sDecayAmount (decayMultiplier cfg p)
  unfold updateDecay
  dsimp only
  by_cases hs : (if cfg.sDecayOnlyWhileMounted = true then p.mounted else true) = true
  · rw [if_pos hs]
    by_cases ht : wrapInt32 (d.decayTimer - wrapInt32 diff) ≤ 0
    · rw [if_pos ht]
      obtain ⟨b, hb⟩ := applyTransition_data cfg p
        { d with
          decayTimer := cfg.sDecayInterval
          satisfaction :=
            max 0 (wrapInt32 (d.satisfaction -
              mulToInt32 cfg.sDecayAmount (decayMultiplier cfg p)))
          lastState :=
            GetSatisfactionState
              (max 0 (wrapInt32 (d.satisfaction -
                mulToInt32 cfg.sDecayAmount (decayMultiplier cfg p)))) }
        (GetSatisfactionState d.satisfaction)
        (GetSatisfactionState
          (max 0 (wrapInt32 (d.satisfaction -
            mulToInt32 cfg.sDecayAmount (decayMultiplier cfg p)))))
      rw [hb]
      dsimp only
      unfold SATISFACTION_MAX at *
      rw [wrapInt32_of_range _ (by omega) (by omega)]
      omega
    · rw [if_neg ht]
      exact hd
  · rw [if_neg hs]
    exact hd

theorem OnPlayerUpdate_inRange (cfg : Config) (w : World) (player : Option Player)
    (diff : Nat) (hc : DecayNonneg cfg) (hw : SatisfactionInRange w) :
    SatisfactionInRange (OnPlayerUpdate cfg w player diff).1 := by
  cases player with
  | none => exact hw
  | some p =>
    unfold OnPlayerUpdate
    dsimp only
    split
    · exact hw
    · split
      · exact hw
      · rename_i data hData
        have hd := hw _ data hData
        rw [← updatePendingSpeed_satisfaction cfg p data] at hd
        have h3 := updateDecay_inRange cfg
          (updateSlowFall (updatePendingSpeed cfg p data).1 (updatePendingSpeed cfg p data).2)
          (updatePendingSpeed cfg p data).2 diff hc hd
        unfold updateSave
        dsimp only
        split
        · exact SaveSatisfaction_inRange _ _ _ (setData_inRange _ _ _ hw h3)
        · exact setData_inRange _ _ _ hw h3

theorem step_inRange (cfg : Config) (w : World) (e : Event) (hc : DecayNonneg cfg)
    (hw : SatisfactionInRange w) : SatisfactionInRange (step cfg w e) := by
  cases e with
  | login player => exact OnPlayerLogin_inRange _ _ _ hw
  | logout player => exact OnPlayerLogout_inRange _ _ hw
  | itemUse now player item => exact CanItemUse_inRange _ _ _ _ _ hw
  | auraApply unit aura => exact OnAuraApply_inRange _ _ _ _ hw
  | auraRemove now unit aurApp => exact OnAuraRemove_inRange _ _ _ _ _ hw
  | levelChanged player oldLevel => exact OnPlayerLevelChanged_inRange _ _ _ oldLevel hw
  | update player diff => exact OnPlayerUpdate_inRange _ _ _ _ hc hw

theorem run_inRange (cfg : Config) (events : List Event) (hc : DecayNonneg cfg) :
    ∀ w, SatisfactionInRange w → SatisfactionInRange (run cfg w events) := by
  induction events with
  | nil => intro w hw; exact hw
  | cons e es ih => intro w hw; exact ih _ (step_inRange cfg w e hc hw)

theorem setData_nonneg (w : World) (guid : ObjectGuid) (data : MountFeedingData)
    (hw : SatisfactionNonneg w) (hd : 0 ≤ data.satisfaction) :
    SatisfactionNonneg (w.setData guid data) := by
  intro g d h
  unfold World.setData at h
  dsimp only at h
  split at h
  · cases h
    exact hd
  · exact hw g d h

theorem SaveSatisfaction_nonneg (w : World) (guid : ObjectGuid) (satisfaction : Int)
    (hw : SatisfactionNonneg w) : SatisfactionNonneg (SaveSatisfaction w guid satisfaction) :=
  fun g d h => hw g d h

theorem OnPlayerLogin_nonneg (cfg : Config) (w : World) (player : Option Player)
    (hw : SatisfactionNonneg w) : SatisfactionNonneg (OnPlayerLogin cfg w player) := by
  unfold OnPlayerLogin
  split
  · exact hw
  · split
    · exact hw
    · exact setData_nonneg _ _ _ hw (clamp_range _).1

theorem OnPlayerLogout_nonneg (w : World) (player : Option Player)
    (hw : SatisfactionNonneg w) : SatisfactionNonneg (OnPlayerLogout w player) := by
  unfold OnPlayerLogout
  split
  · exact hw
  · split
    · exact hw
    · intro g d h
      unfold World.erase SaveSatisfaction at h
      dsimp only at h
      split at h
      · cases h
      · exact hw g d h

theorem interceptFood_nonneg (cfg : Config) (w : World) (p : Player) (it : Item)
    (proto : ItemTemplate) (data : MountFeedingData) (hw : SatisfactionNonneg w)
    (hd : 0 ≤ data.satisfaction) :
    SatisfactionNonneg (interceptFood cfg w p it proto data).world := by
  by_cases hFull : SATISFACTION_MAX ≤ data.satisfaction
  · rw [interceptFood_full _ _ _ _ _ _ hFull]
    exact hw
  · by_cases hZero : GetFoodBenefit p.level proto.ItemLevel = 0
    · rw [interceptFood_too_low _ _ _ _ _ _ (by omega) hZero]
      exact hw
    · rw [interceptFood_fed _ _ _ _ _ _ (by omega) (by omega) hZero]
      apply setData_nonneg _ _ _ hw
      obtain ⟨b, hb⟩ := applyTransition_data cfg (p.PSendSysMessage (.eats proto.Name1))
        (fedData data (GetFoodBenefit p.level proto.ItemLevel))
        (GetSatisfactionState data.satisfaction)
        (GetSatisfactionState
          (min (data.satisfaction + GetFoodBenefit p.level proto.ItemLevel) SATISFACTION_MAX))
      rw [hb]
      show 0 ≤ min (data.satisfaction + GetFoodBenefit p.level proto.ItemLevel)
          SATISFACTION_MAX
      unfold SATISFACTION_MAX at *
      rcases GetFoodBenefit_values p.level proto.ItemLevel with h | h | h | h <;> omega

theorem CanItemUse_nonneg (cfg : Config) (gameTimeMs : Nat) (w : World)
    (player : Option Player) (item : Option Item) (hw : SatisfactionNonneg w) :
    SatisfactionNonneg (CanItemUse cfg gameTimeMs w player item).world := by
  rcases CanItemUse_cases cfg gameTimeMs w player item with hc | ⟨p, it, proto, data, _, _, hG, hc⟩
  · rw [hc]
    exact hw
  · rw [hc]
    exact interceptFood_nonneg _ _ _ _ _ _ hw (hw _ _ hG.2.2.2.1)

theorem OnAuraApply_nonneg (cfg : Config) (w : World) (unit : Unit) (aura : Aura)
    (hw : SatisfactionNonneg w) : SatisfactionNonneg (OnAuraApply cfg w unit aura) := by
  unfold OnAuraApply
  split
  · exact hw
  · split
    · exact hw
    · dsimp only
      split
      · exact hw
      · split
        · exact hw
        · rename_i data hData
          apply setData_nonneg _ _ _ hw
          have := hw _ data hData
          split <;> split <;> exact this

theorem OnAuraRemove_nonneg (cfg : Config) (gameTimeMs : Nat) (w : World) (unit : Unit)
    (aurApp : AuraApplication) (hw : SatisfactionNonneg w) :
    SatisfactionNonneg (OnAuraRemove cfg gameTimeMs w unit aurApp) := by
  unfold OnAuraRemove
  split
  · exact hw
  · split
    · exact hw
    · split
      · exact hw
      · dsimp only
        split
        · exact hw
        · split
          · exact hw
          · rename_i data hData
            exact setData_nonneg _ _ _ hw (hw _ data hData)

theorem OnPlayerLevelChanged_nonneg (cfg : Config) (w : World) (player : Option Player)
    (oldLevel : Nat) (hw : SatisfactionNonneg w) :
    SatisfactionNonneg (OnPlayerLevelChanged cfg w player oldLevel) := by
  unfold OnPlayerLevelChanged
  split
  · exact hw
  · split
    · exact hw
    · split
      · exact hw
      · rename_i data hData
        exact setData_nonneg _ _ _ hw (hw _ data hData)

/-- The decay block floors at 0 whatever the configuration: it never takes a
nonnegative satisfaction below 0. -/
theorem updateDecay_nonneg (cfg : Config) (p : Player) (d : MountFeedingData) (diff : Nat)
    (hd : 0 ≤ d.satisfaction) : 0 ≤ (updateDecay cfg p d diff).2.satisfaction := by
  unfold updateDecay
  dsimp only
  by_cases hs : (if cfg.sDecayOnlyWhileMounted = true then p.mounted else true) = true
  · rw [if_pos hs]
    by_cases ht : wrapInt32 (d.decayTimer - wrapInt32 diff) ≤ 0
    · rw [if_pos ht]
      obtain ⟨b, hb⟩ := applyTransition_data cfg p
        { d with
          decayTimer := cfg.sDecayInterval
          satisfaction :=
            max 0 (wrapInt32 (d.satisfaction -
              mulToInt32 cfg.sDecayAmount (decayMultiplier cfg p)))
          lastState :=
            GetSatisfactionState
              (max 0 (wrapInt32 (d.satisfaction -
                mulToInt32 cfg.sDecayAmount (decayMultiplier cfg p)))) }
        (GetSatisfactionState d.satisfaction)
        (GetSatisfactionState
          (max 0 (wrapInt32 (d.satisfaction -
            mulToInt32 cfg.sDecayAmount (decayMultiplier cfg p)))))
      rw [hb]
      exact le_max_left _ _
    · rw [if_neg ht]
      exact hd
  · rw [if_neg hs]
    exact hd

theorem OnPlayerUpdate_nonneg (cfg : Config) (w : World) (player : Option Player)
    (diff : Nat) (hw : SatisfactionNonneg w) :
    SatisfactionNonneg (OnPlayerUpdate cfg w player diff).1 := by
  cases player with
  | none => exact hw
  | some p =>
    unfold OnPlayerUpdate
    dsimp only
    split
    · exact hw
    · split
      · exact hw
      · rename_i data hData
        have hd := hw _ data hData
        rw [← updatePendingSpeed_satisfaction cfg p data] at hd
        have h3 := updateDecay_nonneg cfg
          (updateSlowFall (updatePendingSpeed cfg p data).1 (updatePendingSpeed cfg p data).2)
          (updatePendingSpeed cfg p data).2 diff hd
        unfold updateSave
        dsimp only
        split
        · exact SaveSatisfaction_nonneg _ _ _ (setData_nonneg _ _ _ hw h3)
        · exact setData_nonneg _ _ _ hw h3

theorem step_nonneg (cfg : Config) (w : World) (e : Event) (hw : SatisfactionNonneg w) :
    SatisfactionNonneg (step cfg w e) := by
  cases e with
  | login player => exact OnPlayerLogin_nonneg _ _ _ hw
  | logout player => exact OnPlayerLogout_nonneg _ _ hw
  | itemUse now player item => exact CanItemUse_nonneg _ _ _ _ _ hw
  | auraApply unit aura => exact OnAuraApply_nonneg _ _ _ _ hw
  | auraRemove now unit aurApp => exact OnAuraRemove_nonneg _ _ _ _ _ hw
  | levelChanged player oldLevel => exact OnPlayerLevelChanged_nonneg _ _ _ oldLevel hw
  | update player diff => exact OnPlayerUpdate_nonneg _ _ _ _ hw

theorem run_nonneg (cfg : Config) (events : List Event) :
    ∀ w, SatisfactionNonneg w → SatisfactionNonneg (run cfg w events) := by
  induction events with
  | nil => intro w hw; exact hw
  | cons e es ih => intro w hw; exact ih _ (step_nonneg cfg w e hw)

/-- C1 as stated fails: with decay amount -670 (other options at their
defaults), a player who logs in at the default satisfaction 999000 and rides
through one tick of 7500 ms has the record satisfaction 999670, above
`SATISFACTION_MAX`. -/
theorem negative_decay_exceeds_max :
    ((run negativeDecayConfig (initialWorld fun _ => none) loginThenTick).sMountFeedingStore
      1).map (fun d => d.satisfaction) = some 999670 ∧
    SATISFACTION_MAX < (999670 : Int) := by
  decide

/-- C1, amended: for every configuration, every table content at server start
and every sequence of login, logout, feed, aura-apply, aura-remove,
level-change and tick events, every record of the store has
`0 ≤ satisfaction`; and when the three decay steps
`static_cast<int32>(sDecayAmount * multiplier)` of the configuration are
nonnegative, every record also has `satisfaction ≤ SATISFACTION_MAX`. -/
theorem satisfaction_in_range (cfg : Config)
    (rows : ObjectGuid → Option Int) (events : List Event) (g : ObjectGuid)
    (d : MountFeedingData)
    (h : (run cfg (initialWorld rows) events).sMountFeedingStore g = some d) :
    0 ≤ d.satisfaction ∧ (DecayNonneg cfg → d.satisfaction ≤ SATISFACTION_MAX) :=
  ⟨run_nonneg cfg events (initialWorld rows) (fun _ _ h0 => by cases h0) g d h,
    fun hc =>
      (run_inRange cfg events hc (initialWorld rows) (fun _ _ h0 => by cases h0) g d h).2⟩

theorem satisfaction_in_range_witness :
    ((run defaultConfig (initialWorld fun _ => none) loginThenTick).sMountFeedingStore 1 =
        some ⟨998330, false, 7500, 292500, 2, 0, 0, 0, 0, false⟩ ∧
      DecayNonneg defaultConfig ∧
      ((0 : Int) ≤ 998330 ∧ (998330 : Int) ≤ SATISFACTION_MAX)) ∧
    ((run negativeDecayConfig (initialWorld fun _ => none) loginThenTick).sMountFeedingStore 1 =
        some ⟨999670, false, 7500, 292500, 2, 0, 0, 0, 0, false⟩ ∧
      ¬ DecayNonneg negativeDecayConfig ∧ (0 : Int) ≤ 999670) :=
  ⟨⟨by decide, by decide,
      (satisfaction_in_range defaultConfig (fun _ => none) loginThenTick 1
        ⟨998330, false, 7500, 292500, 2, 0, 0, 0, 0, false⟩ (by decide)).1,
      (satisfaction_in_range defaultConfig (fun _ => none) loginThenTick 1
        ⟨998330, false, 7500, 292500, 2, 0, 0, 0, 0, false⟩ (by decide)).2 (by decide)⟩,
    ⟨by decide, by decide,
      (satisfaction_in_range negativeDecayConfig (fun _ => none) loginThenTick 1
        ⟨999670, false, 7500, 292500, 2, 0, 0, 0, 0, false⟩ (by decide)).1⟩⟩

/-! ## Claims on the shared effects -/

/-- C11: `ApplySpeedPenalty` is idempotent.  A second call with the same
record and configuration leaves the player, hence every ground-speed and
flight-speed magnitude, exactly as the first call left it; a call changes
nothing of the player but the two effect lists and keeps their lengths.  The
session record is an input only: the source never assigns through `data`, so
the embedding returns no record. -/
theorem ApplySpeedPenalty_idempotent (cfg : Config) (p : Player) (d : MountFeedingData) :
    ApplySpeedPenalty cfg (ApplySpeedPenalty cfg p d) d = ApplySpeedPenalty cfg p d ∧
    ApplySpeedPenalty cfg p d =
      { p with
        groundSpeedEffects := (ApplySpeedPenalty cfg p d).groundSpeedEffects
        flightSpeedEffects := (ApplySpeedPenalty cfg p d).flightSpeedEffects } ∧
    (ApplySpeedPenalty cfg p d).groundSpeedEffects.length = p.groundSpeedEffects.length ∧
    (ApplySpeedPenalty cfg p d).flightSpeedEffects.length = p.flightSpeedEffects.length := by
  refine ⟨?_, rfl, ?_, ?_⟩
  · unfold ApplySpeedPenalty
    simp only [List.map_map]
    congr 1
    · apply List.map_congr_left
      intro a _
      simp only [Function.comp]
      split <;> rfl
    · apply List.map_congr_left
      intro a _
      simp only [Function.comp]
      split <;> rfl
  · simp [ApplySpeedPenalty]
  · simp [ApplySpeedPenalty]

/-- C17: postcondition of `UpdateFlyingState`.  With the no-fly policy
disabled, the player not mounted, or no flight-speed effect active, player and
record are returned unchanged.  Otherwise `flyingDisabled` ends true exactly
when the state of the satisfaction is Unhappy, no other field of the record
changes, `SetCanFly(false)` is called exactly when `flyingDisabled` went from
false to true, `SetCanFly(true)` exactly when it went from true to false, and
the player is untouched when it did not change. -/
theorem UpdateFlyingState_postcondition (cfg : Config) (p : Player) (d : MountFeedingData) :
    ((cfg.sUnhappyNoFly = false ∨ p.mounted = false ∨ p.flightSpeedEffects = []) →
      UpdateFlyingState cfg p d = (p, d)) ∧
    ((cfg.sUnhappyNoFly = true ∧ p.mounted = true ∧ p.flightSpeedEffects ≠ []) →
      ((UpdateFlyingState cfg p d).2.flyingDisabled = true ↔
        GetSatisfactionState d.satisfaction = STATE_UNHAPPY) ∧
      (UpdateFlyingState cfg p d).2 =
        { d with flyingDisabled := (UpdateFlyingState cfg p d).2.flyingDisabled } ∧
      (UpdateFlyingState cfg p d).1 =
        (if d.flyingDisabled = false ∧ (UpdateFlyingState cfg p d).2.flyingDisabled = true then
          { p with canFly := false }
        else if d.flyingDisabled = true ∧
            (UpdateFlyingState cfg p d).2.flyingDisabled = false then
          { p with canFly := true }
        else p)) := by
  obtain ⟨guid, level, mounted, falling, flying, moving, ground, flight, canFly, slowFall,
    chat⟩ := p
  obtain ⟨sat, pending, decayTimer, saveTimer, lastState, baseGround, baseFly, spell, dismount,
    disabled⟩ := d
  constructor
  · rintro (h | h | h)
    · simp [UpdateFlyingState, h]
    · simp only at h
      simp [UpdateFlyingState, h]
    · simp only at h
      simp [UpdateFlyingState, h]
  · rintro ⟨hPolicy, hMounted, hFlight⟩
    simp only at hPolicy hMounted hFlight
    cases flight with
    | nil => exact absurd rfl hFlight
    | cons a l =>
      by_cases hState : GetSatisfactionState sat = STATE_UNHAPPY <;>
        cases disabled <;>
        simp [UpdateFlyingState, hPolicy, hMounted, hState, Player.SetCanFly]

/-! ## Claims on login and dismount -/

theorem clamp_eq_max_min (v : Int) : clamp v 0 999000 = max 0 (min v 999000) := by
  unfold clamp
  split
  · omega
  · split <;> omega

/-- C13 as stated fails: with the default satisfaction configured as 500000
(other options at their defaults), a player without a row logs in at
satisfaction 500000, not at the maximum 999000. -/
theorem login_without_row_uses_configured_default :
    ((OnPlayerLogin { defaultConfig with sDefaultSatisfaction := 500000 }
        (initialWorld fun _ => none) (some gracePlayer)).sMountFeedingStore 1).map
      (fun d => d.satisfaction) = some 500000 ∧
    (500000 : Int) ≠ SATISFACTION_MAX := by
  decide

/-- C13, amended: with the feature enabled, `OnPlayerLogin` stores for the
player a record whose satisfaction is the persisted value clamped to
`[0, 999000]`, or, when the player has no row, the configured default
satisfaction clamped to `[0, 999000]` (which is 999000 for the default 999000
and for every larger setting); both timers hold their configured intervals,
both flags are false, both base speeds, `lastMountSpellId` and
`dismountTimeMs` are 0, and `lastState` is the state of the satisfaction.
Nothing else in the store or the table changes. -/
theorem OnPlayerLogin_initialises (cfg : Config) (w : World) (p : Player)
    (hEnabled : cfg.sEnabled = true) :
    ∃ sat : Int,
      OnPlayerLogin cfg w (some p) =
        w.setData p.guid
          { satisfaction := sat
            pendingSpeedUpdate := false
            decayTimer := cfg.sDecayInterval
            saveTimer := cfg.sSaveInterval
            lastState := GetSatisfactionState sat
            baseGroundSpeed := 0
            baseFlyingSpeed := 0
            lastMountSpellId := 0
            dismountTimeMs := 0
            flyingDisabled := false } ∧
      (∀ v, w.mount_feeding p.guid = some v → sat = max 0 (min v 999000)) ∧
      (w.mount_feeding p.guid = none → sat = max 0 (min cfg.sDefaultSatisfaction 999000)) ∧
      (w.mount_feeding p.guid = none → 999000 ≤ cfg.sDefaultSatisfaction → sat = 999000) := by
  refine ⟨clamp (match w.mount_feeding p.guid with
    | some row => row
    | none => cfg.sDefaultSatisfaction) 0 SATISFACTION_MAX, ?_, ?_, ?_, ?_⟩
  · simp [OnPlayerLogin, hEnabled]
  · intro v hv
    rw [hv]
    exact clamp_eq_max_min v
  · intro hv
    rw [hv]
    exact clamp_eq_max_min _
  · intro hv hd
    rw [hv]
    show clamp cfg.sDefaultSatisfaction 0 999000 = 999000
    rw [clamp_eq_max_min]
    omega

theorem OnPlayerLogin_initialises_witness :
    ∃ sat : Int,
      OnPlayerLogin defaultConfig (initialWorld fun _ => none) (some gracePlayer) =
        (initialWorld fun _ => none).setData gracePlayer.guid
          { satisfaction := sat
            pendingSpeedUpdate := false
            decayTimer := defaultConfig.sDecayInterval
            saveTimer := defaultConfig.sSaveInterval
            lastState := GetSatisfactionState sat
            baseGroundSpeed := 0
            baseFlyingSpeed := 0
            lastMountSpellId := 0
            dismountTimeMs := 0
            flyingDisabled := false } ∧
      (∀ v, (initialWorld fun _ => none).mount_feeding gracePlayer.guid = some v →
        sat = max 0 (min v 999000)) ∧
      ((initialWorld fun _ => none).mount_feeding gracePlayer.guid = none →
        sat = max 0 (min defaultConfig.sDefaultSatisfaction 999000)) ∧
      ((initialWorld fun _ => none).mount_feeding gracePlayer.guid = none →
        999000 ≤ defaultConfig.sDefaultSatisfaction → sat = 999000) :=
  OnPlayerLogin_initialises defaultConfig (initialWorld fun _ => none) gracePlayer rfl

theorem auraRemoveScan_iff (aura : Aura) :
    auraRemoveScan aura = true ↔ aura.hasMountMarker := by
  obtain ⟨id, e0, e1, e2⟩ := aura
  unfold auraRemoveScan Aura.hasMountMarker MAX_SPELL_EFFECTS
  simp only [List.range_succ, List.range_zero, List.nil_append, List.cons_append,
    List.any_cons, List.any_nil, Bool.or_false, Aura.GetEffect, Bool.or_eq_true]
  rcases e0 with _ | ⟨⟨t0⟩⟩ <;> rcases e1 with _ | ⟨⟨t1⟩⟩ <;> rcases e2 with _ | ⟨⟨t2⟩⟩ <;> simp

/-- C18: dismount reset and its frame.  With the feature enabled and a session
record for the player, removing an aura that carries the mount marker effect
replaces the record by the old one with `dismountTimeMs` the clock value
(as `uint32`), both base speeds 0 and `pendingSpeedUpdate`, `flyingDisabled`
false: satisfaction, `lastState`, both timers and `lastMountSpellId` keep
their values.  Removing an aura without the marker (or an application
without a base aura) leaves the whole world unchanged. -/
theorem OnAuraRemove_dismount_reset (cfg : Config) (gameTimeMs : Nat) (w : World) (p : Player)
    (aurApp : AuraApplication) (data : MountFeedingData)
    (hEnabled : cfg.sEnabled = true) (hData : w.sMountFeedingStore p.guid = some data) :
    (∀ aura, aurApp.base = some aura → aura.hasMountMarker →
      OnAuraRemove cfg gameTimeMs w (Unit.player p) aurApp =
        w.setData p.guid
          { satisfaction := data.satisfaction
            pendingSpeedUpdate := false
            decayTimer := data.decayTimer
            saveTimer := data.saveTimer
            lastState := data.lastState
            baseGroundSpeed := 0
            baseFlyingSpeed := 0
            lastMountSpellId := data.lastMountSpellId
            dismountTimeMs := gameTimeMs % 4294967296
            flyingDisabled := false }) ∧
    (∀ aura, aurApp.base = some aura → ¬ aura.hasMountMarker →
      OnAuraRemove cfg gameTimeMs w (Unit.player p) aurApp = w) ∧
    (aurApp.base = none → OnAuraRemove cfg gameTimeMs w (Unit.player p) aurApp = w) := by
  refine ⟨fun aura hBase hMarker => ?_, fun aura hBase hMarker => ?_, fun hBase => ?_⟩
  · have hScan := (auraRemoveScan_iff aura).2 hMarker
    simp [OnAuraRemove, hEnabled, Unit.ToPlayer, hBase, hScan, hData]
  · have hScan : auraRemoveScan aura = false := by
      cases h : auraRemoveScan aura
      · rfl
      · exact absurd ((auraRemoveScan_iff aura).1 h) hMarker
    simp [OnAuraRemove, hEnabled, Unit.ToPlayer, hBase, hScan]
  · simp [OnAuraRemove, hEnabled, Unit.ToPlayer, hBase]

theorem OnAuraRemove_dismount_reset_witness :
    (∀ aura, (AuraApplication.mk (some mountAura)).base = some aura → aura.hasMountMarker →
      OnAuraRemove defaultConfig 5000 hungryWorld (Unit.player hungryPlayer)
          ⟨some mountAura⟩ =
        hungryWorld.setData hungryPlayer.guid
          { satisfaction := hungryData.satisfaction
            pendingSpeedUpdate := false
            decayTimer := hungryData.decayTimer
            saveTimer := hungryData.saveTimer
            lastState := hungryData.lastState
            baseGroundSpeed := 0
            baseFlyingSpeed := 0
            lastMountSpellId := hungryData.lastMountSpellId
            dismountTimeMs := 5000 % 4294967296
            flyingDisabled := false }) ∧
    (∀ aura, (AuraApplication.mk (some mountAura)).base = some aura → ¬ aura.hasMountMarker →
      OnAuraRemove defaultConfig 5000 hungryWorld (Unit.player hungryPlayer)
        ⟨some mountAura⟩ = hungryWorld) ∧
    ((AuraApplication.mk (some mountAura)).base = none →
      OnAuraRemove defaultConfig 5000 hungryWorld (Unit.player hungryPlayer)
        ⟨some mountAura⟩ = hungryWorld) :=
  OnAuraRemove_dismount_reset defaultConfig 5000 hungryWorld hungryPlayer ⟨some mountAura⟩
    hungryData rfl rfl

/-! ## The blocks of the tick handler -/

theorem updatePendingSpeed_skip (cfg : Config) (p : Player) (d : MountFeedingData)
    (h : (d.pendingSpeedUpdate && p.mounted) = false) : updatePendingSpeed cfg p d = (p, d) := by
  unfold updatePendingSpeed
  rw [if_neg (by simp [h])]

theorem UpdateFlyingState_player (cfg : Config) (p : Player) (d : MountFeedingData) :
    ∃ c, (UpdateFlyingState cfg p d).1 = { p with canFly := c } := by
  unfold UpdateFlyingState
  split
  · exact ⟨p.canFly, rfl⟩
  · dsimp only
    split
    · exact ⟨p.canFly, rfl⟩
    · split
      · exact ⟨false, rfl⟩
      · split
        · exact ⟨true, rfl⟩
        · exact ⟨p.canFly, rfl⟩

theorem SendStateMessage_player (cfg : Config) (p : Player) (state : Nat) :
    ∃ c, SendStateMessage cfg p state = { p with chat := c } := by
  unfold SendStateMessage Player.PSendSysMessage
  split
  · exact ⟨_, rfl⟩
  · split
    · exact ⟨_, rfl⟩
    · split
      · split <;> exact ⟨_, rfl⟩
      · exact ⟨p.chat, rfl⟩

/-- The first block changes nothing of the record but `pendingSpeedUpdate`,
the two base speeds and `flyingDisabled`, and nothing of the player but the
effect magnitudes, the flight capability and the chat. -/
theorem updatePendingSpeed_frame (cfg : Config) (p : Player) (d : MountFeedingData) :
    (∃ pend g f b, (updatePendingSpeed cfg p d).2 =
      { d with pendingSpeedUpdate := pend, baseGroundSpeed := g, baseFlyingSpeed := f,
               flyingDisabled := b }) ∧
    (∃ ge fe c ch, (updatePendingSpeed cfg p d).1 =
      { p with groundSpeedEffects := ge, flightSpeedEffects := fe, canFly := c, chat := ch }) := by
  unfold updatePendingSpeed
  split
  · dsimp only
    generalize hq : (if GetSatisfactionState d.satisfaction ≠ STATE_HAPPY then
        ApplySpeedPenalty cfg p
          { d with
            pendingSpeedUpdate := false
            baseGroundSpeed := p.groundSpeedEffects.headD 0
            baseFlyingSpeed := p.flightSpeedEffects.headD 0 }
      else p) = q
    have hqp : ∃ ge fe, q = { p with groundSpeedEffects := ge, flightSpeedEffects := fe } := by
      rw [← hq]
      split
      · exact ⟨_, _, rfl⟩
      · exact ⟨p.groundSpeedEffects, p.flightSpeedEffects, rfl⟩
    obtain ⟨ge, fe, hqe⟩ := hqp
    obtain ⟨b, hb⟩ := UpdateFlyingState_data cfg q
      { d with
        pendingSpeedUpdate := false
        baseGroundSpeed := p.groundSpeedEffects.headD 0
        baseFlyingSpeed := p.flightSpeedEffects.headD 0 }
    obtain ⟨c, hc⟩ := UpdateFlyingState_player cfg q
      { d with
        pendingSpeedUpdate := false
        baseGroundSpeed := p.groundSpeedEffects.headD 0
        baseFlyingSpeed := p.flightSpeedEffects.headD 0 }
    obtain ⟨ch, hch⟩ := SendStateMessage_player cfg
      (UpdateFlyingState cfg q
        { d with
          pendingSpeedUpdate := false
          baseGroundSpeed := p.groundSpeedEffects.headD 0
          baseFlyingSpeed := p.flightSpeedEffects.headD 0 }).1
      (GetSatisfactionState d.satisfaction)
    refine ⟨⟨false, p.groundSpeedEffects.headD 0, p.flightSpeedEffects.headD 0, b, ?_⟩,
      ⟨ge, fe, c, ch, ?_⟩⟩
    · rw [hb]
    · rw [hch, hc, hqe]
  · exact ⟨⟨d.pendingSpeedUpdate, d.baseGroundSpeed, d.baseFlyingSpeed, d.flyingDisabled, rfl⟩,
      ⟨p.groundSpeedEffects, p.flightSpeedEffects, p.canFly, p.chat, rfl⟩⟩

theorem updateSlowFall_frame (p : Player) (d : MountFeedingData) :
    ∃ s, updateSlowFall p d = { p with slowFall := s } := by
  unfold updateSlowFall Player.CastSlowFall
  split
  · split
    · split <;> exact ⟨_, rfl⟩
    · split
      · exact ⟨none, rfl⟩
      · exact ⟨p.slowFall, rfl⟩
  · exact ⟨p.slowFall, rfl⟩

theorem decayMultiplier_eq_context (cfg : Config) (p : Player) :
    decayMultiplier cfg p = contextMultiplier cfg p := by
  unfold decayMultiplier contextMultiplier
  cases p.mounted <;> cases p.flying <;> cases p.moving <;> simp

theorem updateDecay_inactive (cfg : Config) (p : Player) (d : MountFeedingData) (diff : Nat)
    (hOption : cfg.sDecayOnlyWhileMounted = true) (hMounted : p.mounted = false) :
    updateDecay cfg p d diff = (p, d) := by
  simp [updateDecay, hOption, hMounted]

theorem updateDecay_wait (cfg : Config) (p : Player) (d : MountFeedingData) (diff : Nat)
    (hActive : cfg.sDecayOnlyWhileMounted = true → p.mounted = true)
    (hTimer : 0 < timerAfter d.decayTimer diff) :
    updateDecay cfg p d diff = (p, { d with decayTimer := timerAfter d.decayTimer diff }) := by
  have hs : (if cfg.sDecayOnlyWhileMounted = true then p.mounted else true) = true := by
    split
    · rename_i h
      exact hActive h
    · rfl
  unfold timerAfter at hTimer
  unfold updateDecay timerAfter
  dsimp only
  rw [if_pos hs, if_neg (by omega)]

theorem updateDecay_fire (cfg : Config) (p : Player) (d : MountFeedingData) (diff : Nat)
    (hActive : cfg.sDecayOnlyWhileMounted = true → p.mounted = true)
    (hTimer : timerAfter d.decayTimer diff ≤ 0) :
    updateDecay cfg p d diff =
      applyTransition cfg p
        { d with
          decayTimer := cfg.sDecayInterval
          satisfaction :=
            max 0 (wrapInt32 (d.satisfaction -
              mulToInt32 cfg.sDecayAmount (contextMultiplier cfg p)))
          lastState :=
            GetSatisfactionState
              (max 0 (wrapInt32 (d.satisfaction -
                mulToInt32 cfg.sDecayAmount (contextMultiplier cfg p)))) }
        (GetSatisfactionState d.satisfaction)
        (GetSatisfactionState
          (max 0 (wrapInt32 (d.satisfaction -
            mulToInt32 cfg.sDecayAmount (contextMultiplier cfg p))))) := by
  have hs : (if cfg.sDecayOnlyWhileMounted = true then p.mounted else true) = true := by
    split
    · rename_i h
      exact hActive h
    · rfl
  unfold timerAfter at hTimer
  unfold updateDecay
  dsimp only
  rw [if_pos hs, if_pos hTimer, decayMultiplier_eq_context]

theorem OnPlayerUpdate_eq (cfg : Config) (w : World) (p : Player) (diff : Nat)
    (data : MountFeedingData) (hEnabled : cfg.sEnabled = true)
    (hData : w.sMountFeedingStore p.guid = some data) :
    OnPlayerUpdate cfg w (some p) diff =
      (updateSave cfg w p.guid
          (updateDecay cfg
            (updateSlowFall (updatePendingSpeed cfg p data).1 (updatePendingSpeed cfg p data).2)
            (updatePendingSpeed cfg p data).2 diff).2 diff,
        some (updateDecay cfg
          (updateSlowFall (updatePendingSpeed cfg p data).1 (updatePendingSpeed cfg p data).2)
          (updatePendingSpeed cfg p data).2 diff).1) := by
  simp [OnPlayerUpdate, hEnabled, hData]

theorem updateSave_store (cfg : Config) (w : World) (guid : ObjectGuid)
    (d : MountFeedingData) (diff : Nat) :
    (updateSave cfg w guid d diff).sMountFeedingStore guid =
      some { d with
        saveTimer :=
          if timerAfter d.saveTimer diff ≤ 0 then cfg.sSaveInterval
          else timerAfter d.saveTimer diff } := by
  unfold updateSave timerAfter
  dsimp only
  split <;> simp [SaveSatisfaction, World.setData]

theorem contextMultiplier_congr (cfg : Config) (p q : Player) (hm : q.mounted = p.mounted)
    (hf : q.flying = p.flying) (hv : q.moving = p.moving) :
    contextMultiplier cfg q = contextMultiplier cfg p := by
  unfold contextMultiplier
  rw [hm, hf, hv]

/-! ## Claims on the decay step -/

/-- C16: decay runs only while mounted.  With the feature enabled, a session
record and the decay-only-while-mounted option enabled, a tick for a player
who is not mounted changes nothing but `saveTimer` (satisfaction, `lastState`
and `decayTimer` keep their values) and leaves the player untouched.  With the
option disabled the decay timer runs for every player, mounted or not:
it ends at the configured interval when `timerAfter decayTimer diff ≤ 0` and
at that value otherwise. -/
theorem OnPlayerUpdate_decay_only_while_mounted (cfg : Config) (w : World) (p : Player)
    (diff : Nat) (data : MountFeedingData) (hEnabled : cfg.sEnabled = true)
    (hData : w.sMountFeedingStore p.guid = some data) :
    (cfg.sDecayOnlyWhileMounted = true → p.mounted = false →
      (OnPlayerUpdate cfg w (some p) diff).1.sMountFeedingStore p.guid =
        some { data with
          saveTimer :=
            if timerAfter data.saveTimer diff ≤ 0 then cfg.sSaveInterval
            else timerAfter data.saveTimer diff } ∧
      (OnPlayerUpdate cfg w (some p) diff).2 = some p) ∧
    (cfg.sDecayOnlyWhileMounted = false →
      ∃ data1, (OnPlayerUpdate cfg w (some p) diff).1.sMountFeedingStore p.guid = some data1 ∧
        data1.decayTimer =
          if timerAfter data.decayTimer diff ≤ 0 then cfg.sDecayInterval
          else timerAfter data.decayTimer diff) := by
  constructor
  · intro hOption hMounted
    have h1 : updatePendingSpeed cfg p data = (p, data) :=
      updatePendingSpeed_skip cfg p data (by simp [hMounted])
    have h2 : updateSlowFall p data = p := by
      simp [updateSlowFall, hMounted]
    rw [OnPlayerUpdate_eq cfg w p diff data hEnabled hData, h1]
    dsimp only
    rw [h2, updateDecay_inactive cfg p data diff hOption hMounted]
    exact ⟨updateSave_store cfg w p.guid data diff, rfl⟩
  · intro hOption
    rw [OnPlayerUpdate_eq cfg w p diff data hEnabled hData]
    dsimp only
    rw [updateSave_store]
    obtain ⟨pend, g, f, b, hd1⟩ := (updatePendingSpeed_frame cfg p data).1
    generalize updateSlowFall (updatePendingSpeed cfg p data).1
      (updatePendingSpeed cfg p data).2 = p2
    generalize (updatePendingSpeed cfg p data).2 = d1 at hd1 ⊢
    have hActive : cfg.sDecayOnlyWhileMounted = true → p2.mounted = true := by
      intro h
      rw [hOption] at h
      exact absurd h (by decide)
    have hTimerEq : d1.decayTimer = data.decayTimer := by rw [hd1]
    refine ⟨_, rfl, ?_⟩
    by_cases hTimer : timerAfter data.decayTimer diff ≤ 0
    · rw [if_pos hTimer, updateDecay_fire cfg p2 d1 diff hActive (by rw [hTimerEq]; exact hTimer)]
      obtain ⟨b2, hb2⟩ := applyTransition_data cfg p2
        { d1 with
          decayTimer := cfg.sDecayInterval
          satisfaction :=
            max 0 (wrapInt32 (d1.satisfaction -
              mulToInt32 cfg.sDecayAmount (contextMultiplier cfg p2)))
          lastState :=
            GetSatisfactionState
              (max 0 (wrapInt32 (d1.satisfaction -
                mulToInt32 cfg.sDecayAmount (contextMultiplier cfg p2)))) }
        (GetSatisfactionState d1.satisfaction)
        (GetSatisfactionState
          (max 0 (wrapInt32 (d1.satisfaction -
            mulToInt32 cfg.sDecayAmount (contextMultiplier cfg p2)))))
      rw [hb2]
    · rw [if_neg hTimer, updateDecay_wait cfg p2 d1 diff hActive
        (by rw [hTimerEq]; omega)]
      dsimp only
      rw [hTimerEq]

theorem OnPlayerUpdate_decay_only_while_mounted_witness :
    (defaultConfig.sDecayOnlyWhileMounted = true → gracePlayer.mounted = false →
      (OnPlayerUpdate defaultConfig hungryWorld (some gracePlayer) 100).1.sMountFeedingStore
          gracePlayer.guid =
        some { hungryData with
          saveTimer :=
            if timerAfter hungryData.saveTimer 100 ≤ 0 then defaultConfig.sSaveInterval
            else timerAfter hungryData.saveTimer 100 } ∧
      (OnPlayerUpdate defaultConfig hungryWorld (some gracePlayer) 100).2 = some gracePlayer) ∧
    (defaultConfig.sDecayOnlyWhileMounted = false →
      ∃ data1, (OnPlayerUpdate defaultConfig hungryWorld (some gracePlayer)
          100).1.sMountFeedingStore gracePlayer.guid = some data1 ∧
        data1.decayTimer =
          if timerAfter hungryData.decayTimer 100 ≤ 0 then defaultConfig.sDecayInterval
          else timerAfter hungryData.decayTimer 100) :=
  OnPlayerUpdate_decay_only_while_mounted defaultConfig hungryWorld gracePlayer 100 hungryData
    rfl rfl

/-! ## Claims on the deferred speed capture -/

/-- What the first block of the tick leaves when it runs: the bases are the
first magnitudes the player had, the ground magnitudes are an image of the
old ones, and the rest is as `updatePendingSpeed_frame` says. -/
theorem updatePendingSpeed_capture (cfg : Config) (p : Player) (d : MountFeedingData)
    (hPending : d.pendingSpeedUpdate = true) (hMounted : p.mounted = true) :
    ∃ (f : Int → Int) (fe : List Int) (c : Bool) (ch : List ChatMsg) (b : Bool),
      updatePendingSpeed cfg p d =
        ({ p with
            groundSpeedEffects := p.groundSpeedEffects.map f
            flightSpeedEffects := fe, canFly := c, chat := ch },
          { d with
            pendingSpeedUpdate := false
            baseGroundSpeed := p.groundSpeedEffects.headD 0
            baseFlyingSpeed := p.flightSpeedEffects.headD 0
            flyingDisabled := b }) := by
  unfold updatePendingSpeed
  rw [if_pos (by simp [hPending, hMounted])]
  dsimp only
  generalize hq : (if GetSatisfactionState d.satisfaction ≠ STATE_HAPPY then
      ApplySpeedPenalty cfg p
        { d with
          pendingSpeedUpdate := false
          baseGroundSpeed := p.groundSpeedEffects.headD 0
          baseFlyingSpeed := p.flightSpeedEffects.headD 0 }
    else p) = q
  have hqp : ∃ (f : Int → Int) (fe : List Int),
      q = { p with groundSpeedEffects := p.groundSpeedEffects.map f, flightSpeedEffects := fe } := by
    rw [← hq]
    split
    · exact ⟨_, _, rfl⟩
    · exact ⟨id, p.flightSpeedEffects, by simp⟩
  obtain ⟨f, fe, hqe⟩ := hqp
  obtain ⟨b, hb⟩ := UpdateFlyingState_data cfg q
    { d with
      pendingSpeedUpdate := false
      baseGroundSpeed := p.groundSpeedEffects.headD 0
      baseFlyingSpeed := p.flightSpeedEffects.headD 0 }
  obtain ⟨c, hc⟩ := UpdateFlyingState_player cfg q
    { d with
      pendingSpeedUpdate := false
      baseGroundSpeed := p.groundSpeedEffects.headD 0
      baseFlyingSpeed := p.flightSpeedEffects.headD 0 }
  obtain ⟨ch, hch⟩ := SendStateMessage_player cfg
    (UpdateFlyingState cfg q
      { d with
        pendingSpeedUpdate := false
        baseGroundSpeed := p.groundSpeedEffects.headD 0
        baseFlyingSpeed := p.flightSpeedEffects.headD 0 }).1
    (GetSatisfactionState d.satisfaction)
  refine ⟨f, fe, c, ch, b, ?_⟩
  rw [hch, hc, hb, hqe]

theorem applyTransition_cross (cfg : Config) (p : Player) (d : MountFeedingData)
    (oldState newState : Nat) (hCross : newState ≠ oldState) (hMounted : p.mounted = true)
    (hBase : 0 < d.baseGroundSpeed) :
    applyTransition cfg p d oldState newState =
      UpdateFlyingState cfg (ApplySpeedPenalty cfg (SendStateMessage cfg p newState) d) d := by
  obtain ⟨ch, hch⟩ := SendStateMessage_player cfg p newState
  unfold applyTransition
  rw [if_pos hCross]
  dsimp only
  rw [if_pos (by rw [hch]; exact hMounted), if_pos hBase]

/-- C19: capture before decay within one tick.  With the feature enabled, for
a mounted player with `pendingSpeedUpdate` set whose first ground-speed
effect has magnitude `g > 0`, a tick whose decay fires and takes the state to
a different state `n` ends with `baseGroundSpeed = g`, `pendingSpeedUpdate`
false, the record in state `n`, and, when
`static_cast<int32>(g * GetSpeedMultiplier(n))` is positive, every
ground-speed effect at that magnitude: the penalty of the transition uses
the base captured in this tick, whatever base the record held before. -/
theorem OnPlayerUpdate_capture_before_decay (cfg : Config) (w : World) (p : Player)
    (diff : Nat) (data : MountFeedingData) (g : Int) (rest : List Int) (n : Nat)
    (hEnabled : cfg.sEnabled = true) (hData : w.sMountFeedingStore p.guid = some data)
    (hMounted : p.mounted = true) (hPending : data.pendingSpeedUpdate = true)
    (hFirst : p.groundSpeedEffects = g :: rest) (hg : 0 < g)
    (hTimer : timerAfter data.decayTimer diff ≤ 0)
    (hNew : n = GetSatisfactionState
      (max 0 (wrapInt32 (data.satisfaction -
        mulToInt32 cfg.sDecayAmount (contextMultiplier cfg p)))))
    (hCross : n ≠ GetSatisfactionState data.satisfaction) :
    ∃ data1 p1,
      (OnPlayerUpdate cfg w (some p) diff).1.sMountFeedingStore p.guid = some data1 ∧
      (OnPlayerUpdate cfg w (some p) diff).2 = some p1 ∧
      data1.baseGroundSpeed = g ∧ data1.pendingSpeedUpdate = false ∧
      GetSatisfactionState data1.satisfaction = n ∧ data1.lastState = n ∧
      (0 < mulToInt32 g (GetSpeedMultiplier cfg n) →
        p1.groundSpeedEffects =
          p.groundSpeedEffects.map (fun _ => mulToInt32 g (GetSpeedMultiplier cfg n))) := by
  rw [OnPlayerUpdate_eq cfg w p diff data hEnabled hData]
  dsimp only
  rw [updateSave_store]
  obtain ⟨f, fe, c, ch, b, hCap⟩ := updatePendingSpeed_capture cfg p data hPending hMounted
  rw [hCap]
  dsimp only
  obtain ⟨s, hs⟩ := updateSlowFall_frame
    { p with
      groundSpeedEffects := p.groundSpeedEffects.map f
      flightSpeedEffects := fe, canFly := c, chat := ch }
    { data with
      pendingSpeedUpdate := false
      baseGroundSpeed := p.groundSpeedEffects.headD 0
      baseFlyingSpeed := p.flightSpeedEffects.headD 0
      flyingDisabled := b }
  rw [hs]
  dsimp only
  have hHead : p.groundSpeedEffects.headD 0 = g := by rw [hFirst]; rfl
  rw [hHead]
  generalize hp2 : ({ p with
      groundSpeedEffects := p.groundSpeedEffects.map f
      flightSpeedEffects := fe, canFly := c, slowFall := s, chat := ch } : Player) = p2
  have hp2m : p2.mounted = true := by rw [← hp2]; exact hMounted
  have hp2g : p2.groundSpeedEffects = p.groundSpeedEffects.map f := by rw [← hp2]
  have hMul : contextMultiplier cfg p2 = contextMultiplier cfg p := by
    apply contextMultiplier_congr <;> rw [← hp2]
  generalize hd1 : ({ data with
      pendingSpeedUpdate := false
      baseGroundSpeed := g
      baseFlyingSpeed := p.flightSpeedEffects.headD 0
      flyingDisabled := b } : MountFeedingData) = d1
  have hd1s : d1.satisfaction = data.satisfaction := by rw [← hd1]
  have hd1t : d1.decayTimer = data.decayTimer := by rw [← hd1]
  have hd1g : d1.baseGroundSpeed = g := by rw [← hd1]
  have hd1p : d1.pendingSpeedUpdate = false := by rw [← hd1]
  rw [updateDecay_fire cfg p2 d1 diff (fun _ => hp2m) (by rw [hd1t]; exact hTimer)]
  rw [hMul, hd1s, ← hNew]
  rw [applyTransition_cross cfg p2 _ _ n hCross hp2m (by dsimp only; rw [hd1g]; exact hg)]
  obtain ⟨b2, hb2⟩ := UpdateFlyingState_data cfg
    (ApplySpeedPenalty cfg (SendStateMessage cfg p2 n)
      { d1 with
        decayTimer := cfg.sDecayInterval
        satisfaction :=
          max 0 (wrapInt32 (data.satisfaction -
            mulToInt32 cfg.sDecayAmount (contextMultiplier cfg p)))
        lastState := n })
    { d1 with
      decayTimer := cfg.sDecayInterval
      satisfaction :=
        max 0 (wrapInt32 (data.satisfaction -
          mulToInt32 cfg.sDecayAmount (contextMultiplier cfg p)))
      lastState := n }
  obtain ⟨c2, hc2⟩ := UpdateFlyingState_player cfg
    (ApplySpeedPenalty cfg (SendStateMessage cfg p2 n)
      { d1 with
        decayTimer := cfg.sDecayInterval
        satisfaction :=
          max 0 (wrapInt32 (data.satisfaction -
            mulToInt32 cfg.sDecayAmount (contextMultiplier cfg p)))
        lastState := n })
    { d1 with
      decayTimer := cfg.sDecayInterval
      satisfaction :=
        max 0 (wrapInt32 (data.satisfaction -
          mulToInt32 cfg.sDecayAmount (contextMultiplier cfg p)))
      lastState := n }
  refine ⟨_, _, rfl, rfl, ?_, ?_, ?_, ?_, ?_⟩
  · rw [hb2]
    exact hd1g
  · rw [hb2]
    exact hd1p
  · rw [hb2]
    exact hNew.symm
  · rw [hb2]
  · intro hPos
    obtain ⟨ch2, hch2⟩ := SendStateMessage_player cfg p2 n
    rw [hc2, hch2]
    simp only [ApplySpeedPenalty]
    rw [hd1g, ← hNew, hp2g, List.map_map]
    apply List.map_congr_left
    intro a _
    simp only [Function.comp, gt_iff_lt, if_pos hPos]

theorem OnPlayerUpdate_capture_before_decay_witness :
    ∃ data1 p1,
      (OnPlayerUpdate defaultConfig captureWorld (some ridingPlayer) 7500).1.sMountFeedingStore
        ridingPlayer.guid = some data1 ∧
      (OnPlayerUpdate defaultConfig captureWorld (some ridingPlayer) 7500).2 = some p1 ∧
      data1.baseGroundSpeed = 100 ∧ data1.pendingSpeedUpdate = false ∧
      GetSatisfactionState data1.satisfaction = 0 ∧ data1.lastState = 0 ∧
      (0 < mulToInt32 100 (GetSpeedMultiplier defaultConfig 0) →
        p1.groundSpeedEffects =
          ridingPlayer.groundSpeedEffects.map
            (fun _ => mulToInt32 100 (GetSpeedMultiplier defaultConfig 0))) :=
  OnPlayerUpdate_capture_before_decay defaultConfig captureWorld ridingPlayer 7500 captureData
    100 [] 0 rfl rfl rfl rfl rfl (by decide) (by decide) (by decide) (by decide)

/-- C20: at the input of the claim the code compounds the penalty.  A Content
player (multiplier 0.75) whose mount was captured at base speeds 100 and 280
and penalised to 75 and 210 gets a level-change event and then a tick of
100 ms, the host leaving the magnitudes at 75 and 210.  The tick captures the
penalised magnitudes as the new bases, 75 and 210 instead of 100 and 280, and
penalises them again: the effects end at 56 and 157 instead of 75 and 210. -/
theorem level_change_compounds_penalty :
    mulToInt32 100 defaultConfig.sContentSpeedMultiplier = 75 ∧
    mulToInt32 280 defaultConfig.sContentSpeedMultiplier = 210 ∧
    ((OnPlayerUpdate defaultConfig
        (OnPlayerLevelChanged defaultConfig cruiseWorld (some cruisePlayer) 79)
        (some cruisePlayer) 100).1.sMountFeedingStore 1).map
      (fun d => (d.baseGroundSpeed, d.baseFlyingSpeed)) = some (75, 210) ∧
    ((OnPlayerUpdate defaultConfig
        (OnPlayerLevelChanged defaultConfig cruiseWorld (some cruisePlayer) 79)
        (some cruisePlayer) 100).2).map
      (fun q => (q.groundSpeedEffects, q.flightSpeedEffects)) = some ([56], [157]) := by
  decide

/-! ## Logout and the next login -/

theorem setData_other (w : World) (guid g : ObjectGuid) (d : MountFeedingData)
    (h : g ≠ guid) :
    (w.setData guid d).sMountFeedingStore g = w.sMountFeedingStore g ∧
    (w.setData guid d).mount_feeding g = w.mount_feeding g := by
  simp [World.setData, h]

theorem interceptFood_world (cfg : Config) (w : World) (p : Player) (it : Item)
    (proto : ItemTemplate) (data : MountFeedingData) :
    (interceptFood cfg w p it proto data).world = w ∨
    ∃ d, (interceptFood cfg w p it proto data).world = w.setData p.guid d := by
  unfold interceptFood
  split
  · exact Or.inl rfl
  · dsimp only
    split
    · exact Or.inl rfl
    · exact Or.inr ⟨_, rfl⟩

/-- While the player `g` has no session record, no event but a login of `g`
gives it one, and none changes its row. -/
theorem step_offline (cfg : Config) (w : World) (e : Event) (g : ObjectGuid)
    (hNone : w.sMountFeedingStore g = none) (hNot : e.isLoginOf g = false) :
    (step cfg w e).sMountFeedingStore g = none ∧
    (step cfg w e).mount_feeding g = w.mount_feeding g := by
  have hOther : ∀ (guid : ObjectGuid) (d : MountFeedingData),
      w.sMountFeedingStore guid = some d → g ≠ guid := by
    intro guid d hd hEq
    rw [hEq, hd] at hNone
    cases hNone
  cases e with
  | login player =>
    cases player with
    | none => exact ⟨hNone, rfl⟩
    | some q =>
      have hq : g ≠ q.guid := by
        intro hEq
        simp [Event.isLoginOf, hEq] at hNot
      show (OnPlayerLogin cfg w (some q)).sMountFeedingStore g = none ∧
      (OnPlayerLogin cfg w (some q)).mount_feeding g = w.mount_feeding g
      unfold OnPlayerLogin
      dsimp only
      split
      · exact ⟨hNone, rfl⟩
      · have := setData_other w q.guid g
          { satisfaction := clamp (match w.mount_feeding q.guid with
              | some row => row
              | none => cfg.sDefaultSatisfaction) 0 SATISFACTION_MAX
            pendingSpeedUpdate := false
            decayTimer := cfg.sDecayInterval
            saveTimer := cfg.sSaveInterval
            lastState := GetSatisfactionState (clamp (match w.mount_feeding q.guid with
              | some row => row
              | none => cfg.sDefaultSatisfaction) 0 SATISFACTION_MAX)
            baseGroundSpeed := 0
            baseFlyingSpeed := 0
            lastMountSpellId := 0
            dismountTimeMs := 0
            flyingDisabled := false } hq
        exact ⟨this.1.trans hNone, this.2⟩
  | logout player =>
    cases player with
    | none => exact ⟨hNone, rfl⟩
    | some q =>
      show (OnPlayerLogout w (some q)).sMountFeedingStore g = none ∧
      (OnPlayerLogout w (some q)).mount_feeding g = w.mount_feeding g
      unfold OnPlayerLogout
      dsimp only
      split
      · exact ⟨hNone, rfl⟩
      · rename_i d hd
        have hq := hOther q.guid d hd
        simp [World.erase, SaveSatisfaction, hq, hNone]
  | itemUse now player item =>
    show (CanItemUse cfg now w player item).world.sMountFeedingStore g = none ∧
      (CanItemUse cfg now w player item).world.mount_feeding g = w.mount_feeding g
    rcases CanItemUse_cases cfg now w player item with hc | ⟨p, it, proto, data, _, _, hG, hc⟩
    · rw [hc]
      exact ⟨hNone, rfl⟩
    · rw [hc]
      have hq := hOther p.guid data hG.2.2.2.1
      rcases interceptFood_world cfg w p it proto data with hw | ⟨d, hw⟩
      · rw [hw]
        exact ⟨hNone, rfl⟩
      · rw [hw]
        have := setData_other w p.guid g d hq
        exact ⟨this.1.trans hNone, this.2⟩
  | auraApply unit aura =>
    show (OnAuraApply cfg w unit aura).sMountFeedingStore g = none ∧
      (OnAuraApply cfg w unit aura).mount_feeding g = w.mount_feeding g
    unfold OnAuraApply
    split
    · exact ⟨hNone, rfl⟩
    · split
      · exact ⟨hNone, rfl⟩
      · dsimp only
        split
        · exact ⟨hNone, rfl⟩
        · split
          · exact ⟨hNone, rfl⟩
          · have hq := hOther _ _ ‹w.sMountFeedingStore _ = some _›
            simp [World.setData, hq, hNone]
  | auraRemove now unit aurApp =>
    show (OnAuraRemove cfg now w unit aurApp).sMountFeedingStore g = none ∧
      (OnAuraRemove cfg now w unit aurApp).mount_feeding g = w.mount_feeding g
    unfold OnAuraRemove
    split
    · exact ⟨hNone, rfl⟩
    · split
      · exact ⟨hNone, rfl⟩
      · split
        · exact ⟨hNone, rfl⟩
        · dsimp only
          split
          · exact ⟨hNone, rfl⟩
          · split
            · exact ⟨hNone, rfl⟩
            · have hq := hOther _ _ ‹w.sMountFeedingStore _ = some _›
              simp [World.setData, hq, hNone]
  | levelChanged player oldLevel =>
    show (OnPlayerLevelChanged cfg w player oldLevel).sMountFeedingStore g = none ∧
      (OnPlayerLevelChanged cfg w player oldLevel).mount_feeding g = w.mount_feeding g
    unfold OnPlayerLevelChanged
    split
    · exact ⟨hNone, rfl⟩
    · split
      · exact ⟨hNone, rfl⟩
      · split
        · exact ⟨hNone, rfl⟩
        · have hq := hOther _ _ ‹w.sMountFeedingStore _ = some _›
          simp [World.setData, hq, hNone]
  | update player diff =>
    show (OnPlayerUpdate cfg w player diff).1.sMountFeedingStore g = none ∧
      (OnPlayerUpdate cfg w player diff).1.mount_feeding g = w.mount_feeding g
    cases player with
    | none => exact ⟨hNone, rfl⟩
    | some p =>
      unfold OnPlayerUpdate
      dsimp only
      split
      · exact ⟨hNone, rfl⟩
      · split
        · exact ⟨hNone, rfl⟩
        · rename_i d hd
          have hq := hOther p.guid d hd
          unfold updateSave
          dsimp only
          split <;> simp [SaveSatisfaction, World.setData, hq, hNone]

theorem run_offline (cfg : Config) (g : ObjectGuid) (events : List Event) :
    ∀ w : World, w.sMountFeedingStore g = none →
      (∀ e ∈ events, e.isLoginOf g = false) →
      (run cfg w events).sMountFeedingStore g = none ∧
      (run cfg w events).mount_feeding g = w.mount_feeding g := by
  induction events with
  | nil => intro w hNone _; exact ⟨hNone, rfl⟩
  | cons e es ih =>
    intro w hNone hNot
    have h1 := step_offline cfg w e g hNone (hNot e (List.mem_cons_self _ _))
    have h2 := ih (step cfg w e) h1.1 (fun e' he' => hNot e' (List.mem_cons_of_mem _ he'))
    exact ⟨h2.1, h2.2.trans h1.2⟩

/-- C14: logout/login round trip.  For an online player whose record holds a
satisfaction `v` in `[0, 999000]`, `OnPlayerLogout` writes the row `v` for
that player (replacing whatever row there was), removes the session record,
and leaves the rows and records of all other players untouched; after any
events that follow, up to the next login of the same identity (feature
enabled), that login creates a record with satisfaction exactly `v`. -/
theorem logout_login_round_trip (cfg : Config) (w : World) (p q : Player)
    (data : MountFeedingData) (events : List Event)
    (hEnabled : cfg.sEnabled = true) (hData : w.sMountFeedingStore p.guid = some data)
    (hLow : 0 ≤ data.satisfaction) (hHigh : data.satisfaction ≤ 999000)
    (hSame : q.guid = p.guid) (hNext : ∀ e ∈ events, e.isLoginOf p.guid = false) :
    (OnPlayerLogout w (some p)).mount_feeding p.guid = some data.satisfaction ∧
    (OnPlayerLogout w (some p)).sMountFeedingStore p.guid = none ∧
    (∀ g, g ≠ p.guid →
      (OnPlayerLogout w (some p)).mount_feeding g = w.mount_feeding g ∧
      (OnPlayerLogout w (some p)).sMountFeedingStore g = w.sMountFeedingStore g) ∧
    ∃ data1,
      (OnPlayerLogin cfg (run cfg (OnPlayerLogout w (some p)) events)
        (some q)).sMountFeedingStore p.guid = some data1 ∧
      data1.satisfaction = data.satisfaction := by
  have hRow : (OnPlayerLogout w (some p)).mount_feeding p.guid = some data.satisfaction := by
    simp [OnPlayerLogout, hData, World.erase, SaveSatisfaction]
  have hGone : (OnPlayerLogout w (some p)).sMountFeedingStore p.guid = none := by
    simp [OnPlayerLogout, hData, World.erase, SaveSatisfaction]
  refine ⟨hRow, hGone, ?_, ?_⟩
  · intro g hg
    simp [OnPlayerLogout, hData, World.erase, SaveSatisfaction, hg]
  · have hRun := run_offline cfg p.guid events (OnPlayerLogout w (some p)) hGone hNext
    have hRow2 : (run cfg (OnPlayerLogout w (some p)) events).mount_feeding q.guid =
        some data.satisfaction := by
      rw [hSame, hRun.2, hRow]
    have hLogin : (OnPlayerLogin cfg (run cfg (OnPlayerLogout w (some p)) events)
        (some q)).sMountFeedingStore p.guid =
        some
          { satisfaction := clamp data.satisfaction 0 SATISFACTION_MAX
            pendingSpeedUpdate := false
            decayTimer := cfg.sDecayInterval
            saveTimer := cfg.sSaveInterval
            lastState := GetSatisfactionState (clamp data.satisfaction 0 SATISFACTION_MAX)
            baseGroundSpeed := 0
            baseFlyingSpeed := 0
            lastMountSpellId := 0
            dismountTimeMs := 0
            flyingDisabled := false } := by
      rw [← hSame]
      simp only [OnPlayerLogin, hEnabled, hRow2]
      simp [World.setData]
    refine ⟨_, hLogin, ?_⟩
    show clamp data.satisfaction 0 SATISFACTION_MAX = data.satisfaction
    unfold clamp SATISFACTION_MAX
    rw [if_neg (by omega), if_neg (by omega)]

theorem logout_login_round_trip_witness :
    (OnPlayerLogout graceWorld (some gracePlayer)).mount_feeding gracePlayer.guid =
      some (500000 : Int) ∧
    (OnPlayerLogout graceWorld (some gracePlayer)).sMountFeedingStore gracePlayer.guid = none ∧
    (∀ g, g ≠ gracePlayer.guid →
      (OnPlayerLogout graceWorld (some gracePlayer)).mount_feeding g =
        graceWorld.mount_feeding g ∧
      (OnPlayerLogout graceWorld (some gracePlayer)).sMountFeedingStore g =
        graceWorld.sMountFeedingStore g) ∧
    ∃ data1,
      (OnPlayerLogin defaultConfig
        (run defaultConfig (OnPlayerLogout graceWorld (some gracePlayer))
          [Event.login (some otherPlayer), Event.update (some otherPlayer) 7500,
            Event.update (some gracePlayer) 7500])
        (some gracePlayer)).sMountFeedingStore gracePlayer.guid = some data1 ∧
      data1.satisfaction = (500000 : Int) :=
  logout_login_round_trip defaultConfig graceWorld gracePlayer gracePlayer
    ⟨500000, false, 7500, 300000, 1, 0, 0, 458, 5000, false⟩
    [Event.login (some otherPlayer), Event.update (some otherPlayer) 7500,
      Event.update (some gracePlayer) 7500]
    rfl rfl (by decide) (by decide) rfl (by decide)

/-! ## When `flyingDisabled` is cleared -/

theorem UpdateFlyingState_flag (cfg : Config) (p : Player) (d : MountFeedingData) :
    (UpdateFlyingState cfg p d).2.flyingDisabled =
      if FlightManaged cfg p then decide (GetSatisfactionState d.satisfaction = STATE_UNHAPPY)
      else d.flyingDisabled := by
  by_cases hM : FlightManaged cfg p
  · rw [if_pos hM]
    obtain ⟨hPolicy, hMounted, hFlight⟩ := hM
    obtain ⟨guid, level, mounted, falling, flying, moving, ground, flight, canFly, slowFall,
      chat⟩ := p
    obtain ⟨sat, pending, decayTimer, saveTimer, lastState, baseGround, baseFly, spell,
      dismount, disabled⟩ := d
    simp only at hMounted hFlight
    cases flight with
    | nil => exact absurd rfl hFlight
    | cons a l =>
      by_cases hState : GetSatisfactionState sat = STATE_UNHAPPY <;>
        cases disabled <;>
        simp [UpdateFlyingState, hPolicy, hMounted, hState]
  · rw [if_neg hM]
    have hNo : cfg.sUnhappyNoFly = false ∨ p.mounted = false ∨ p.flightSpeedEffects = [] := by
      unfold FlightManaged at hM
      cases h1 : cfg.sUnhappyNoFly
      · exact Or.inl rfl
      · cases h2 : p.mounted
        · exact Or.inr (Or.inl rfl)
        · by_cases h3 : p.flightSpeedEffects = []
          · exact Or.inr (Or.inr h3)
          · exact absurd ⟨h1, h2, h3⟩ hM
    obtain ⟨guid, level, mounted, falling, flying, moving, ground, flight, canFly, slowFall,
      chat⟩ := p
    rcases hNo with h | h | h
    · simp [UpdateFlyingState, h]
    · simp only at h
      simp [UpdateFlyingState, h]
    · simp only at h
      simp [UpdateFlyingState, h]

theorem auraApplyScan_marker (aura : Aura) :
    (auraApplyScan aura).2 = true ↔ aura.hasMountMarker := by
  obtain ⟨id, e0, e1, e2⟩ := aura
  unfold auraApplyScan Aura.hasMountMarker MAX_SPELL_EFFECTS
  simp only [List.range_succ, List.range_zero, List.nil_append, List.cons_append,
    List.foldl_cons, List.foldl_nil, Aura.GetEffect]
  rcases e0 with _ | ⟨⟨t0⟩⟩ <;> rcases e1 with _ | ⟨⟨t1⟩⟩ <;> rcases e2 with _ | ⟨⟨t2⟩⟩ <;>
    simp <;> tauto

theorem setData_found (w : World) (guid g : ObjectGuid) (x d : MountFeedingData)
    (P : MountFeedingData → Prop) (hd : w.sMountFeedingStore g = some d)
    (hx : g = guid → P x) (hKeep : P d) :
    ∃ d1, (w.setData guid x).sMountFeedingStore g = some d1 ∧ P d1 := by
  by_cases h : g = guid
  · exact ⟨x, by simp [World.setData, h], hx h⟩
  · exact ⟨d, by simp [World.setData, h, hd], hKeep⟩

theorem same_record (w : World) (guid g : ObjectGuid) (data d : MountFeedingData)
    (hData : w.sMountFeedingStore guid = some data) (hd : w.sMountFeedingStore g = some d)
    (h : g = guid) : data = d := by
  rw [h, hData] at hd
  exact Option.some.inj hd

theorem UpdateFlyingState_flag_cases (cfg : Config) (p : Player) (d : MountFeedingData) :
    (UpdateFlyingState cfg p d).2.flyingDisabled = d.flyingDisabled ∨
    (UpdateFlyingState cfg p d).2.flyingDisabled =
      decide (GetSatisfactionState d.satisfaction = STATE_UNHAPPY) := by
  rw [UpdateFlyingState_flag]
  by_cases h : FlightManaged cfg p
  · rw [if_pos h]
    exact Or.inr rfl
  · rw [if_neg h]
    exact Or.inl rfl

theorem applyTransition_flag (cfg : Config) (p : Player) (d : MountFeedingData)
    (oldState newState : Nat) :
    (applyTransition cfg p d oldState newState).2.flyingDisabled = d.flyingDisabled ∨
    (applyTransition cfg p d oldState newState).2.flyingDisabled =
      decide (GetSatisfactionState d.satisfaction = STATE_UNHAPPY) := by
  unfold applyTransition
  by_cases hCross : newState ≠ oldState
  · rw [if_pos hCross]
    dsimp only
    by_cases hMounted : (SendStateMessage cfg p newState).mounted = true
    · rw [if_pos hMounted]
      exact UpdateFlyingState_flag_cases _ _ _
    · rw [if_neg hMounted]
      exact Or.inl rfl
  · rw [if_neg hCross]
    exact Or.inl rfl

theorem updatePendingSpeed_flag (cfg : Config) (p : Player) (d : MountFeedingData) :
    (updatePendingSpeed cfg p d).2.flyingDisabled = d.flyingDisabled ∨
    (updatePendingSpeed cfg p d).2.flyingDisabled =
      decide (GetSatisfactionState d.satisfaction = STATE_UNHAPPY) := by
  unfold updatePendingSpeed
  by_cases hRun : (d.pendingSpeedUpdate && p.mounted) = true
  · rw [if_pos hRun]
    dsimp only
    exact UpdateFlyingState_flag_cases _ _ _
  · rw [if_neg hRun]
    exact Or.inl rfl

theorem updatePendingSpeed_flag_managed (cfg : Config) (p : Player) (d : MountFeedingData)
    (hPending : d.pendingSpeedUpdate = true) (hManaged : FlightManaged cfg p) :
    (updatePendingSpeed cfg p d).2.flyingDisabled =
      decide (GetSatisfactionState d.satisfaction = STATE_UNHAPPY) := by
  obtain ⟨hPolicy, hMounted, hFlight⟩ := hManaged
  unfold updatePendingSpeed
  rw [if_pos (by simp [hPending, hMounted])]
  dsimp only
  rw [UpdateFlyingState_flag, if_pos]
  refine ⟨hPolicy, ?_, ?_⟩
  · split
    · exact hMounted
    · exact hMounted
  · split
    · simp [ApplySpeedPenalty, hFlight]
    · exact hFlight

theorem GetSatisfactionState_unhappy_iff (v : Int) :
    GetSatisfactionState v = STATE_UNHAPPY ↔ v < 333000 := by
  unfold GetSatisfactionState THRESHOLD_HAPPY THRESHOLD_CONTENT HAPPINESS_LEVEL_SIZE
    STATE_HAPPY STATE_CONTENT STATE_UNHAPPY
  constructor
  · intro h
    split at h
    · omega
    · split at h
      · omega
      · omega
  · intro h
    rw [if_neg (by omega), if_neg (by omega)]

/-- With nonnegative decay steps the decay block never raises a nonnegative
satisfaction, and leaves `flyingDisabled` as it was or as the state of the
new satisfaction demands. -/
theorem updateDecay_effect (cfg : Config) (p : Player) (d : MountFeedingData) (diff : Nat) :
    ((updateDecay cfg p d diff).2.flyingDisabled = d.flyingDisabled ∨
      (updateDecay cfg p d diff).2.flyingDisabled =
        decide (GetSatisfactionState (updateDecay cfg p d diff).2.satisfaction =
          STATE_UNHAPPY)) ∧
    (DecayNonneg cfg → 0 ≤ d.satisfaction →
      (updateDecay cfg p d diff).2.satisfaction ≤ d.satisfaction) := by
  by_cases hActive : cfg.sDecayOnlyWhileMounted = true → p.mounted = true
  · by_cases hTimer : timerAfter d.decayTimer diff ≤ 0
    · rw [updateDecay_fire cfg p d diff hActive hTimer]
      obtain ⟨b, hb⟩ := applyTransition_data cfg p
        { d with
          decayTimer := cfg.sDecayInterval
          satisfaction :=
            max 0 (wrapInt32 (d.satisfaction -
              mulToInt32 cfg.sDecayAmount (contextMultiplier cfg p)))
          lastState :=
            GetSatisfactionState
              (max 0 (wrapInt32 (d.satisfaction -
                mulToInt32 cfg.sDecayAmount (contextMultiplier cfg p)))) }
        (GetSatisfactionState d.satisfaction)
        (GetSatisfactionState
          (max 0 (wrapInt32 (d.satisfaction -
            mulToInt32 cfg.sDecayAmount (contextMultiplier cfg p)))))
      have hFlag := applyTransition_flag cfg p
        { d with
          decayTimer := cfg.sDecayInterval
          satisfaction :=
            max 0 (wrapInt32 (d.satisfaction -
              mulToInt32 cfg.sDecayAmount (contextMultiplier cfg p)))
          lastState :=
            GetSatisfactionState
              (max 0 (wrapInt32 (d.satisfaction -
                mulToInt32 cfg.sDecayAmount (contextMultiplier cfg p)))) }
        (GetSatisfactionState d.satisfaction)
        (GetSatisfactionState
          (max 0 (wrapInt32 (d.satisfaction -
            mulToInt32 cfg.sDecayAmount (contextMultiplier cfg p)))))
      constructor
      · rcases hFlag with h | h
        · exact Or.inl h
        · right
          rw [h, hb]
      · intro hc h0
        rw [hb]
        dsimp only
        have hn := decayMultiplier_nonneg cfg p hc
        rw [decayMultiplier_eq_context] at hn
        have hl := mulToInt32_le cfg.sDecayAmount (contextMultiplier cfg p)
        have hMax : d.satisfaction ≤ 2147483647 ∨ 2147483647 < d.satisfaction :=
          le_or_lt _ _
        rcases hMax with hm | hm
        · rw [wrapInt32_of_range _ (by omega) (by omega)]
          omega
        · have : wrapInt32 (d.satisfaction -
              mulToInt32 cfg.sDecayAmount (contextMultiplier cfg p)) ≤ 2147483647 := by
            unfold wrapInt32
            omega
          omega
    · rw [updateDecay_wait cfg p d diff hActive (by omega)]
      exact ⟨Or.inl rfl, fun _ _ => le_refl _⟩
  · have hOption : cfg.sDecayOnlyWhileMounted = true := by
      by_contra h
      exact hActive (fun h' => absurd h' h)
    have hMounted : p.mounted = false := by
      cases h : p.mounted
      · rfl
      · exact absurd (fun _ => h) hActive
    rw [updateDecay_inactive cfg p d diff hOption hMounted]
    exact ⟨Or.inl rfl, fun _ _ => le_refl _⟩

theorem OnPlayerLevelChanged_keeps_flag (cfg : Config) (w : World) (player : Option Player)
    (oldLevel : Nat) (g : ObjectGuid) (d : MountFeedingData)
    (hd : w.sMountFeedingStore g = some d) :
    ∃ d1, (OnPlayerLevelChanged cfg w player oldLevel).sMountFeedingStore g = some d1 ∧
      d1.flyingDisabled = d.flyingDisabled := by
  unfold OnPlayerLevelChanged
  split
  · exact ⟨d, hd, rfl⟩
  · split
    · exact ⟨d, hd, rfl⟩
    · split
      · exact ⟨d, hd, rfl⟩
      · apply setData_found w _ g _ d (fun x => x.flyingDisabled = d.flyingDisabled) hd _ rfl
        intro h
        have := same_record w _ g _ d ‹w.sMountFeedingStore _ = some _› hd h
        rw [← this]

theorem OnAuraApply_flag (cfg : Config) (w : World) (unit : Unit) (aura : Aura)
    (g : ObjectGuid) (d : MountFeedingData) (hd : w.sMountFeedingStore g = some d) :
    ∃ d1, (OnAuraApply cfg w unit aura).sMountFeedingStore g = some d1 ∧
      (d1.flyingDisabled = d.flyingDisabled ∨
        (d1.flyingDisabled = false ∧ aura.hasMountMarker)) := by
  unfold OnAuraApply
  split
  · exact ⟨d, hd, Or.inl rfl⟩
  · split
    · exact ⟨d, hd, Or.inl rfl⟩
    · dsimp only
      split
      · exact ⟨d, hd, Or.inl rfl⟩
      · split
        · exact ⟨d, hd, Or.inl rfl⟩
        · apply setData_found w _ g _ d
            (fun x => x.flyingDisabled = d.flyingDisabled ∨
              (x.flyingDisabled = false ∧ aura.hasMountMarker)) hd _ (Or.inl rfl)
          intro h
          have := same_record w _ g _ d ‹w.sMountFeedingStore _ = some _› hd h
          rw [← this]
          by_cases hMarker : (auraApplyScan aura).2 = true
          · rw [if_pos hMarker]
            exact Or.inr ⟨rfl, (auraApplyScan_marker aura).1 hMarker⟩
          · rw [if_neg hMarker]
            left
            split <;> rfl

theorem OnAuraApply_marker_clears (cfg : Config) (w : World) (p : Player) (aura : Aura)
    (data : MountFeedingData) (hEnabled : cfg.sEnabled = true)
    (hData : w.sMountFeedingStore p.guid = some data) (hMarker : aura.hasMountMarker) :
    ∃ d1, (OnAuraApply cfg w (Unit.player p) aura).sMountFeedingStore p.guid = some d1 ∧
      d1.flyingDisabled = false := by
  have hScan := (auraApplyScan_marker aura).2 hMarker
  simp [OnAuraApply, hEnabled, Unit.ToPlayer, hScan, hData, World.setData]

theorem OnAuraRemove_flag (cfg : Config) (gameTimeMs : Nat) (w : World) (unit : Unit)
    (aurApp : AuraApplication) (g : ObjectGuid) (d : MountFeedingData)
    (hd : w.sMountFeedingStore g = some d) :
    ∃ d1, (OnAuraRemove cfg gameTimeMs w unit aurApp).sMountFeedingStore g = some d1 ∧
      (d1.flyingDisabled = d.flyingDisabled ∨
        (d1.flyingDisabled = false ∧ ∃ aura, aurApp.base = some aura ∧ aura.hasMountMarker)) := by
  unfold OnAuraRemove
  split
  · exact ⟨d, hd, Or.inl rfl⟩
  · split
    · exact ⟨d, hd, Or.inl rfl⟩
    · cases hBase : aurApp.base with
      | none => exact ⟨d, hd, Or.inl rfl⟩
      | some aura =>
        dsimp only
        by_cases hScan : auraRemoveScan aura = true
        · rw [if_neg (by simp [hScan])]
          split
          · exact ⟨d, hd, Or.inl rfl⟩
          · apply setData_found w _ g _ d
              (fun x => x.flyingDisabled = d.flyingDisabled ∨
                (x.flyingDisabled = false ∧
                  ∃ a, some aura = some a ∧ a.hasMountMarker)) hd _ (Or.inl rfl)
            intro _
            exact Or.inr ⟨rfl, aura, rfl, (auraRemoveScan_iff aura).1 hScan⟩
        · rw [if_pos (by simp [hScan])]
          exact ⟨d, hd, Or.inl rfl⟩

theorem OnAuraRemove_marker_clears (cfg : Config) (gameTimeMs : Nat) (w : World) (p : Player)
    (aura : Aura) (data : MountFeedingData) (hEnabled : cfg.sEnabled = true)
    (hData : w.sMountFeedingStore p.guid = some data) (hMarker : aura.hasMountMarker) :
    ∃ d1, (OnAuraRemove cfg gameTimeMs w (Unit.player p) ⟨some aura⟩).sMountFeedingStore
        p.guid = some d1 ∧ d1.flyingDisabled = false := by
  have hScan := (auraRemoveScan_iff aura).2 hMarker
  simp [OnAuraRemove, hEnabled, Unit.ToPlayer, hScan, hData, World.setData]

theorem interceptFood_world_flag (cfg : Config) (w : World) (p : Player) (it : Item)
    (proto : ItemTemplate) (data : MountFeedingData) :
    (interceptFood cfg w p it proto data).world = w ∨
    ∃ d1, (interceptFood cfg w p it proto data).world = w.setData p.guid d1 ∧
      (d1.flyingDisabled = data.flyingDisabled ∨
        d1.flyingDisabled = decide (GetSatisfactionState d1.satisfaction = STATE_UNHAPPY)) := by
  unfold interceptFood
  split
  · exact Or.inl rfl
  · dsimp only
    split
    · exact Or.inl rfl
    · right
      refine ⟨_, rfl, ?_⟩
      generalize hd2 : ({ data with
        satisfaction :=
          min (wrapInt32 (data.satisfaction + GetFoodBenefit p.level proto.ItemLevel))
            SATISFACTION_MAX
        lastState :=
          GetSatisfactionState
            (min (wrapInt32 (data.satisfaction + GetFoodBenefit p.level proto.ItemLevel))
              SATISFACTION_MAX) } : MountFeedingData) = d2
      have hfd : d2.flyingDisabled = data.flyingDisabled := by rw [← hd2]
      generalize GetSatisfactionState data.satisfaction = o
      generalize GetSatisfactionState (min (wrapInt32 (data.satisfaction +
        GetFoodBenefit p.level proto.ItemLevel)) SATISFACTION_MAX) = n
      obtain ⟨b, hb⟩ := applyTransition_data cfg (p.PSendSysMessage (.eats proto.Name1)) d2 o n
      rcases applyTransition_flag cfg (p.PSendSysMessage (.eats proto.Name1)) d2 o n with h | h
      · exact Or.inl (h.trans hfd)
      · right
        rw [h, hb]

theorem CanItemUse_flag (cfg : Config) (gameTimeMs : Nat) (w : World)
    (player : Option Player) (item : Option Item) (g : ObjectGuid) (d : MountFeedingData)
    (hd : w.sMountFeedingStore g = some d) :
    ∃ d1, (CanItemUse cfg gameTimeMs w player item).world.sMountFeedingStore g = some d1 ∧
      (d1.flyingDisabled = d.flyingDisabled ∨
        d1.flyingDisabled = decide (GetSatisfactionState d1.satisfaction = STATE_UNHAPPY)) := by
  rcases CanItemUse_cases cfg gameTimeMs w player item with hc | ⟨p, it, proto, data, _, _, hG, hc⟩
  · rw [hc]
    exact ⟨d, hd, Or.inl rfl⟩
  · rw [hc]
    rcases interceptFood_world_flag cfg w p it proto data with hw | ⟨d1, hw, hFlag⟩
    · rw [hw]
      exact ⟨d, hd, Or.inl rfl⟩
    · rw [hw]
      apply setData_found w _ g _ d
        (fun x => x.flyingDisabled = d.flyingDisabled ∨
          x.flyingDisabled = decide (GetSatisfactionState x.satisfaction = STATE_UNHAPPY))
        hd _ (Or.inl rfl)
      intro h
      have := same_record w _ g _ d hG.2.2.2.1 hd h
      rw [← this]
      exact hFlag

theorem setData_self (w : World) (guid : ObjectGuid) (x : MountFeedingData) :
    (w.setData guid x).sMountFeedingStore guid = some x := by
  simp [World.setData]

theorem CanItemUse_lift_clears (cfg : Config) (gameTimeMs : Nat) (w : World) (p : Player)
    (it : Item) (proto : ItemTemplate) (data : MountFeedingData)
    (hG : PassesGuards cfg gameTimeMs w p it proto data) (hManaged : FlightManaged cfg p)
    (hInt : -2147483648 ≤ data.satisfaction)
    (hOld : GetSatisfactionState data.satisfaction = STATE_UNHAPPY)
    (hNew : GetSatisfactionState
      (min (data.satisfaction + GetFoodBenefit p.level proto.ItemLevel) 999000) ≠
        STATE_UNHAPPY) :
    ∃ d1 p1,
      (CanItemUse cfg gameTimeMs w (some p) (some it)).world.sMountFeedingStore p.guid =
        some d1 ∧
      (CanItemUse cfg gameTimeMs w (some p) (some it)).player = some p1 ∧
      d1.flyingDisabled = false ∧ (data.flyingDisabled = true → p1.canFly = true) := by
  obtain ⟨hPolicy, hMounted, hFlight⟩ := hManaged
  have hLow := (GetSatisfactionState_unhappy_iff _).1 hOld
  have hBenefit : GetFoodBenefit p.level proto.ItemLevel ≠ 0 := by
    intro hz
    rw [hz, add_zero, min_eq_left (by omega)] at hNew
    exact hNew hOld
  rw [CanItemUse_of_guards _ _ _ _ _ _ _ hG,
    interceptFood_fed cfg w p it proto data hInt (by unfold SATISFACTION_MAX; omega) hBenefit]
  dsimp only
  have hCross : GetSatisfactionState
      (min (data.satisfaction + GetFoodBenefit p.level proto.ItemLevel) SATISFACTION_MAX) ≠
      GetSatisfactionState data.satisfaction := by
    rw [hOld]
    exact hNew
  obtain ⟨ch, hch⟩ := SendStateMessage_player cfg (p.PSendSysMessage (.eats proto.Name1))
    (GetSatisfactionState
      (min (data.satisfaction + GetFoodBenefit p.level proto.ItemLevel) SATISFACTION_MAX))
  unfold applyTransition
  rw [if_pos hCross]
  dsimp only
  rw [if_pos (by rw [hch]; exact hMounted)]
  generalize hq : (if (fedData data (GetFoodBenefit p.level proto.ItemLevel)).baseGroundSpeed > 0
    then ApplySpeedPenalty cfg
      (SendStateMessage cfg (p.PSendSysMessage (.eats proto.Name1))
        (GetSatisfactionState
          (min (data.satisfaction + GetFoodBenefit p.level proto.ItemLevel)
            SATISFACTION_MAX)))
      (fedData data (GetFoodBenefit p.level proto.ItemLevel))
    else SendStateMessage cfg (p.PSendSysMessage (.eats proto.Name1))
      (GetSatisfactionState
        (min (data.satisfaction + GetFoodBenefit p.level proto.ItemLevel)
          SATISFACTION_MAX))) = q
  have hqm : q.mounted = true := by
    rw [← hq]
    split
    · show (SendStateMessage cfg _ _).mounted = true
      rw [hch]
      exact hMounted
    · rw [hch]
      exact hMounted
  have hqf : q.flightSpeedEffects ≠ [] := by
    rw [← hq]
    split
    · rw [hch]
      simp [ApplySpeedPenalty, Player.PSendSysMessage, hFlight]
    · rw [hch]
      exact hFlight
  have hState : GetSatisfactionState
      (fedData data (GetFoodBenefit p.level proto.ItemLevel)).satisfaction ≠ STATE_UNHAPPY :=
    hNew
  rw [UpdateFlyingState_not_unhappy cfg q _ hqm hState]
  refine ⟨_, _, setData_self _ _ _, rfl, ?_, ?_⟩
  · simp [hPolicy, hqf]
  · intro hfd
    have : (fedData data (GetFoodBenefit p.level proto.ItemLevel)).flyingDisabled = true := hfd
    simp [hPolicy, hqf, this]

theorem updateSave_other (cfg : Config) (w : World) (guid g : ObjectGuid)
    (x : MountFeedingData) (diff : Nat) (h : g ≠ guid) :
    (updateSave cfg w guid x diff).sMountFeedingStore g = w.sMountFeedingStore g := by
  unfold updateSave
  dsimp only
  split <;> simp [SaveSatisfaction, World.setData, h]

theorem OnPlayerUpdate_keeps_flag_unhappy (cfg : Config) (w : World)
    (player : Option Player) (diff : Nat) (g : ObjectGuid) (d : MountFeedingData)
    (hc : DecayNonneg cfg) (hd : w.sMountFeedingStore g = some d)
    (hFlag : d.flyingDisabled = true) (hNonneg : 0 ≤ d.satisfaction)
    (hState : GetSatisfactionState d.satisfaction = STATE_UNHAPPY) :
    ∃ d1, (OnPlayerUpdate cfg w player diff).1.sMountFeedingStore g = some d1 ∧
      d1.flyingDisabled = true := by
  cases player with
  | none => exact ⟨d, hd, hFlag⟩
  | some p =>
    by_cases hEnabled : cfg.sEnabled = true
    swap
    · exact ⟨d, by simp [OnPlayerUpdate, hEnabled, hd], hFlag⟩
    cases hData : w.sMountFeedingStore p.guid with
    | none => exact ⟨d, by simp [OnPlayerUpdate, hEnabled, hData, hd], hFlag⟩
    | some data =>
      rw [OnPlayerUpdate_eq cfg w p diff data hEnabled hData]
      dsimp only
      by_cases hg : g = p.guid
      · have hSame := same_record w _ g _ d hData hd hg
        rw [hg, updateSave_store, hSame]
        have h1 : (updatePendingSpeed cfg p d).2.flyingDisabled = true := by
          rcases updatePendingSpeed_flag cfg p d with h | h
          · rw [h, hFlag]
          · rw [h]
            simp [hState]
        have h1s := updatePendingSpeed_satisfaction cfg p d
        generalize updateSlowFall (updatePendingSpeed cfg p d).1
          (updatePendingSpeed cfg p d).2 = p2
        generalize (updatePendingSpeed cfg p d).2 = r at h1 h1s ⊢
        obtain ⟨hEff, hLe⟩ := updateDecay_effect cfg p2 r diff
        have hle := hLe hc (by rw [h1s]; exact hNonneg)
        have hU : GetSatisfactionState (updateDecay cfg p2 r diff).2.satisfaction =
            STATE_UNHAPPY := by
          rw [GetSatisfactionState_unhappy_iff] at hState ⊢
          omega
        refine ⟨_, rfl, ?_⟩
        show (updateDecay cfg p2 r diff).2.flyingDisabled = true
        rcases hEff with h | h
        · rw [h, h1]
        · rw [h]
          simp [hU]
      · rw [updateSave_other _ _ _ _ _ _ hg]
        exact ⟨d, hd, hFlag⟩

theorem OnPlayerUpdate_capture_clears (cfg : Config) (w : World) (p : Player) (diff : Nat)
    (data : MountFeedingData) (hEnabled : cfg.sEnabled = true)
    (hData : w.sMountFeedingStore p.guid = some data)
    (hPending : data.pendingSpeedUpdate = true) (hManaged : FlightManaged cfg p)
    (hState : GetSatisfactionState data.satisfaction ≠ STATE_UNHAPPY) :
    ∃ d1, (OnPlayerUpdate cfg w (some p) diff).1.sMountFeedingStore p.guid = some d1 ∧
      (GetSatisfactionState d1.satisfaction ≠ STATE_UNHAPPY → d1.flyingDisabled = false) := by
  rw [OnPlayerUpdate_eq cfg w p diff data hEnabled hData]
  dsimp only
  rw [updateSave_store]
  have h1 : (updatePendingSpeed cfg p data).2.flyingDisabled = false := by
    rw [updatePendingSpeed_flag_managed cfg p data hPending hManaged]
    simp [hState]
  generalize updateSlowFall (updatePendingSpeed cfg p data).1
    (updatePendingSpeed cfg p data).2 = p2
  generalize (updatePendingSpeed cfg p data).2 = r at h1 ⊢
  obtain ⟨hEff, _⟩ := updateDecay_effect cfg p2 r diff
  refine ⟨_, rfl, ?_⟩
  intro hEnd
  show (updateDecay cfg p2 r diff).2.flyingDisabled = false
  have hEnd2 : GetSatisfactionState (updateDecay cfg p2 r diff).2.satisfaction ≠
      STATE_UNHAPPY := hEnd
  rcases hEff with h | h
  · rw [h, h1]
  · rw [h]
    simp [hEnd2]

theorem FlightManaged_congr (cfg : Config) (p q : Player) (hm : q.mounted = p.mounted)
    (hf : q.flightSpeedEffects = [] ↔ p.flightSpeedEffects = []) :
    FlightManaged cfg q ↔ FlightManaged cfg p := by
  unfold FlightManaged
  rw [hm, Ne, Ne, hf]

theorem ApplySpeedPenalty_managed (cfg : Config) (p : Player) (d : MountFeedingData) :
    FlightManaged cfg (ApplySpeedPenalty cfg p d) ↔ FlightManaged cfg p := by
  apply FlightManaged_congr
  · rfl
  · simp [ApplySpeedPenalty]

theorem SendStateMessage_managed (cfg : Config) (p : Player) (state : Nat) :
    FlightManaged cfg (SendStateMessage cfg p state) ↔ FlightManaged cfg p := by
  obtain ⟨c, hc⟩ := SendStateMessage_player cfg p state
  rw [hc]
  exact FlightManaged_congr cfg p _ rfl Iff.rfl

/-- The transition block sets `flyingDisabled` to "the state is Unhappy" when
the state changed and the player is mounted with the no-fly policy enabled
and a flight-speed effect active, and leaves it alone otherwise. -/
theorem applyTransition_flag_exact (cfg : Config) (p : Player) (d : MountFeedingData)
    (oldState newState : Nat) :
    (applyTransition cfg p d oldState newState).2.flyingDisabled =
      if FlightManaged cfg p ∧ newState ≠ oldState then
        decide (GetSatisfactionState d.satisfaction = STATE_UNHAPPY)
      else d.flyingDisabled := by
  unfold applyTransition
  by_cases hCross : newState ≠ oldState
  · rw [if_pos hCross]
    dsimp only
    have hSend := SendStateMessage_managed cfg p newState
    by_cases hMounted : (SendStateMessage cfg p newState).mounted = true
    · rw [if_pos hMounted, UpdateFlyingState_flag]
      have hq : FlightManaged cfg
          (if d.baseGroundSpeed > 0 then
            ApplySpeedPenalty cfg (SendStateMessage cfg p newState) d
          else SendStateMessage cfg p newState) ↔ FlightManaged cfg p := by
        split
        · exact (ApplySpeedPenalty_managed cfg _ d).trans hSend
        · exact hSend
      by_cases hM : FlightManaged cfg p
      · rw [if_pos (hq.2 hM), if_pos ⟨hM, hCross⟩]
      · rw [if_neg (fun h => hM (hq.1 h)), if_neg (fun h => hM h.1)]
    · rw [if_neg hMounted]
      have hM : ¬ FlightManaged cfg p := fun h => hMounted (hSend.2 h).2.1
      rw [if_neg (fun h => hM h.1)]
  · rw [if_neg hCross, if_neg (fun h => hCross h.2)]

theorem updatePendingSpeed_managed (cfg : Config) (p : Player) (d : MountFeedingData) :
    FlightManaged cfg (updatePendingSpeed cfg p d).1 ↔ FlightManaged cfg p := by
  unfold updatePendingSpeed
  split
  · dsimp only
    refine (SendStateMessage_managed cfg _ _).trans ?_
    generalize hq : (if GetSatisfactionState d.satisfaction ≠ STATE_HAPPY then
        ApplySpeedPenalty cfg p
          { d with
            pendingSpeedUpdate := false
            baseGroundSpeed := p.groundSpeedEffects.headD 0
            baseFlyingSpeed := p.flightSpeedEffects.headD 0 }
      else p) = q
    have hqp : FlightManaged cfg q ↔ FlightManaged cfg p := by
      rw [← hq]
      split
      · exact ApplySpeedPenalty_managed cfg p _
      · exact Iff.rfl
    obtain ⟨c, hc⟩ := UpdateFlyingState_player cfg q
      { d with
        pendingSpeedUpdate := false
        baseGroundSpeed := p.groundSpeedEffects.headD 0
        baseFlyingSpeed := p.flightSpeedEffects.headD 0 }
    rw [hc]
    exact (FlightManaged_congr cfg q _ rfl Iff.rfl).trans hqp
  · exact Iff.rfl

theorem updateSlowFall_managed (cfg : Config) (p : Player) (d : MountFeedingData) :
    FlightManaged cfg (updateSlowFall p d) ↔ FlightManaged cfg p := by
  obtain ⟨s, hs⟩ := updateSlowFall_frame p d
  rw [hs]
  exact FlightManaged_congr cfg p _ rfl Iff.rfl

/-- The capture block sets `flyingDisabled` to "the state is Unhappy" when the
capture is pending and the player is mounted with the no-fly policy enabled
and a flight-speed effect active, and leaves it alone otherwise. -/
theorem updatePendingSpeed_flag_exact (cfg : Config) (p : Player) (d : MountFeedingData) :
    (updatePendingSpeed cfg p d).2.flyingDisabled =
      if FlightManaged cfg p ∧ d.pendingSpeedUpdate = true then
        decide (GetSatisfactionState d.satisfaction = STATE_UNHAPPY)
      else d.flyingDisabled := by
  by_cases hM : FlightManaged cfg p
  · by_cases hP : d.pendingSpeedUpdate = true
    · rw [updatePendingSpeed_flag_managed cfg p d hP hM, if_pos ⟨hM, hP⟩]
    · rw [if_neg (fun h => hP h.2)]
      unfold updatePendingSpeed
      rw [if_neg (by simp [hP])]
  · rw [if_neg (fun h => hM h.1)]
    unfold updatePendingSpeed
    by_cases hRun : (d.pendingSpeedUpdate && p.mounted) = true
    · rw [if_pos hRun]
      dsimp only
      rw [UpdateFlyingState_flag, if_neg]
      intro h
      apply hM
      refine (FlightManaged_congr cfg p _ ?_ ?_).1 h
      · split <;> rfl
      · split
        · simp [ApplySpeedPenalty]
        · exact Iff.rfl
    · rw [if_neg hRun]

/-- The decay block sets `flyingDisabled` to "the new state is Unhappy" when
its step changes the state and the player is mounted with the no-fly policy
enabled and a flight-speed effect active, and leaves it alone otherwise. -/
theorem updateDecay_flag_exact (cfg : Config) (p : Player) (d : MountFeedingData)
    (diff : Nat) :
    (updateDecay cfg p d diff).2.flyingDisabled =
      if FlightManaged cfg p ∧
          GetSatisfactionState (updateDecay cfg p d diff).2.satisfaction ≠
            GetSatisfactionState d.satisfaction then
        decide (GetSatisfactionState (updateDecay cfg p d diff).2.satisfaction = STATE_UNHAPPY)
      else d.flyingDisabled := by
  by_cases hActive : cfg.sDecayOnlyWhileMounted = true → p.mounted = true
  · by_cases hTimer : timerAfter d.decayTimer diff ≤ 0
    · rw [updateDecay_fire cfg p d diff hActive hTimer]
      generalize hd2 : ({ d with
          decayTimer := cfg.sDecayInterval
          satisfaction :=
            max 0 (wrapInt32 (d.satisfaction -
              mulToInt32 cfg.sDecayAmount (contextMultiplier cfg p)))
          lastState :=
            GetSatisfactionState
              (max 0 (wrapInt32 (d.satisfaction -
                mulToInt32 cfg.sDecayAmount (contextMultiplier cfg p)))) } :
          MountFeedingData) = d2
      have hs : d2.satisfaction = max 0 (wrapInt32 (d.satisfaction -
          mulToInt32 cfg.sDecayAmount (contextMultiplier cfg p))) := by rw [← hd2]
      have hf : d2.flyingDisabled = d.flyingDisabled := by rw [← hd2]
      rw [← hs]
      obtain ⟨b, hb⟩ := applyTransition_data cfg p d2 (GetSatisfactionState d.satisfaction)
        (GetSatisfactionState d2.satisfaction)
      have hsat : (applyTransition cfg p d2 (GetSatisfactionState d.satisfaction)
          (GetSatisfactionState d2.satisfaction)).2.satisfaction = d2.satisfaction := by
        rw [hb]
      rw [hsat, applyTransition_flag_exact, hf]
    · rw [updateDecay_wait cfg p d diff hActive (by omega)]
      dsimp only
      rw [if_neg (fun h => h.2 rfl)]
  · have hOption : cfg.sDecayOnlyWhileMounted = true := by
      by_contra h
      exact hActive (fun h1 => absurd h1 h)
    have hMounted : p.mounted = false := by
      cases h : p.mounted
      · rfl
      · exact absurd (fun _ => h) hActive
    rw [updateDecay_inactive cfg p d diff hOption hMounted]
    dsimp only
    rw [if_neg (fun h => h.2 rfl)]

/-- What a tick does to `flyingDisabled` in the record of the player it is
called for. -/
theorem OnPlayerUpdate_flag_exact (cfg : Config) (w : World) (p : Player) (diff : Nat)
    (data : MountFeedingData) (hEnabled : cfg.sEnabled = true)
    (hData : w.sMountFeedingStore p.guid = some data) :
    ∃ d1, (OnPlayerUpdate cfg w (some p) diff).1.sMountFeedingStore p.guid = some d1 ∧
      d1.flyingDisabled =
        if FlightManaged cfg p ∧
            GetSatisfactionState d1.satisfaction ≠ GetSatisfactionState data.satisfaction then
          decide (GetSatisfactionState d1.satisfaction = STATE_UNHAPPY)
        else if FlightManaged cfg p ∧ data.pendingSpeedUpdate = true then
          decide (GetSatisfactionState data.satisfaction = STATE_UNHAPPY)
        else data.flyingDisabled := by
  rw [OnPlayerUpdate_eq cfg w p diff data hEnabled hData]
  dsimp only
  rw [updateSave_store]
  refine ⟨_, rfl, ?_⟩
  have hM : FlightManaged cfg
      (updateSlowFall (updatePendingSpeed cfg p data).1 (updatePendingSpeed cfg p data).2) ↔
      FlightManaged cfg p :=
    (updateSlowFall_managed cfg _ _).trans (updatePendingSpeed_managed cfg p data)
  have h1 := updatePendingSpeed_flag_exact cfg p data
  have h1s := updatePendingSpeed_satisfaction cfg p data
  generalize updateSlowFall (updatePendingSpeed cfg p data).1
    (updatePendingSpeed cfg p data).2 = p2 at hM ⊢
  generalize (updatePendingSpeed cfg p data).2 = r at h1 h1s ⊢
  have h3 := updateDecay_flag_exact cfg p2 r diff
  show (updateDecay cfg p2 r diff).2.flyingDisabled = _
  rw [h3, h1, h1s]
  show (if FlightManaged cfg p2 ∧
        GetSatisfactionState (updateDecay cfg p2 r diff).2.satisfaction ≠
          GetSatisfactionState data.satisfaction then
      decide (GetSatisfactionState (updateDecay cfg p2 r diff).2.satisfaction = STATE_UNHAPPY)
    else _) =
    if FlightManaged cfg p ∧
        GetSatisfactionState (updateDecay cfg p2 r diff).2.satisfaction ≠
          GetSatisfactionState data.satisfaction then
      decide (GetSatisfactionState (updateDecay cfg p2 r diff).2.satisfaction = STATE_UNHAPPY)
    else _
  by_cases hc : FlightManaged cfg p ∧
      GetSatisfactionState (updateDecay cfg p2 r diff).2.satisfaction ≠
        GetSatisfactionState data.satisfaction
  · rw [if_pos hc, if_pos ⟨hM.2 hc.1, hc.2⟩]
  · rw [if_neg hc, if_neg (fun h => hc ⟨hM.1 h.1, h.2⟩)]

/-- What a feed does to `flyingDisabled` in the record of the player it is
called for. -/
theorem CanItemUse_flag_exact (cfg : Config) (gameTimeMs : Nat) (w : World) (p : Player)
    (item : Option Item) (data : MountFeedingData)
    (hData : w.sMountFeedingStore p.guid = some data) :
    ∃ d1, (CanItemUse cfg gameTimeMs w (some p) item).world.sMountFeedingStore p.guid =
        some d1 ∧
      d1.flyingDisabled =
        if FlightManaged cfg p ∧
            GetSatisfactionState d1.satisfaction ≠ GetSatisfactionState data.satisfaction then
          decide (GetSatisfactionState d1.satisfaction = STATE_UNHAPPY)
        else data.flyingDisabled := by
  rcases CanItemUse_cases cfg gameTimeMs w (some p) item with
    hc | ⟨q, it, proto, data0, hq, _, hG, hc⟩
  · rw [hc]
    exact ⟨data, hData, by rw [if_neg (fun h => h.2 rfl)]⟩
  · cases hq
    have hSame : data0 = data := same_record w _ _ _ _ hG.2.2.2.1 hData rfl
    rw [hc, hSame]
    unfold interceptFood
    split
    · exact ⟨data, hData, by rw [if_neg (fun h => h.2 rfl)]⟩
    · dsimp only
      split
      · exact ⟨data, hData, by rw [if_neg (fun h => h.2 rfl)]⟩
      · refine ⟨_, setData_self _ _ _, ?_⟩
        generalize hd2 : ({ data with
          satisfaction :=
            min (wrapInt32 (data.satisfaction + GetFoodBenefit p.level proto.ItemLevel))
              SATISFACTION_MAX
          lastState :=
            GetSatisfactionState
              (min (wrapInt32 (data.satisfaction + GetFoodBenefit p.level proto.ItemLevel))
                SATISFACTION_MAX) } : MountFeedingData) = d2
        have hs : d2.satisfaction =
            min (wrapInt32 (data.satisfaction + GetFoodBenefit p.level proto.ItemLevel))
              SATISFACTION_MAX := by rw [← hd2]
        have hf : d2.flyingDisabled = data.flyingDisabled := by rw [← hd2]
        rw [← hs]
        obtain ⟨b, hb⟩ := applyTransition_data cfg (p.PSendSysMessage (.eats proto.Name1)) d2
          (GetSatisfactionState data.satisfaction) (GetSatisfactionState d2.satisfaction)
        have hsat : (applyTransition cfg (p.PSendSysMessage (.eats proto.Name1)) d2
            (GetSatisfactionState data.satisfaction)
            (GetSatisfactionState d2.satisfaction)).2.satisfaction = d2.satisfaction := by
          rw [hb]
        have hM : FlightManaged cfg (p.PSendSysMessage (.eats proto.Name1)) ↔
            FlightManaged cfg p := FlightManaged_congr cfg p _ rfl Iff.rfl
        rw [hsat, applyTransition_flag_exact, hf]
        by_cases hc2 : FlightManaged cfg p ∧
            GetSatisfactionState d2.satisfaction ≠ GetSatisfactionState data.satisfaction
        · rw [if_pos hc2, if_pos ⟨hM.2 hc2.1, hc2.2⟩]
        · rw [if_neg hc2, if_neg (fun h => hc2 ⟨hM.1 h.1, h.2⟩)]

theorem CanItemUse_other (cfg : Config) (gameTimeMs : Nat) (w : World)
    (player : Option Player) (item : Option Item) (g : ObjectGuid)
    (hg : ∀ p, player = some p → g ≠ p.guid) :
    (CanItemUse cfg gameTimeMs w player item).world.sMountFeedingStore g =
      w.sMountFeedingStore g := by
  rcases CanItemUse_cases cfg gameTimeMs w player item with
    hc | ⟨p, it, proto, data, hp, _, _, hc⟩
  · rw [hc]
  · rw [hc]
    rcases interceptFood_world cfg w p it proto data with h | ⟨d, h⟩
    · rw [h]
    · rw [h]
      exact (setData_other w p.guid g d (hg p hp)).1

theorem OnPlayerUpdate_other (cfg : Config) (w : World) (player : Option Player)
    (diff : Nat) (g : ObjectGuid) (hg : ∀ p, player = some p → g ≠ p.guid) :
    (OnPlayerUpdate cfg w player diff).1.sMountFeedingStore g = w.sMountFeedingStore g := by
  cases player with
  | none => rfl
  | some p =>
    unfold OnPlayerUpdate
    dsimp only
    split
    · rfl
    · split
      · rfl
      · exact updateSave_other cfg w p.guid g _ diff (hg p rfl)

theorem OnAuraApply_other (cfg : Config) (w : World) (unit : Unit) (aura : Aura)
    (g : ObjectGuid) (hg : ∀ p, unit.ToPlayer = some p → g ≠ p.guid) :
    (OnAuraApply cfg w unit aura).sMountFeedingStore g = w.sMountFeedingStore g := by
  unfold OnAuraApply
  split
  · rfl
  · split
    · rfl
    · rename_i player hPlayer
      dsimp only
      split
      · rfl
      · split
        · rfl
        · exact (setData_other w player.guid g _ (hg player hPlayer)).1

theorem OnAuraRemove_other (cfg : Config) (gameTimeMs : Nat) (w : World) (unit : Unit)
    (aurApp : AuraApplication) (g : ObjectGuid)
    (hg : ∀ p, unit.ToPlayer = some p → g ≠ p.guid) :
    (OnAuraRemove cfg gameTimeMs w unit aurApp).sMountFeedingStore g =
      w.sMountFeedingStore g := by
  unfold OnAuraRemove
  split
  · rfl
  · split
    · rfl
    · rename_i player hPlayer
      split
      · rfl
      · dsimp only
        split
        · rfl
        · split
          · rfl
          · exact (setData_other w player.guid g _ (hg player hPlayer)).1

theorem OnPlayerLogin_other (cfg : Config) (w : World) (player : Option Player)
    (g : ObjectGuid) (hg : ∀ p, player = some p → g ≠ p.guid) :
    (OnPlayerLogin cfg w player).sMountFeedingStore g = w.sMountFeedingStore g := by
  cases player with
  | none => rfl
  | some p =>
    unfold OnPlayerLogin
    dsimp only
    split
    · rfl
    · exact (setData_other w p.guid g _ (hg p rfl)).1

theorem OnPlayerLogout_other (w : World) (player : Option Player)
    (g : ObjectGuid) (hg : ∀ p, player = some p → g ≠ p.guid) :
    (OnPlayerLogout w player).sMountFeedingStore g = w.sMountFeedingStore g := by
  cases player with
  | none => rfl
  | some p =>
    unfold OnPlayerLogout
    dsimp only
    split
    · rfl
    · simp [World.erase, SaveSatisfaction, hg p rfl]

theorem OnPlayerLogin_flag (cfg : Config) (w : World) (p : Player)
    (hEnabled : cfg.sEnabled = true) :
    ∃ d1, (OnPlayerLogin cfg w (some p)).sMountFeedingStore p.guid = some d1 ∧
      d1.flyingDisabled = false := by
  simp [OnPlayerLogin, hEnabled, World.setData]

theorem OnPlayerLogout_record (w : World) (p : Player) :
    (OnPlayerLogout w (some p)).sMountFeedingStore p.guid = none := by
  unfold OnPlayerLogout
  dsimp only
  cases hData : w.sMountFeedingStore p.guid with
  | none => exact hData
  | some data => simp [World.erase, SaveSatisfaction]

/-- C12 as stated fails.  In `hungryWorld` the player is Unhappy at 330000 with
`flyingDisabled` true.  (1) A feed lifts the state to Happy and the feed
handler itself clears the flag, before any tick.  (2) Removing and (3)
applying the mount aura clear it while the state is still Unhappy.  (4) When
the flag survives a feed because the no-fly policy was switched off at that
moment, the next tick (policy on again, state Happy, player mounted on the
flying mount, no capture pending, no state change) leaves it true. -/
theorem flight_flag_cleared_outside_tick :
    (hungryData.flyingDisabled = true ∧
      GetSatisfactionState hungryData.satisfaction = STATE_UNHAPPY) ∧
    ((CanItemUse defaultConfig 0 hungryWorld (some hungryPlayer)
        (some goodItem)).world.sMountFeedingStore 1).map
      (fun d => (d.flyingDisabled, GetSatisfactionState d.satisfaction)) =
        some (false, STATE_HAPPY) ∧
    ((OnAuraRemove defaultConfig 5000 hungryWorld (Unit.player hungryPlayer)
        ⟨some mountAura⟩).sMountFeedingStore 1).map
      (fun d => (d.flyingDisabled, GetSatisfactionState d.satisfaction)) =
        some (false, STATE_UNHAPPY) ∧
    ((OnAuraApply defaultConfig hungryWorld (Unit.player hungryPlayer)
        mountAura).sMountFeedingStore 1).map
      (fun d => (d.flyingDisabled, GetSatisfactionState d.satisfaction)) =
        some (false, STATE_UNHAPPY) ∧
    ((OnPlayerUpdate defaultConfig
        (CanItemUse noPolicyConfig 0 hungryWorld (some hungryPlayer) (some goodItem)).world
        (some hungryPlayer) 100).1.sMountFeedingStore 1).map
      (fun d => (d.flyingDisabled, GetSatisfactionState d.satisfaction)) =
        some (true, STATE_HAPPY) := by
  decide

/-- C12, amended: what changes `flyingDisabled`, handler by handler.
(1) A level-change event never changes the flag.  (2) An aura application and
(3) an aura removal change it only when the aura carries the mount marker,
and then to false.  (4) A feed leaves a true flag true unless the fed
satisfaction is no longer Unhappy.  (5) With nonnegative decay steps, a tick
that starts in the Unhappy state (satisfaction `≥ 0`) leaves a true flag true.
(6) A feed that lifts the state out of Unhappy, the player being mounted with
the no-fly policy enabled and a flight-speed effect active, clears the flag
in the feed handler itself and restores flight if it was suspended.  (7) A
tick that runs the deferred speed capture under the same conditions in a
non-Unhappy state ends with the flag false unless its decay step takes the
state to Unhappy.  (8) Applying or removing an aura with the mount marker
(feature enabled, aura on that player) clears the flag whatever the state.
(9) Exactly: a feed by the player sets the flag to "the state after the feed
is Unhappy" when the feed changes the state and the player is mounted with
the no-fly policy enabled and a flight-speed effect active, and leaves the
flag as it was otherwise.  (10) Exactly: with the feature enabled, a tick of
the player sets the flag to "the state after the tick is Unhappy" when the
decay step changes the state and the player is mounted with the no-fly policy
enabled and a flight-speed effect active; failing that, to "the state is
Unhappy" when the speed capture is pending under the same conditions on the
player; otherwise it leaves the flag as it was.  (11) So a tick with no
capture pending and no state change leaves the flag as it was.  (12) A feed,
tick, aura application, aura removal, login or logout leaves the record of
every player other than the one it is called for untouched.  (13) A login
(feature enabled) leaves the player a record with the flag false, and a
logout leaves the player no record. -/
theorem flight_flag_clearing (cfg : Config) :
    (∀ (w : World) (player : Option Player) (oldLevel : Nat) (g : ObjectGuid)
        (d : MountFeedingData), w.sMountFeedingStore g = some d →
      ∃ d1, (OnPlayerLevelChanged cfg w player oldLevel).sMountFeedingStore g = some d1 ∧
        d1.flyingDisabled = d.flyingDisabled) ∧
    (∀ (w : World) (unit : Unit) (aura : Aura) (g : ObjectGuid) (d : MountFeedingData),
      w.sMountFeedingStore g = some d →
      ∃ d1, (OnAuraApply cfg w unit aura).sMountFeedingStore g = some d1 ∧
        (d1.flyingDisabled = d.flyingDisabled ∨
          (d1.flyingDisabled = false ∧ aura.hasMountMarker))) ∧
    (∀ (gameTimeMs : Nat) (w : World) (unit : Unit) (aurApp : AuraApplication)
        (g : ObjectGuid) (d : MountFeedingData), w.sMountFeedingStore g = some d →
      ∃ d1, (OnAuraRemove cfg gameTimeMs w unit aurApp).sMountFeedingStore g = some d1 ∧
        (d1.flyingDisabled = d.flyingDisabled ∨
          (d1.flyingDisabled = false ∧
            ∃ aura, aurApp.base = some aura ∧ aura.hasMountMarker))) ∧
    (∀ (gameTimeMs : Nat) (w : World) (player : Option Player) (item : Option Item)
        (g : ObjectGuid) (d : MountFeedingData), w.sMountFeedingStore g = some d →
      d.flyingDisabled = true →
      ∃ d1, (CanItemUse cfg gameTimeMs w player item).world.sMountFeedingStore g = some d1 ∧
        (d1.flyingDisabled = true ∨
          GetSatisfactionState d1.satisfaction ≠ STATE_UNHAPPY)) ∧
    (DecayNonneg cfg →
      ∀ (w : World) (player : Option Player) (diff : Nat) (g : ObjectGuid)
        (d : MountFeedingData), w.sMountFeedingStore g = some d →
      d.flyingDisabled = true → 0 ≤ d.satisfaction →
      GetSatisfactionState d.satisfaction = STATE_UNHAPPY →
      ∃ d1, (OnPlayerUpdate cfg w player diff).1.sMountFeedingStore g = some d1 ∧
        d1.flyingDisabled = true) ∧
    (∀ (gameTimeMs : Nat) (w : World) (p : Player) (it : Item) (proto : ItemTemplate)
        (data : MountFeedingData), PassesGuards cfg gameTimeMs w p it proto data →
      FlightManaged cfg p → -2147483648 ≤ data.satisfaction →
      GetSatisfactionState data.satisfaction = STATE_UNHAPPY →
      GetSatisfactionState
        (min (data.satisfaction + GetFoodBenefit p.level proto.ItemLevel) 999000) ≠
          STATE_UNHAPPY →
      ∃ d1 p1,
        (CanItemUse cfg gameTimeMs w (some p) (some it)).world.sMountFeedingStore p.guid =
          some d1 ∧
        (CanItemUse cfg gameTimeMs w (some p) (some it)).player = some p1 ∧
        d1.flyingDisabled = false ∧ (data.flyingDisabled = true → p1.canFly = true)) ∧
    (cfg.sEnabled = true →
      ∀ (w : World) (p : Player) (diff : Nat) (data : MountFeedingData),
      w.sMountFeedingStore p.guid = some data → data.pendingSpeedUpdate = true →
      FlightManaged cfg p → GetSatisfactionState data.satisfaction ≠ STATE_UNHAPPY →
      ∃ d1, (OnPlayerUpdate cfg w (some p) diff).1.sMountFeedingStore p.guid = some d1 ∧
        (GetSatisfactionState d1.satisfaction ≠ STATE_UNHAPPY →
          d1.flyingDisabled = false)) ∧
    (cfg.sEnabled = true →
      ∀ (gameTimeMs : Nat) (w : World) (p : Player) (aura : Aura) (data : MountFeedingData),
      w.sMountFeedingStore p.guid = some data → aura.hasMountMarker →
      (∃ d1, (OnAuraApply cfg w (Unit.player p) aura).sMountFeedingStore p.guid = some d1 ∧
        d1.flyingDisabled = false) ∧
      (∃ d1, (OnAuraRemove cfg gameTimeMs w (Unit.player p)
          ⟨some aura⟩).sMountFeedingStore p.guid = some d1 ∧
        d1.flyingDisabled = false)) ∧
    (∀ (gameTimeMs : Nat) (w : World) (p : Player) (item : Option Item)
        (data : MountFeedingData), w.sMountFeedingStore p.guid = some data →
      ∃ d1, (CanItemUse cfg gameTimeMs w (some p) item).world.sMountFeedingStore p.guid =
          some d1 ∧
        d1.flyingDisabled =
          if FlightManaged cfg p ∧
              GetSatisfactionState d1.satisfaction ≠ GetSatisfactionState data.satisfaction then
            decide (GetSatisfactionState d1.satisfaction = STATE_UNHAPPY)
          else data.flyingDisabled) ∧
    (cfg.sEnabled = true →
      ∀ (w : World) (p : Player) (diff : Nat) (data : MountFeedingData),
      w.sMountFeedingStore p.guid = some data →
      ∃ d1, (OnPlayerUpdate cfg w (some p) diff).1.sMountFeedingStore p.guid = some d1 ∧
        d1.flyingDisabled =
          if FlightManaged cfg p ∧
              GetSatisfactionState d1.satisfaction ≠ GetSatisfactionState data.satisfaction then
            decide (GetSatisfactionState d1.satisfaction = STATE_UNHAPPY)
          else if FlightManaged cfg p ∧ data.pendingSpeedUpdate = true then
            decide (GetSatisfactionState data.satisfaction = STATE_UNHAPPY)
          else data.flyingDisabled) ∧
    (cfg.sEnabled = true →
      ∀ (w : World) (p : Player) (diff : Nat) (data : MountFeedingData),
      w.sMountFeedingStore p.guid = some data → data.pendingSpeedUpdate = false →
      ∃ d1, (OnPlayerUpdate cfg w (some p) diff).1.sMountFeedingStore p.guid = some d1 ∧
        (GetSatisfactionState d1.satisfaction = GetSatisfactionState data.satisfaction →
          d1.flyingDisabled = data.flyingDisabled)) ∧
    (∀ (w : World) (g : ObjectGuid),
      (∀ (player : Option Player), (∀ p, player = some p → g ≠ p.guid) →
        (∀ (gameTimeMs : Nat) (item : Option Item),
          (CanItemUse cfg gameTimeMs w player item).world.sMountFeedingStore g =
            w.sMountFeedingStore g) ∧
        (∀ (diff : Nat),
          (OnPlayerUpdate cfg w player diff).1.sMountFeedingStore g = w.sMountFeedingStore g) ∧
        (OnPlayerLogin cfg w player).sMountFeedingStore g = w.sMountFeedingStore g ∧
        (OnPlayerLogout w player).sMountFeedingStore g = w.sMountFeedingStore g) ∧
      (∀ (unit : Unit), (∀ p, unit.ToPlayer = some p → g ≠ p.guid) →
        (∀ (aura : Aura),
          (OnAuraApply cfg w unit aura).sMountFeedingStore g = w.sMountFeedingStore g) ∧
        (∀ (gameTimeMs : Nat) (aurApp : AuraApplication),
          (OnAuraRemove cfg gameTimeMs w unit aurApp).sMountFeedingStore g =
            w.sMountFeedingStore g))) ∧
    (∀ (w : World) (p : Player),
      (cfg.sEnabled = true →
        ∃ d1, (OnPlayerLogin cfg w (some p)).sMountFeedingStore p.guid = some d1 ∧
          d1.flyingDisabled = false) ∧
      (OnPlayerLogout w (some p)).sMountFeedingStore p.guid = none) := by
  refine ⟨?_, ?_, ?_, ?_, ?_, ?_, ?_, ?_, ?_, ?_, ?_, ?_, ?_⟩
  · intro w player oldLevel g d hd
    exact OnPlayerLevelChanged_keeps_flag cfg w player oldLevel g d hd
  · intro w unit aura g d hd
    exact OnAuraApply_flag cfg w unit aura g d hd
  · intro gameTimeMs w unit aurApp g d hd
    exact OnAuraRemove_flag cfg gameTimeMs w unit aurApp g d hd
  · intro gameTimeMs w player item g d hd hFlag
    obtain ⟨d1, h1, h2⟩ := CanItemUse_flag cfg gameTimeMs w player item g d hd
    refine ⟨d1, h1, ?_⟩
    rcases h2 with h | h
    · exact Or.inl (h.trans hFlag)
    · by_cases hU : GetSatisfactionState d1.satisfaction = STATE_UNHAPPY
      · left
        rw [h]
        simp [hU]
      · exact Or.inr hU
  · intro hc w player diff g d hd hFlag hNonneg hState
    exact OnPlayerUpdate_keeps_flag_unhappy cfg w player diff g d hc hd hFlag hNonneg hState
  · intro gameTimeMs w p it proto data hG hManaged hInt hOld hNew
    exact CanItemUse_lift_clears cfg gameTimeMs w p it proto data hG hManaged hInt hOld hNew
  · intro hEnabled w p diff data hData hPending hManaged hState
    exact OnPlayerUpdate_capture_clears cfg w p diff data hEnabled hData hPending hManaged
      hState
  · intro hEnabled gameTimeMs w p aura data hData hMarker
    exact ⟨OnAuraApply_marker_clears cfg w p aura data hEnabled hData hMarker,
      OnAuraRemove_marker_clears cfg gameTimeMs w p aura data hEnabled hData hMarker⟩
  · intro gameTimeMs w p item data hData
    exact CanItemUse_flag_exact cfg gameTimeMs w p item data hData
  · intro hEnabled w p diff data hData
    exact OnPlayerUpdate_flag_exact cfg w p diff data hEnabled hData
  · intro hEnabled w p diff data hData hPending
    obtain ⟨d1, h1, h2⟩ := OnPlayerUpdate_flag_exact cfg w p diff data hEnabled hData
    refine ⟨d1, h1, ?_⟩
    intro hSame
    rw [h2, if_neg (fun h => h.2 hSame), if_neg]
    intro h
    rw [hPending] at h
    exact Bool.noConfusion h.2
  · intro w g
    constructor
    · intro player hg
      exact ⟨fun gameTimeMs item => CanItemUse_other cfg gameTimeMs w player item g hg,
        fun diff => OnPlayerUpdate_other cfg w player diff g hg,
        OnPlayerLogin_other cfg w player g hg, OnPlayerLogout_other w player g hg⟩
    · intro unit hg
      exact ⟨fun aura => OnAuraApply_other cfg w unit aura g hg,
        fun gameTimeMs aurApp => OnAuraRemove_other cfg gameTimeMs w unit aurApp g hg⟩
  · intro w p
    exact ⟨fun hEnabled => OnPlayerLogin_flag cfg w p hEnabled, OnPlayerLogout_record w p⟩

theorem flight_flag_clearing_witness :
    (∃ d1, (OnPlayerUpdate defaultConfig hungryWorld (some hungryPlayer)
        100).1.sMountFeedingStore 1 = some d1 ∧ d1.flyingDisabled = true) ∧
    (∃ d1 p1,
      (CanItemUse defaultConfig 0 hungryWorld (some hungryPlayer)
        (some goodItem)).world.sMountFeedingStore hungryPlayer.guid = some d1 ∧
      (CanItemUse defaultConfig 0 hungryWorld (some hungryPlayer) (some goodItem)).player =
        some p1 ∧
      d1.flyingDisabled = false ∧ (hungryData.flyingDisabled = true → p1.canFly = true)) ∧
    (∃ d1, (OnPlayerUpdate defaultConfig stuckWorld (some hungryPlayer)
        100).1.sMountFeedingStore hungryPlayer.guid = some d1 ∧
      (GetSatisfactionState d1.satisfaction ≠ STATE_UNHAPPY → d1.flyingDisabled = false)) ∧
    ((driftData.pendingSpeedUpdate = false ∧ driftData.flyingDisabled = true) ∧
      ((OnPlayerUpdate defaultConfig driftWorld (some driftPlayer)
          7500).1.sMountFeedingStore 1).map
        (fun d => (d.satisfaction, GetSatisfactionState d.satisfaction, d.flyingDisabled)) =
          some (665430, STATE_CONTENT, false) ∧
      ∃ d1, (OnPlayerUpdate defaultConfig driftWorld (some driftPlayer)
          7500).1.sMountFeedingStore driftPlayer.guid = some d1 ∧
        d1.flyingDisabled =
          if FlightManaged defaultConfig driftPlayer ∧
              GetSatisfactionState d1.satisfaction ≠
                GetSatisfactionState driftData.satisfaction then
            decide (GetSatisfactionState d1.satisfaction = STATE_UNHAPPY)
          else if FlightManaged defaultConfig driftPlayer ∧
              driftData.pendingSpeedUpdate = true then
            decide (GetSatisfactionState driftData.satisfaction = STATE_UNHAPPY)
          else driftData.flyingDisabled) :=
  ⟨(flight_flag_clearing defaultConfig).2.2.2.2.1 (by decide) hungryWorld (some hungryPlayer)
      100 1 hungryData rfl rfl (by decide) (by decide),
    (flight_flag_clearing defaultConfig).2.2.2.2.2.1 0 hungryWorld hungryPlayer goodItem
      ⟨1, 75, "Bread"⟩ hungryData (by decide) (by decide) (by decide) (by decide) (by decide),
    (flight_flag_clearing defaultConfig).2.2.2.2.2.2.1 rfl stuckWorld hungryPlayer 100
      stuckData rfl rfl (by decide) (by decide),
    ⟨by decide, by decide,
      (flight_flag_clearing defaultConfig).2.2.2.2.2.2.2.2.2.1 rfl driftWorld driftPlayer 7500
        driftData rfl⟩⟩

/-! ## The cached state along event sequences -/

theorem RecordKept_setData (w : World) (guid g : ObjectGuid) (x : MountFeedingData)
    (h : g = guid → x.lastState = GetSatisfactionState x.satisfaction ∨
      ∃ d, w.sMountFeedingStore g = some d ∧ x.satisfaction = d.satisfaction ∧
        x.lastState = d.lastState) :
    RecordKept (w.sMountFeedingStore g) ((w.setData guid x).sMountFeedingStore g) := by
  by_cases hg : g = guid
  · right
    exact ⟨x, by simp [World.setData, hg], h hg⟩
  · left
    simp [World.setData, hg]

theorem RecordKept_update (w : World) (guid g : ObjectGuid) (data x : MountFeedingData)
    (hData : w.sMountFeedingStore guid = some data)
    (hs : x.satisfaction = data.satisfaction) (hl : x.lastState = data.lastState) :
    RecordKept (w.sMountFeedingStore g) ((w.setData guid x).sMountFeedingStore g) := by
  apply RecordKept_setData
  intro hg
  right
  exact ⟨data, by rw [hg]; exact hData, hs, hl⟩

theorem OnPlayerLogin_kept (cfg : Config) (w : World) (player : Option Player)
    (g : ObjectGuid) :
    RecordKept (w.sMountFeedingStore g) ((OnPlayerLogin cfg w player).sMountFeedingStore g) := by
  unfold OnPlayerLogin
  split
  · exact Or.inl rfl
  · split
    · exact Or.inl rfl
    · apply RecordKept_setData
      intro _
      exact Or.inl rfl

theorem interceptFood_kept (cfg : Config) (w : World) (p : Player) (it : Item)
    (proto : ItemTemplate) (data : MountFeedingData) (g : ObjectGuid) :
    RecordKept (w.sMountFeedingStore g)
      ((interceptFood cfg w p it proto data).world.sMountFeedingStore g) := by
  unfold interceptFood
  split
  · exact Or.inl rfl
  · dsimp only
    split
    · exact Or.inl rfl
    · dsimp only
      apply RecordKept_setData
      intro _
      left
      obtain ⟨b, hb⟩ := applyTransition_data cfg (p.PSendSysMessage (.eats proto.Name1))
        { data with
          satisfaction :=
            min (wrapInt32 (data.satisfaction + GetFoodBenefit p.level proto.ItemLevel))
              SATISFACTION_MAX
          lastState :=
            GetSatisfactionState
              (min (wrapInt32 (data.satisfaction + GetFoodBenefit p.level proto.ItemLevel))
                SATISFACTION_MAX) }
        (GetSatisfactionState data.satisfaction)
        (GetSatisfactionState
          (min (wrapInt32 (data.satisfaction + GetFoodBenefit p.level proto.ItemLevel))
            SATISFACTION_MAX))
      rw [hb]

theorem CanItemUse_kept (cfg : Config) (gameTimeMs : Nat) (w : World)
    (player : Option Player) (item : Option Item) (g : ObjectGuid) :
    RecordKept (w.sMountFeedingStore g)
      ((CanItemUse cfg gameTimeMs w player item).world.sMountFeedingStore g) := by
  rcases CanItemUse_cases cfg gameTimeMs w player item with hc | ⟨p, it, proto, data, _, _, _, hc⟩
  · rw [hc]
    exact Or.inl rfl
  · rw [hc]
    exact interceptFood_kept _ _ _ _ _ _ _

theorem OnAuraApply_kept (cfg : Config) (w : World) (unit : Unit) (aura : Aura)
    (g : ObjectGuid) :
    RecordKept (w.sMountFeedingStore g) ((OnAuraApply cfg w unit aura).sMountFeedingStore g) := by
  unfold OnAuraApply
  split
  · exact Or.inl rfl
  · split
    · exact Or.inl rfl
    · dsimp only
      split
      · exact Or.inl rfl
      · split
        · exact Or.inl rfl
        · rename_i data hData
          apply RecordKept_update _ _ _ data _ hData
          · split <;> split <;> rfl
          · split <;> split <;> rfl

theorem OnAuraRemove_kept (cfg : Config) (gameTimeMs : Nat) (w : World) (unit : Unit)
    (aurApp : AuraApplication) (g : ObjectGuid) :
    RecordKept (w.sMountFeedingStore g)
      ((OnAuraRemove cfg gameTimeMs w unit aurApp).sMountFeedingStore g) := by
  unfold OnAuraRemove
  split
  · exact Or.inl rfl
  · split
    · exact Or.inl rfl
    · split
      · exact Or.inl rfl
      · dsimp only
        split
        · exact Or.inl rfl
        · split
          · exact Or.inl rfl
          · rename_i data hData
            exact RecordKept_update _ _ _ data _ hData rfl rfl

theorem OnPlayerLevelChanged_kept (cfg : Config) (w : World) (player : Option Player)
    (oldLevel : Nat) (g : ObjectGuid) :
    RecordKept (w.sMountFeedingStore g)
      ((OnPlayerLevelChanged cfg w player oldLevel).sMountFeedingStore g) := by
  unfold OnPlayerLevelChanged
  split
  · exact Or.inl rfl
  · split
    · exact Or.inl rfl
    · split
      · exact Or.inl rfl
      · rename_i data hData
        exact RecordKept_update _ _ _ data _ hData rfl rfl

/-- The decay block leaves a record whose cached state is fresh, or does not
touch the satisfaction and the cached state. -/
theorem updateDecay_cached (cfg : Config) (p : Player) (d : MountFeedingData) (diff : Nat) :
    (updateDecay cfg p d diff).2.lastState =
        GetSatisfactionState (updateDecay cfg p d diff).2.satisfaction ∨
    ((updateDecay cfg p d diff).2.satisfaction = d.satisfaction ∧
      (updateDecay cfg p d diff).2.lastState = d.lastState) := by
  unfold updateDecay
  dsimp only
  by_cases hs : (if cfg.sDecayOnlyWhileMounted = true then p.mounted else true) = true
  · rw [if_pos hs]
    by_cases ht : wrapInt32 (d.decayTimer - wrapInt32 diff) ≤ 0
    · rw [if_pos ht]
      left
      obtain ⟨b, hb⟩ := applyTransition_data cfg p
        { d with
          decayTimer := cfg.sDecayInterval
          satisfaction :=
            max 0 (wrapInt32 (d.satisfaction -
              mulToInt32 cfg.sDecayAmount (decayMultiplier cfg p)))
          lastState :=
            GetSatisfactionState
              (max 0 (wrapInt32 (d.satisfaction -
                mulToInt32 cfg.sDecayAmount (decayMultiplier cfg p)))) }
        (GetSatisfactionState d.satisfaction)
        (GetSatisfactionState
          (max 0 (wrapInt32 (d.satisfaction -
            mulToInt32 cfg.sDecayAmount (decayMultiplier cfg p)))))
      rw [hb]
    · rw [if_neg ht]
      exact Or.inr ⟨rfl, rfl⟩
  · rw [if_neg hs]
    exact Or.inr ⟨rfl, rfl⟩

theorem OnPlayerUpdate_kept (cfg : Config) (w : World) (player : Option Player)
    (diff : Nat) (g : ObjectGuid) :
    RecordKept (w.sMountFeedingStore g)
      ((OnPlayerUpdate cfg w player diff).1.sMountFeedingStore g) := by
  cases player with
  | none => exact Or.inl rfl
  | some p =>
    by_cases hEnabled : cfg.sEnabled = true
    swap
    · left
      simp [OnPlayerUpdate, hEnabled]
    cases hData : w.sMountFeedingStore p.guid with
    | none =>
      left
      simp [OnPlayerUpdate, hEnabled, hData]
    | some data =>
      rw [OnPlayerUpdate_eq cfg w p diff data hEnabled hData]
      dsimp only
      obtain ⟨⟨pend, bg, bf, b, hq⟩, _⟩ := updatePendingSpeed_frame cfg p data
      generalize updateSlowFall (updatePendingSpeed cfg p data).1
        (updatePendingSpeed cfg p data).2 = p2
      have hDecay := updateDecay_cached cfg p2 (updatePendingSpeed cfg p data).2 diff
      generalize (updateDecay cfg p2 (updatePendingSpeed cfg p data).2 diff).2 = d3 at hDecay ⊢
      rw [hq] at hDecay
      dsimp only at hDecay
      by_cases hg : g = p.guid
      · right
        rw [hg, updateSave_store]
        refine ⟨_, rfl, ?_⟩
        rcases hDecay with h | ⟨h1, h2⟩
        · exact Or.inl h
        · exact Or.inr ⟨data, hData, h1, h2⟩
      · left
        exact updateSave_other cfg w p.guid g d3 diff hg

/-- One event leaves the record of `g` untouched, fresh or with its
satisfaction and cached state as before, unless it is a logout of `g`, which
removes the record. -/
theorem step_kept (cfg : Config) (w : World) (e : Event) (g : ObjectGuid) :
    RecordKept (w.sMountFeedingStore g) ((step cfg w e).sMountFeedingStore g) ∨
    ((step cfg w e).sMountFeedingStore g = none ∧ e.isLogoutOf g = true) := by
  cases e with
  | login player => exact Or.inl (OnPlayerLogin_kept _ _ _ _)
  | logout player =>
    cases player with
    | none => exact Or.inl (Or.inl rfl)
    | some q =>
      show RecordKept (w.sMountFeedingStore g)
          ((OnPlayerLogout w (some q)).sMountFeedingStore g) ∨
        ((OnPlayerLogout w (some q)).sMountFeedingStore g = none ∧
          (Event.logout (some q)).isLogoutOf g = true)
      unfold OnPlayerLogout
      dsimp only
      cases hData : w.sMountFeedingStore q.guid with
      | none => exact Or.inl (Or.inl rfl)
      | some data =>
        dsimp only
        by_cases hg : g = q.guid
        · right
          simp [World.erase, SaveSatisfaction, Event.isLogoutOf, hg]
        · left
          left
          simp [World.erase, SaveSatisfaction, hg]
  | itemUse now player item => exact Or.inl (CanItemUse_kept _ _ _ _ _ _)
  | auraApply unit aura => exact Or.inl (OnAuraApply_kept _ _ _ _ _)
  | auraRemove now unit aurApp => exact Or.inl (OnAuraRemove_kept _ _ _ _ _ _)
  | levelChanged player oldLevel => exact Or.inl (OnPlayerLevelChanged_kept _ _ _ oldLevel _)
  | update player diff => exact Or.inl (OnPlayerUpdate_kept _ _ _ _ _)

theorem step_cachedAt (cfg : Config) (w : World) (e : Event) (g : ObjectGuid)
    (hw : CachedAt w g) : CachedAt (step cfg w e) g := by
  intro d1 h1
  rcases step_kept cfg w e g with (hSame | ⟨d2, h2, hFresh | ⟨d, hd, hs, hl⟩⟩) | ⟨hNone, _⟩
  · rw [hSame] at h1
    exact hw d1 h1
  · rw [h2] at h1
    cases h1
    exact hFresh
  · rw [h2] at h1
    cases h1
    rw [hs, hl]
    exact hw d hd
  · rw [hNone] at h1
    cases h1

theorem step_online (cfg : Config) (w : World) (e : Event) (g : ObjectGuid)
    (hw : ∃ d, w.sMountFeedingStore g = some d) (hNot : e.isLogoutOf g = false) :
    ∃ d, (step cfg w e).sMountFeedingStore g = some d := by
  rcases step_kept cfg w e g with (hSame | ⟨d2, h2, _⟩) | ⟨_, hOut⟩
  · rw [hSame]
    exact hw
  · exact ⟨d2, h2⟩
  · rw [hOut] at hNot
    cases hNot

theorem run_cachedAt (cfg : Config) (g : ObjectGuid) (events : List Event) :
    ∀ w, CachedAt w g → CachedAt (run cfg w events) g := by
  induction events with
  | nil => intro w hw; exact hw
  | cons e es ih => intro w hw; exact ih _ (step_cachedAt cfg w e g hw)

theorem run_online (cfg : Config) (g : ObjectGuid) (events : List Event) :
    ∀ w, (∃ d, w.sMountFeedingStore g = some d) →
      (∀ e ∈ events, e.isLogoutOf g = false) →
      ∃ d, (run cfg w events).sMountFeedingStore g = some d := by
  induction events with
  | nil => intro w hw _; exact hw
  | cons e es ih =>
    intro w hw hNot
    exact ih _ (step_online cfg w e g hw (hNot e (List.mem_cons_self _ _)))
      (fun e1 he1 => hNot e1 (List.mem_cons_of_mem _ he1))

theorem OnPlayerLogin_fresh (cfg : Config) (w : World) (p : Player)
    (hEnabled : cfg.sEnabled = true) :
    ∃ d, (OnPlayerLogin cfg w (some p)).sMountFeedingStore p.guid = some d ∧
      d.lastState = GetSatisfactionState d.satisfaction := by
  simp [OnPlayerLogin, hEnabled, World.setData]

/-- C21: the cached state never goes stale.  With the feature enabled, let
the player `p` log in to any world (whatever its store and table hold) and
let any sequence of events follow (feed, aura-apply, aura-remove,
level-change and tick events, and logins and logouts too, of `p` or of
others).  Then (1) the record of `p`, if the store holds one afterwards, has
`lastState = GetSatisfactionState(satisfaction)`; (2) the store does hold one
when no event of the sequence is a logout of `p`; and (3) for every
configuration, from the empty store of server start, every record of every
player has `lastState = GetSatisfactionState(satisfaction)` after any
sequence of events. -/
theorem lastState_never_stale (cfg : Config) (w : World) (p : Player) (events : List Event)
    (hEnabled : cfg.sEnabled = true) :
    (∀ d, (run cfg (OnPlayerLogin cfg w (some p)) events).sMountFeedingStore p.guid = some d →
      d.lastState = GetSatisfactionState d.satisfaction) ∧
    ((∀ e ∈ events, e.isLogoutOf p.guid = false) →
      ∃ d, (run cfg (OnPlayerLogin cfg w (some p)) events).sMountFeedingStore p.guid =
        some d) ∧
    (∀ (c : Config) (rows : ObjectGuid → Option Int) (evs : List Event),
      StateCached (run c (initialWorld rows) evs)) := by
  obtain ⟨d0, h0, hFresh⟩ := OnPlayerLogin_fresh cfg w p hEnabled
  refine ⟨?_, ?_, ?_⟩
  · apply run_cachedAt cfg p.guid events
    intro d hd
    rw [h0] at hd
    cases hd
    exact hFresh
  · intro hNot
    exact run_online cfg p.guid events _ ⟨d0, h0⟩ hNot
  · intro c rows evs g
    apply run_cachedAt c g evs
    intro d hd
    cases hd

theorem lastState_never_stale_witness :
    defaultConfig.sEnabled = true ∧
    (staleWorld.sMountFeedingStore 1).map (fun d => (d.satisfaction, d.lastState)) =
      some (100000, 2) ∧
    (run defaultConfig (OnPlayerLogin defaultConfig staleWorld (some contentPlayer))
      (sessionEvents.take 2)).sMountFeedingStore 1 =
      some ⟨332765, false, 7500, 292500, 0, 75, 0, 458, 0, false⟩ ∧
    (0 : Nat) = GetSatisfactionState 332765 ∧
    (run defaultConfig (OnPlayerLogin defaultConfig staleWorld (some contentPlayer))
      sessionEvents).sMountFeedingStore 1 =
      some ⟨682765, false, 7500, 292500, 2, 75, 0, 458, 0, false⟩ ∧
    (2 : Nat) = GetSatisfactionState 682765 ∧
    (∃ d, (run defaultConfig (OnPlayerLogin defaultConfig staleWorld (some contentPlayer))
      sessionEvents).sMountFeedingStore contentPlayer.guid = some d) :=
  ⟨by decide, by decide, by decide,
    (lastState_never_stale defaultConfig staleWorld contentPlayer (sessionEvents.take 2)
      (by decide)).1 ⟨332765, false, 7500, 292500, 0, 75, 0, 458, 0, false⟩ (by decide),
    by decide,
    (lastState_never_stale defaultConfig staleWorld contentPlayer sessionEvents
      (by decide)).1 ⟨682765, false, 7500, 292500, 2, 75, 0, 458, 0, false⟩ (by decide),
    (lastState_never_stale defaultConfig staleWorld contentPlayer sessionEvents
      (by decide)).2.1 (by decide)⟩
end MountFeeding
